import Mathlib

/-! Matter / LwM2M bridge: identifier maps, resource paths and the CoAP request proxies.

A shallow embedding of the bridge engine of the repository:

* `BiMap` and `MatterIpsoMapping` (BridgeUtils.h) with `GenerateMatterIpsoMapping` (main.cpp);
* the string helpers `ExtractBetweenSlashes` (BridgeUtils.h) and `SplitString` (CoapServer.cpp);
* the proxies `ForwardAttributeReadMessage`, `ForwardAttributeWriteMessage`,
  `ForwardCommandMessage` and the handlers `hnd_attribute_get`, `hnd_attribute_put`,
  `hnd_command_put` with the registration of the resources (CoapServer.cpp);
* the binding handler `StateChangedHandler` (BindingHandler.cpp);
* the client request functions `CoapClientGet`, `CoapClientPut` and the loaders
  (CoapClient.cpp) with the callbacks of the reverse bridge (main.cpp);
* `decToHexa` (BridgeUtils.cpp).

Conventions: a `std::string` is a `List Char`, a byte buffer a `List Nat`; the type `int`
is `Int` with the bounds `INT_MIN`, `INT_MAX` stated where a value has to fit; `size_t`
arithmetic that can wrap is taken modulo `SIZE_MAX + 1`; a thrown exception is the `error`
case of `Except Exn`. Definitions come first, the theorems follow.
-/

namespace Bridge

/-! ## Definitions: the bidirectional map (BridgeUtils.h) -/

/-- A std::unordered_map<int, int>: the stored (key, value) entries. The operations below
keep at most one entry per key. -/
structure UMap where
  entries : List (Int × Int)
deriving DecidableEq, Repr

namespace UMap

/-- The default-constructed (empty) map. -/
def empty : UMap := ⟨[]⟩

/-- Entry lookup on a list of entries: the value stored under the key, if any. -/
def findIn : List (Int × Int) → Int → Option Int
  | [], _ => none
  | (k, v) :: rest, key => if k = key then some v else findIn rest key

/-- The call map.find(key): some value when an entry with that key exists, none for end(). -/
def find (m : UMap) (key : Int) : Option Int := findIn m.entries key

/-- Assignment through operator[] on a list of entries. -/
def assignIn : List (Int × Int) → Int → Int → List (Int × Int)
  | [], key, val => [(key, val)]
  | (k, v) :: rest, key, val =>
    if k = key then (k, val) :: rest else (k, v) :: assignIn rest key val

/-- The statement map[key] = val: overwrites the value of an existing entry, otherwise adds one. -/
def assign (m : UMap) (key val : Int) : UMap := ⟨assignIn m.entries key val⟩

/-- The call map.size(): the number of entries. -/
def size (m : UMap) : Nat := m.entries.length

/-- The keys that have an entry. -/
def keys (m : UMap) : List Int := m.entries.map Prod.fst

end UMap

/-- The class BiMap of BridgeUtils.h: left_map is keyed by Matter id, right_map by LwM2M id. -/
structure BiMap where
  left_map : UMap
  right_map : UMap
deriving DecidableEq, Repr

namespace BiMap

/-- A default-constructed BiMap: both maps empty. -/
def empty : BiMap := ⟨UMap.empty, UMap.empty⟩

/-- BiMap::insert: rejected (only an error is logged) when matter_id is a key of left_map or
ipso_id is a key of right_map; otherwise both directions are stored. -/
def insert (m : BiMap) (matter_id ipso_id : Int) : BiMap :=
  if (m.left_map.find matter_id).isSome || (m.right_map.find ipso_id).isSome then
    m
  else
    { left_map := m.left_map.assign matter_id ipso_id
      right_map := m.right_map.assign ipso_id matter_id }

/-- BiMap::get_ipso_id: the LwM2M id stored for a Matter id, -1 when there is none. -/
def get_ipso_id (m : BiMap) (matter_id : Int) : Int :=
  match m.left_map.find matter_id with
  | some v => v
  | none => -1

/-- BiMap::get_matter_id: the Matter id stored for an LwM2M id, -1 when there is none. -/
def get_matter_id (m : BiMap) (ipso_id : Int) : Int :=
  match m.right_map.find ipso_id with
  | some v => v
  | none => -1

/-- Whether a Matter id is present (a key of left_map). -/
def has_matter_id (m : BiMap) (matter_id : Int) : Bool := (m.left_map.find matter_id).isSome

/-- Whether an LwM2M id is present (a key of right_map). -/
def has_ipso_id (m : BiMap) (ipso_id : Int) : Bool := (m.right_map.find ipso_id).isSome

/-- A sequence of insert calls, applied in order. -/
def insertAll (m : BiMap) (calls : List (Int × Int)) : BiMap :=
  calls.foldl (fun acc p => acc.insert p.1 p.2) m

/-- A call of one of the three public member functions. -/
inductive Call where
  | insert (matter_id ipso_id : Int)
  | get_ipso_id (matter_id : Int)
  | get_matter_id (ipso_id : Int)
deriving DecidableEq, Repr

/-- A member call as a transition of the object: the object after the call and the value the
call returns (insert is void; the two lookups are const member functions). -/
def call (m : BiMap) : Call → BiMap × Option Int
  | .insert a b => (m.insert a b, none)
  | .get_ipso_id a => (m, some (m.get_ipso_id a))
  | .get_matter_id b => (m, some (m.get_matter_id b))

end BiMap

/-- The representation invariant of a BiMap: the two maps are inverse to each other, hold one
entry per key, and have the same size. -/
def BiMap.WellFormed (m : BiMap) : Prop :=
  (∀ a b, m.left_map.find a = some b ↔ m.right_map.find b = some a) ∧
  m.left_map.keys.Nodup ∧ m.right_map.keys.Nodup ∧
  m.left_map.size = m.right_map.size

/-! ## Definitions: strings -/

/-- Largest value of size_t on the 32-bit target; std::string::npos has this value. -/
def SIZE_MAX : Nat := 4294967295

/-- Subtraction of two size_t values, which wraps around modulo SIZE_MAX + 1. -/
def size_sub (a b : Nat) : Nat := (a + (SIZE_MAX + 1) - b % (SIZE_MAX + 1)) % (SIZE_MAX + 1)

/-- Scan for the first occurrence of ch in a suffix whose first character has index i. -/
def findFrom : List Char → Char → Nat → Option Nat
  | [], _, _ => none
  | c :: rest, ch, i => if c = ch then some i else findFrom rest ch (i + 1)

/-- The call str.find(ch, pos): the first index at or after pos that holds ch; none stands
for the result npos. -/
def find (str : List Char) (ch : Char) (pos : Nat) : Option Nat :=
  findFrom (str.drop pos) ch pos

/-- Scan for the last occurrence of ch in a list whose first character has index i; acc is
the last occurrence seen so far. -/
def lastIndexFrom : List Char → Char → Nat → Option Nat → Option Nat
  | [], _, _, acc => acc
  | c :: rest, ch, i, acc => lastIndexFrom rest ch (i + 1) (if c = ch then some i else acc)

/-- The call str.rfind(ch, pos): the last index at or before pos that holds ch (the whole
string is searched when pos is npos or beyond the end); none stands for the result npos. -/
def rfind (str : List Char) (ch : Char) (pos : Nat) : Option Nat :=
  lastIndexFrom (str.take (pos + 1)) ch 0 none

/-- The call str.substr(pos, count): at most count characters from index pos on. The calls
modelled here pass pos <= str.size(), where std::string::substr does not throw. -/
def substr (str : List Char) (pos count : Nat) : List Char :=
  (str.drop pos).take count

/-- ExtractBetweenSlashes of BridgeUtils.h. -/
def ExtractBetweenSlashes (str : List Char) : List Char :=
  match rfind str '/' SIZE_MAX with
  | none => []
  | some lastBackslashPos =>
    match rfind str '/' (size_sub lastBackslashPos 1) with
    | none => []
    | some prevBackslashPos =>
      substr str (prevBackslashPos + 1)
        (size_sub (size_sub lastBackslashPos prevBackslashPos) 1)

/-- The while loop of SplitString with its final push_back (str.substr(start) is the rest of
the string from start on). Every iteration moves start past one delimiter, so fuel above the
number of characters left is never used up; none is the answer of a loop that was cut
short. In end - start the loop has end >= start, so the subtraction does not wrap. -/
def SplitString.loop (str : List Char) (delimiter : Char) :
    Nat → Nat → List (List Char) → Option (List (List Char))
  | 0, _, _ => none
  | fuel + 1, start, tokens =>
    match find str delimiter start with
    | some end_ =>
      SplitString.loop str delimiter fuel (end_ + 1) (tokens ++ [substr str start (end_ - start)])
    | none => some (tokens ++ [str.drop start])

/-- SplitString of CoapServer.cpp: the tokens of str between the delimiters. -/
def SplitString (str : List Char) (delimiter : Char) : List (List Char) :=
  (SplitString.loop str delimiter (str.length + 1) 0 []).getD []

/-- The tokens of a string between the occurrences of a delimiter, by recursion on the
string; used to describe what the loop of SplitString computes. -/
def splitTokens (d : Char) : List Char → List (List Char)
  | [] => [[]]
  | c :: rest =>
    if c = d then [] :: splitTokens d rest
    else
      match splitTokens d rest with
      | [] => [[c]]
      | t :: ts => (c :: t) :: ts

/-- Smallest value of the 32-bit type int. -/
def INT_MIN : Int := -2147483648

/-- Largest value of the 32-bit type int. -/
def INT_MAX : Int := 2147483647

/-- The exceptions the standard library calls modelled here throw. -/
inductive Exn where
  | invalid_argument
  | out_of_range
deriving DecidableEq, Repr

deriving instance DecidableEq for Except

/-- The call std::to_string(int): the decimal numeral of the value, as printed by the
conversion d of printf, with a minus sign in front of a negative value. -/
def to_string (value : Int) : List Char :=
  if value < 0 then '-' :: Nat.toDigits 10 value.natAbs else Nat.toDigits 10 value.toNat

/-- The test isspace of the C locale. -/
def isspace (c : Char) : Bool :=
  c = ' ' || (9 ≤ c.toNat && c.toNat ≤ 13)

/-- The test isdigit. -/
def isdigit (c : Char) : Bool :=
  48 ≤ c.toNat && c.toNat ≤ 57

/-- The number read from the longest run of decimal digits at the front of a string,
continuing from the value acc. -/
def digitsValue : List Char → Nat → Nat
  | [], acc => acc
  | c :: rest, acc => if isdigit c then digitsValue rest (acc * 10 + (c.toNat - 48)) else acc

/-- The call std::stoi(str): skips leading white space, reads an optional sign and the
longest run of decimal digits; throws invalid_argument when there is no digit and
out_of_range when the number is not a value of int. Characters after the number are
ignored. -/
def stoi (str : List Char) : Except Exn Int :=
  let body := str.dropWhile isspace
  let negative := body.head? = some '-'
  let digits := if body.head? = some '-' ∨ body.head? = some '+' then body.tail else body
  match digits with
  | [] => .error .invalid_argument
  | c :: _ =>
    if isdigit c then
      let value : Int := if negative then -(digitsValue digits 0 : Int) else digitsValue digits 0
      if INT_MIN ≤ value ∧ value ≤ INT_MAX then .ok value else .error .out_of_range
    else .error .invalid_argument

/-- The value of a digit string read from the left, continuing from the value acc. -/
def decimalValue (ds : List Char) (acc : Nat) : Nat :=
  ds.foldl (fun a c => a * 10 + (c.toNat - 48)) acc

/-- A string is the decimal numeral of n: a non-empty run of digits of value n, with no
leading zero unless it is the single digit 0. -/
structure IsDecimalOf (ds : List Char) (n : Nat) : Prop where
  ne_nil : ds ≠ []
  digits : ∀ c ∈ ds, isdigit c = true
  value : decimalValue ds 0 = n
  no_leading_zero : ds.head? = some '0' → ds = ['0']
  magnitude : ds.length = 1 ∨ 10 ^ (ds.length - 1) ≤ n

/-- The call v.at(i) on a std::vector: the element at index i, out_of_range when i is not
below v.size(). -/
def vector_at {α : Type} (v : List α) (i : Nat) : Except Exn α :=
  match v.get? i with
  | some x => .ok x
  | none => .error .out_of_range

/-- The resource path put together in GenerateCoapResource:
to_string(object id), then the text /0/, then to_string(resource id). -/
def ComposePath (object_id resource_id : Int) : List Char :=
  to_string object_id ++ "/0/".toList ++ to_string resource_id

/-- The first statements of the three Forward functions of CoapServer.cpp: the request path
is split on the slash and the tokens 0 and 2 are read with stoi as object id and resource
id. -/
def DecomposePath (uri : List Char) : Except Exn (Int × Int) := do
  let split_string := SplitString uri '/'
  let object_id ← stoi (← vector_at split_string 0)
  let resource_id ← stoi (← vector_at split_string 2)
  pure (object_id, resource_id)

/-! ## Definitions: the identifier maps (main.cpp) -/

/-- The struct MatterIpsoMapping of BridgeUtils.h. -/
structure MatterIpsoMapping where
  cluster_object_map : BiMap
  attribute_resource_map : BiMap
  command_resource_map : BiMap
  event_resource_map : BiMap
deriving DecidableEq, Repr

/-- A default-constructed MatterIpsoMapping: four empty maps. -/
def MatterIpsoMapping.empty : MatterIpsoMapping :=
  ⟨BiMap.empty, BiMap.empty, BiMap.empty, BiMap.empty⟩

/-- The value of one entry of the map object of a mapping document, as far as
GenerateMatterIpsoMapping reads it: the integers under the keys matter:id and oma:id, each
none when the value does not contain that key. -/
structure MapEntry where
  matter_id : Option Int
  oma_id : Option Int
deriving DecidableEq, Repr

/-- A parsed mapping document: the entries (key, value) of its map object in iteration
order, none when the document has no member map. -/
structure MappingDocument where
  map : Option (List (List Char × MapEntry))
deriving DecidableEq, Repr

/-- The body of the loop of GenerateMatterIpsoMapping for one entry of the map object. -/
def GenerateMatterIpsoMapping.entry (mapping : MatterIpsoMapping) (key : List Char)
    (value : MapEntry) : MatterIpsoMapping :=
  match value.matter_id, value.oma_id with
  | some matter_id, some oma_id =>
    if ExtractBetweenSlashes key = "sdfThing".toList then
      mapping
    else if ExtractBetweenSlashes key = "sdfObject".toList then
      { mapping with cluster_object_map := mapping.cluster_object_map.insert matter_id oma_id }
    else if ExtractBetweenSlashes key = "sdfProperty".toList then
      { mapping with
        attribute_resource_map := mapping.attribute_resource_map.insert matter_id oma_id }
    else if ExtractBetweenSlashes key = "sdfAction".toList then
      { mapping with command_resource_map := mapping.command_resource_map.insert matter_id oma_id }
    else if ExtractBetweenSlashes key = "sdfEvent".toList then
      { mapping with event_resource_map := mapping.event_resource_map.insert matter_id oma_id }
    else
      mapping
  | _, _ => mapping

/-- GenerateMatterIpsoMapping of main.cpp. -/
def GenerateMatterIpsoMapping (json : MappingDocument) : MatterIpsoMapping :=
  match json.map with
  | some entries =>
    entries.foldl (fun mapping kv => GenerateMatterIpsoMapping.entry mapping kv.1 kv.2)
      MatterIpsoMapping.empty
  | none => MatterIpsoMapping.empty

/-! ## Definitions: the request proxies and the GET handler (CoapServer.cpp) -/

/-- The type std::variant<uint16_t, bool> of BindingHandler.h (Data, and the pointee of
result_ptr). -/
inductive Data where
  | uint16 (value : Nat)
  | bool (value : Bool)
deriving DecidableEq, Repr

/-- The struct BindingCommandData of BindingHandler.h; the three ids have unsigned 32-bit
types. -/
structure BindingCommandData where
  localEndpointId : Nat
  commandId : Nat
  attributeId : Nat
  clusterId : Nat
  data : Data
  readAttribute : Bool
  writeAttribute : Bool
  isGroup : Bool
deriving DecidableEq, Repr

/-- The object made by chip::Platform::New<BindingCommandData>(): value-initialised, so the
members without a default member initialiser are zero and the variant holds uint16_t 0. -/
def BindingCommandData.new : BindingCommandData :=
  { localEndpointId := 2, commandId := 0, attributeId := 0, clusterId := 0,
    data := .uint16 0, readAttribute := false, writeAttribute := false, isGroup := false }

/-- Conversion of an int to an unsigned 32-bit id type: the value modulo 2^32. -/
def to_uint32 (v : Int) : Nat := (v % 4294967296).toNat

/-- The global type_map of CoapServer.cpp, a std::map from resource path to type name. -/
structure TypeMap where
  entries : List (List Char × List Char)
deriving DecidableEq, Repr

/-- The call type_map.at(key): the mapped type name, out_of_range when the key is absent. -/
def TypeMap.at (m : TypeMap) (key : List Char) : Except Exn (List Char) :=
  match m.entries.find? (fun kv => kv.1 = key) with
  | some kv => .ok kv.2
  | none => .error .out_of_range

/-- The bool read through reinterpret_cast<bool*> from the first byte of a byte buffer. -/
def read_bool (bytes : List Nat) : Bool := bytes.getD 0 0 ≠ 0

/-- The uint16_t read through reinterpret_cast<uint16_t*> from the first two bytes of a byte
buffer on the little-endian target. -/
def read_uint16 (bytes : List Nat) : Nat := bytes.getD 0 0 + 256 * bytes.getD 1 0

/-- The assignment to data->data in the attribute proxies, selected by the type name
registered for the path. -/
def set_data_by_type (data : BindingCommandData) (type_map : TypeMap) (uri : List Char)
    (bytes : List Nat) : Except Exn BindingCommandData := do
  if (← type_map.at uri) = "Boolean".toList then
    pure { data with data := .bool (read_bool bytes) }
  else if (← type_map.at uri) = "Unsigned Integer".toList then
    pure { data with data := .uint16 (read_uint16 bytes) }
  else
    pure data

/-- ForwardAttributeWriteMessage of CoapServer.cpp. The result lists the BindingCommandData
objects handed to ScheduleWork; an exception leaves the function before the call. -/
def ForwardAttributeWriteMessage (coap_mapping : MatterIpsoMapping) (type_map : TypeMap)
    (uri : List Char) (payload : List Nat) : Except Exn (List BindingCommandData) := do
  let (object_id, resource_id) ← DecomposePath uri
  let cluster_id := coap_mapping.cluster_object_map.get_matter_id object_id
  let attribute_id := coap_mapping.attribute_resource_map.get_matter_id resource_id
  let data := { BindingCommandData.new with
    attributeId := to_uint32 attribute_id, clusterId := to_uint32 cluster_id,
    writeAttribute := true }
  let data ← set_data_by_type data type_map uri payload
  pure [data]

/-- The call snprintf(buffer, n, format) for a format without conversion specification (the
formats passed here are decimal numerals): the characters that fit and a terminating zero
are stored, the full length of the text is returned. -/
def snprintf (buffer : List Nat) (n : Nat) (format : List Char) : List Nat × Nat :=
  if n = 0 then (buffer, format.length)
  else
    let bytes := (format.take (n - 1)).map Char.toNat ++ [0]
    (bytes ++ buffer.drop bytes.length, format.length)

/-- What the wait loop of ForwardAttributeReadMessage leaves behind. -/
structure PollResult where
  result_ptr : Option Data
  buffer : List Nat
  size : Nat
  polls : Nat
deriving DecidableEq, Repr

/-- The global result_ptr after a sleep of the wait loop: the value stored meanwhile by the
success callback of ProcessReadAttribute, if it ran, else the value it had. -/
def store_result (result_ptr : Option Data) (published : Option Data) : Option Data :=
  match published with
  | some value => some value
  | none => result_ptr

/-- The wait loop of ForwardAttributeReadMessage, by recursion on the counter tries.
published k is what the read callback stores in result_ptr during the sleep before the poll
number k (none when it does not run); polls counts the polls made so far. -/
def ForwardAttributeReadMessage.wait (published : Nat → Option Data) (buf_len : Nat) :
    Nat → Nat → Option Data → List Nat → Nat → PollResult
  | 0, polls, result_ptr, buffer, size => ⟨result_ptr, buffer, size, polls⟩
  | tries + 1, polls, result_ptr, buffer, size =>
    match store_result result_ptr (published polls) with
    | some (.uint16 value) =>
      let written := snprintf buffer buf_len (to_string value)
      ⟨some (.uint16 value), written.1, written.2, polls + 1⟩
    | some (.bool value) =>
      let written := snprintf buffer buf_len (to_string (if value then 1 else 0))
      ⟨some (.bool value), written.1, written.2, polls + 1⟩
    | none =>
      ForwardAttributeReadMessage.wait published buf_len tries (polls + 1) none buffer size

/-- The global result_ptr as poll number k of a wait loop finds it, when the loop starts with
poll number first and the value result_ptr and no earlier poll has ended it. -/
def result_at_poll (published : Nat → Option Data) (first : Nat) (result_ptr : Option Data) :
    Nat → Option Data
  | 0 => store_result result_ptr (published first)
  | k + 1 =>
    store_result (result_at_poll published first result_ptr k) (published (first + (k + 1)))

/-- The text the wait loop passes to snprintf as format for a value found in result_ptr:
std::to_string of the uint16_t, or of the bool (promoted to the int 0 or 1). -/
def result_text : Data → List Char
  | .uint16 value => to_string value
  | .bool value => to_string (if value then 1 else 0)

/-- What a call of ForwardAttributeReadMessage leaves behind: the objects handed to
ScheduleWork, the buffer, the reference parameter size, the global result_ptr and the number
of polls made. -/
structure ReadResult where
  scheduled : List BindingCommandData
  buffer : List Nat
  size : Nat
  result_ptr : Option Data
  polls : Nat
deriving DecidableEq, Repr

/-- ForwardAttributeReadMessage of CoapServer.cpp. The arguments buffer and size are the
contents of the caller's buffer and of the variable bound to the reference parameter at the
call, result_ptr the global at the call. -/
def ForwardAttributeReadMessage (coap_mapping : MatterIpsoMapping) (type_map : TypeMap)
    (result_ptr : Option Data) (published : Nat → Option Data)
    (uri : List Char) (buffer : List Nat) (buf_len : Nat) (size : Nat) :
    Except Exn ReadResult := do
  let (object_id, resource_id) ← DecomposePath uri
  let cluster_id := coap_mapping.cluster_object_map.get_matter_id object_id
  let attribute_id := coap_mapping.attribute_resource_map.get_matter_id resource_id
  let data := { BindingCommandData.new with
    attributeId := to_uint32 attribute_id, clusterId := to_uint32 cluster_id,
    readAttribute := true }
  let data ← set_data_by_type data type_map uri buffer
  let waited := ForwardAttributeReadMessage.wait published buf_len 10 0 result_ptr buffer size
  pure ⟨[data], waited.buffer, waited.size, none, waited.polls⟩

/-- ForwardCommandMessage of CoapServer.cpp. -/
def ForwardCommandMessage (coap_mapping : MatterIpsoMapping) (uri : List Char) :
    Except Exn (List BindingCommandData) := do
  let (object_id, resource_id) ← DecomposePath uri
  let cluster_id := coap_mapping.cluster_object_map.get_matter_id object_id
  let command_id := coap_mapping.command_resource_map.get_matter_id resource_id
  let data := { BindingCommandData.new with
    commandId := to_uint32 command_id, clusterId := to_uint32 cluster_id }
  pure [data]

/-- The bytes of a number, most significant first and without leading zero bytes (none at
all for zero); fuel bounds the number of bytes. -/
def bigEndianBytes : Nat → Nat → List Nat → List Nat
  | 0, _, acc => acc
  | fuel + 1, value, acc =>
    if value = 0 then acc else bigEndianBytes fuel (value / 256) (value % 256 :: acc)

/-- The call coap_encode_var_safe(buf, length, value) of libcoap for an unsigned int value:
stores the value at the front of buf in as few bytes as it needs, at most four, most
significant first (no byte for zero), and returns their number; zero when they do not
fit. -/
def coap_encode_var_safe (buf : List Nat) (length value : Nat) : List Nat × Nat :=
  let bytes := bigEndianBytes 4 value []
  if bytes.length ≤ length then (bytes ++ buf.drop bytes.length, bytes.length) else (buf, 0)

/-- A response PDU, as far as the handlers fill it: code, options (number, value) and
payload. -/
structure Response where
  code : Nat
  options : List (Nat × List Nat)
  data : List Nat
deriving DecidableEq, Repr

/-- The libcoap constant COAP_RESPONSE_CODE_CONTENT (2.05). -/
def COAP_RESPONSE_CODE_CONTENT : Nat := 69

/-- The libcoap constant COAP_OPTION_CONTENT_FORMAT. -/
def COAP_OPTION_CONTENT_FORMAT : Nat := 12

/-- The libcoap constant COAP_OPTION_MAXAGE. -/
def COAP_OPTION_MAXAGE : Nat := 14

/-- The libcoap constant COAP_MEDIATYPE_TEXT_PLAIN. -/
def COAP_MEDIATYPE_TEXT_PLAIN : Nat := 0

/-- What a call of hnd_attribute_get leaves behind: the response, the local response_len as
passed to coap_add_data, the objects handed to ScheduleWork, the global result_ptr and the
number of polls made. -/
structure GetResult where
  response : Response
  response_len : Nat
  scheduled : List BindingCommandData
  result_ptr : Option Data
  polls : Nat
deriving DecidableEq, Repr

/-- The handler hnd_attribute_get of CoapServer.cpp for a request on the path uri. The locals
buf (40 bytes) and response_len are declared without initialiser: stack_buf and stack_len
are the contents they happen to have. The payload added by coap_add_data is the first
response_len bytes of buf. -/
def hnd_attribute_get (coap_mapping : MatterIpsoMapping) (type_map : TypeMap)
    (result_ptr : Option Data) (published : Nat → Option Data)
    (uri : List Char) (stack_buf : List Nat) (stack_len : Nat) : Except Exn GetResult := do
  let buf := stack_buf
  let response_len := stack_len
  let format := coap_encode_var_safe buf 40 COAP_MEDIATYPE_TEXT_PLAIN
  let options := [(COAP_OPTION_CONTENT_FORMAT, format.1.take format.2)]
  let maxage := coap_encode_var_safe format.1 40 1
  let options := options ++ [(COAP_OPTION_MAXAGE, maxage.1.take maxage.2)]
  let read ← ForwardAttributeReadMessage coap_mapping type_map result_ptr published uri
    maxage.1 40 response_len
  pure ⟨⟨COAP_RESPONSE_CODE_CONTENT, options, read.buffer.take read.size⟩, read.size,
    read.scheduled, read.result_ptr, read.polls⟩

/-- The libcoap constant COAP_RESPONSE_CODE_CHANGED (2.04). -/
def COAP_RESPONSE_CODE_CHANGED : Nat := 68

/-- What a call of hnd_attribute_put or hnd_command_put leaves behind: the response and the
objects handed to ScheduleWork. -/
structure PutResult where
  response : Response
  scheduled : List BindingCommandData
deriving DecidableEq, Repr

/-- The handler hnd_attribute_put of CoapServer.cpp for a request on the path uri.
request_data is the payload coap_get_data finds (none when the request has none). A payload
is copied into a local array with a terminating zero byte after it. Without a payload the
proxy gets the zero-length array payload, so what it reads there is whatever the stack
holds: stack_bytes. -/
def hnd_attribute_put (coap_mapping : MatterIpsoMapping) (type_map : TypeMap)
    (uri : List Char) (request_data : Option (List Nat)) (stack_bytes : List Nat) :
    Except Exn PutResult := do
  let scheduled ←
    match request_data with
    | some data => ForwardAttributeWriteMessage coap_mapping type_map uri (data ++ [0])
    | none => ForwardAttributeWriteMessage coap_mapping type_map uri stack_bytes
  pure ⟨⟨COAP_RESPONSE_CODE_CHANGED, [], []⟩, scheduled⟩

/-- The handler hnd_command_put of CoapServer.cpp for a request on the path uri. -/
def hnd_command_put (coap_mapping : MatterIpsoMapping) (uri : List Char) :
    Except Exn PutResult := do
  let scheduled ← ForwardCommandMessage coap_mapping uri
  pure ⟨⟨COAP_RESPONSE_CODE_CHANGED, [], []⟩, scheduled⟩

/-! ## Definitions: the binding handler (BindingHandler.cpp) -/

/-- The cluster id Clusters::OnOff::Id of the Matter data model. -/
def OnOff_Id : Nat := 6

/-- The command id Clusters::OnOff::Commands::Off::Id of the Matter data model. -/
def Off_Id : Nat := 0

/-- The command id Clusters::OnOff::Commands::On::Id of the Matter data model. -/
def On_Id : Nat := 1

/-- The command id Clusters::OnOff::Commands::Toggle::Id of the Matter data model. -/
def Toggle_Id : Nat := 2

/-- The kind of a binding table entry (the member type of EmberBindingTableEntry). -/
inductive EmberBindingType where
  | EMBER_UNUSED_BINDING
  | EMBER_UNICAST_BINDING
  | EMBER_MULTICAST_BINDING
deriving DecidableEq, Repr

/-- The peer device handed to StateChangedHandler, as far as the handler asks it: whether
ConnectionReady() holds. A null peer_device is none. -/
structure OperationalDeviceProxy where
  ConnectionReady : Bool
deriving DecidableEq, Repr

/-- The three command objects the OnOff dispatch can send. -/
inductive OnOffCommand where
  | Toggle
  | On
  | Off
deriving DecidableEq, Repr

/-- The template argument of ProcessReadAttribute. -/
inductive ReadType where
  | uint16_t
  | bool
deriving DecidableEq, Repr

/-- A request StateChangedHandler hands to the Matter controller. -/
inductive Interaction where
  | WriteAttribute (clusterId attributeId : Nat) (value : Data)
  | ReadAttribute (clusterId attributeId : Nat) (type : ReadType)
  | InvokeCommandRequest (command : OnOffCommand)
  | InvokeGroupCommandRequest (command : OnOffCommand)
deriving DecidableEq, Repr

/-- The ways StateChangedHandler can stop without returning: VerifyOrDie aborts, or a member
of a null peer_device is called. -/
inductive Fault where
  | die
  | null_peer_device
deriving DecidableEq, Repr

/-- ProcessOnOffUnicastBindingCommand: the switch over the command id. -/
def ProcessOnOffUnicastBindingCommand (commandId : Nat) : List Interaction :=
  if commandId = Toggle_Id then [.InvokeCommandRequest .Toggle]
  else if commandId = On_Id then [.InvokeCommandRequest .On]
  else if commandId = Off_Id then [.InvokeCommandRequest .Off]
  else []

/-- ProcessOnOffGroupBindingCommand: the switch over the command id. -/
def ProcessOnOffGroupBindingCommand (commandId : Nat) : List Interaction :=
  if commandId = Toggle_Id then [.InvokeGroupCommandRequest .Toggle]
  else if commandId = On_Id then [.InvokeGroupCommandRequest .On]
  else if commandId = Off_Id then [.InvokeGroupCommandRequest .Off]
  else []

/-- StateChangedHandler of BindingHandler.cpp: the requests it sends for a binding of the
given kind, a peer device and a context (none for a null pointer). -/
def StateChangedHandler (binding_type : EmberBindingType)
    (peer_device : Option OperationalDeviceProxy) (context : Option BindingCommandData) :
    Except Fault (List Interaction) :=
  match context with
  | none => .ok []
  | some data =>
    if data.writeAttribute then
      match peer_device with
      | none => .error .null_peer_device
      | some _ => .ok [.WriteAttribute data.clusterId data.attributeId data.data]
    else if data.readAttribute then
      match peer_device with
      | none => .error .null_peer_device
      | some _ =>
        match data.data with
        | .uint16 _ => .ok [.ReadAttribute data.clusterId data.attributeId .uint16_t]
        | .bool _ => .ok [.ReadAttribute data.clusterId data.attributeId .bool]
    else if binding_type = .EMBER_UNICAST_BINDING ∧ data.isGroup = false then
      if data.clusterId = OnOff_Id then
        match peer_device with
        | none => .error .die
        | some device =>
          if device.ConnectionReady then .ok (ProcessOnOffUnicastBindingCommand data.commandId)
          else .error .die
      else .ok []
    else if binding_type = .EMBER_MULTICAST_BINDING ∧ data.isGroup = true then
      if data.clusterId = OnOff_Id then .ok (ProcessOnOffGroupBindingCommand data.commandId)
      else .ok []
    else .ok []

/-! ## Definitions: registration of the CoAP resources (LwM2MObject.hpp, CoapServer.cpp,
main.cpp) -/

/-- The struct ResourceDefinition of LwM2MObject.hpp. -/
structure ResourceDefinition where
  id : Int
  name : List Char
  type : List Char
  operations : List Char
  instance_mandatory : Bool
  state : List Char
deriving DecidableEq, Repr

/-- The struct ObjectDefinition of LwM2MObject.hpp. -/
structure ObjectDefinition where
  id : Int
  name : List Char
  resources : List ResourceDefinition
deriving DecidableEq, Repr

/-- The request methods of libcoap (coap_request_t). -/
inductive coap_request_t where
  | COAP_REQUEST_GET
  | COAP_REQUEST_POST
  | COAP_REQUEST_PUT
  | COAP_REQUEST_DELETE
  | COAP_REQUEST_FETCH
  | COAP_REQUEST_PATCH
  | COAP_REQUEST_IPATCH
deriving DecidableEq, Repr

/-- The three request handlers of CoapServer.cpp. -/
inductive RequestHandler where
  | hnd_attribute_get
  | hnd_attribute_put
  | hnd_command_put
deriving DecidableEq, Repr

/-- A resource made by coap_resource_init with the handlers registered on it by
coap_register_handler. -/
structure coap_resource_t where
  uri_path : List Char
  handlers : List (coap_request_t × RequestHandler)
deriving DecidableEq, Repr

/-- The state the registration functions work on: the global type_map and the resources
handed to coap_add_resource, in the order of the calls. -/
structure CoapServer where
  type_map : TypeMap
  resources : List coap_resource_t
deriving DecidableEq, Repr

/-- Assignment through operator[] on the entries of type_map. -/
def TypeMap.assignIn : List (List Char × List Char) → List Char → List Char →
    List (List Char × List Char)
  | [], key, val => [(key, val)]
  | (k, v) :: rest, key, val =>
    if k = key then (k, val) :: rest else (k, v) :: TypeMap.assignIn rest key val

/-- The statement type_map[key] = val. -/
def TypeMap.assign (m : TypeMap) (key val : List Char) : TypeMap :=
  ⟨TypeMap.assignIn m.entries key val⟩

/-- RegisterAttributeRWResource of CoapServer.cpp. -/
def RegisterAttributeRWResource (server : CoapServer) (uri type : List Char) : CoapServer :=
  { type_map := server.type_map.assign uri type
    resources := server.resources ++
      [⟨uri, [(.COAP_REQUEST_GET, .hnd_attribute_get), (.COAP_REQUEST_PUT, .hnd_attribute_put)]⟩] }

/-- RegisterAttributeResource of CoapServer.cpp. -/
def RegisterAttributeResource (server : CoapServer) (uri : List Char) (method : coap_request_t)
    (type : List Char) : CoapServer :=
  { type_map := server.type_map.assign uri type
    resources := server.resources ++
      [⟨uri,
        if method = .COAP_REQUEST_GET then [(method, .hnd_attribute_get)]
        else if method = .COAP_REQUEST_PUT then [(method, .hnd_attribute_put)]
        else []⟩] }

/-- RegisterCommandResource of CoapServer.cpp. -/
def RegisterCommandResource (server : CoapServer) (uri : List Char) : CoapServer :=
  { server with
    resources := server.resources ++ [⟨uri, [(.COAP_REQUEST_PUT, .hnd_command_put)]⟩] }

/-- The test operations.find(ch) != std::string::npos of GenerateCoapResource. -/
def has_operation (operations : List Char) (ch : Char) : Bool :=
  (find operations ch 0).isSome

/-- The body of the loop of GenerateCoapResource for one resource of the object. -/
def GenerateCoapResource.resource (object_id : Int) (server : CoapServer)
    (resource : ResourceDefinition) : CoapServer :=
  let uri_str := to_string object_id ++ "/0/".toList ++ to_string resource.id
  let server :=
    if has_operation resource.operations 'R' then
      if has_operation resource.operations 'W' then
        RegisterAttributeRWResource server uri_str resource.type
      else
        RegisterAttributeResource server uri_str .COAP_REQUEST_GET resource.type
    else if has_operation resource.operations 'W' then
      RegisterAttributeResource server uri_str .COAP_REQUEST_PUT resource.type
    else
      server
  if has_operation resource.operations 'E' then
    RegisterCommandResource server uri_str
  else
    server

/-- GenerateCoapResource of main.cpp. -/
def GenerateCoapResource (server : CoapServer) (object_definition : ObjectDefinition) :
    CoapServer :=
  object_definition.resources.foldl (GenerateCoapResource.resource object_definition.id) server

/-! ## Definitions: the CoAP client (CoapClient.cpp) -/

/-- The value of the macro EXIT_SUCCESS. -/
def EXIT_SUCCESS : Int := 0

/-- The value of the macro EXIT_FAILURE. -/
def EXIT_FAILURE : Int := 1

/-- The request codes passed to coap_pdu_init. -/
inductive coap_pdu_code_t where
  | COAP_REQUEST_CODE_GET
  | COAP_REQUEST_CODE_PUT
deriving DecidableEq, Repr

/-- A call into libcoap made by a client request function, in the order of the source. The
three release calls carry whether their argument was a non-null pointer, coap_pdu_init the
request code, coap_add_data the bytes it is given. -/
inductive LibCall where
  | coap_startup
  | coap_split_uri
  | resolve_address
  | coap_new_context
  | coap_context_set_block_mode
  | coap_new_client_session
  | coap_session_set_app_data
  | coap_register_response_handler
  | coap_register_nack_handler
  | coap_pdu_init (code : coap_pdu_code_t)
  | coap_uri_into_options
  | coap_add_optlist_pdu
  | coap_add_data (data : List Nat)
  | coap_send
  | coap_io_process
  | coap_delete_optlist (optlist : Bool)
  | coap_session_release (session : Bool)
  | coap_free_context (ctx : Bool)
  | coap_cleanup
deriving DecidableEq, Repr

/-- Whether a call is one of the three release calls of the cleanup step or coap_cleanup. -/
def LibCall.is_release : LibCall → Bool
  | .coap_delete_optlist _ => true
  | .coap_session_release _ => true
  | .coap_free_context _ => true
  | .coap_cleanup => true
  | _ => false

/-- What one call coap_io_process(ctx, 1000) of a wait loop does: the value it returns (the
milliseconds spent, negative for an error), the payload of a response it hands to the
registered response handler (none when no response arrives during the call), and whether it
invokes nack_handler. -/
structure IoStep where
  res : Int
  response : Option (List Nat)
  nack : Bool
deriving DecidableEq, Repr

/-- What libcoap and the network answer during one client request. -/
structure ClientEnv where
  /-- The value returned by coap_split_uri (0 for a well-formed URI). -/
  split_uri : Int
  /-- Whether coap_resolve_address_info finds an address for the host. -/
  addr_info : Bool
  /-- Whether coap_new_context returns a context. -/
  new_context : Bool
  /-- Whether coap_new_client_session returns a session. -/
  new_client_session : Bool
  /-- Whether coap_pdu_init returns a PDU. -/
  pdu_init : Bool
  /-- The value returned by coap_uri_into_options. -/
  uri_into_options : Int
  /-- Whether optlist is non-null after coap_uri_into_options. -/
  optlist : Bool
  /-- The value returned by coap_add_optlist_pdu. -/
  add_optlist_pdu : Int
  /-- The value returned by coap_add_data. -/
  add_data : Int
  /-- Whether coap_send returns a valid message id. -/
  send : Bool
  /-- The member integer_part of coap_session_get_default_leisure(session). -/
  leisure_integer_part : Nat
  /-- The calls of coap_io_process, numbered from 0. -/
  io : Nat → IoStep

/-- The module state of the client: the statics ctx and optlist (whether they are non-null)
and the global have_response. -/
structure ClientState where
  ctx : Bool
  optlist : Bool
  have_response : Int
deriving DecidableEq, Repr

/-- The module state at start-up: both pointers NULL and have_response 0. -/
def ClientState.reset : ClientState := ⟨false, false, 0⟩

/-- The variables of a running client request: the module state, the locals session and pdu
(whether they are non-null), wait_ms and result, the calls made so far, the stores made
through result_buffer as (index, byte) in the order they are made, and the payload last
handed to a document parser. -/
structure ClientVars where
  ctx : Bool
  optlist : Bool
  have_response : Int
  session : Bool
  pdu : Bool
  wait_ms : Nat
  result : Int
  calls : List LibCall
  answer_stores : List (Nat × Nat)
  document : Option (List Nat)
deriving DecidableEq, Repr

/-- The variables at the first statement of a client request function. -/
def ClientVars.entry (state : ClientState) : ClientVars :=
  { ctx := state.ctx, optlist := state.optlist, have_response := state.have_response,
    session := false, pdu := false, wait_ms := 0, result := EXIT_FAILURE,
    calls := [], answer_stores := [], document := none }

/-- Record a call. -/
def ClientVars.call (v : ClientVars) (c : LibCall) : ClientVars :=
  { v with calls := v.calls ++ [c] }

/-- Assignment to the static ctx. -/
def ClientVars.set_ctx (v : ClientVars) (ctx : Bool) : ClientVars := { v with ctx := ctx }

/-- Assignment to the static optlist (through the pointer given to coap_uri_into_options). -/
def ClientVars.set_optlist (v : ClientVars) (optlist : Bool) : ClientVars :=
  { v with optlist := optlist }

/-- Assignment to the local session. -/
def ClientVars.set_session (v : ClientVars) (session : Bool) : ClientVars :=
  { v with session := session }

/-- Assignment to the local pdu. -/
def ClientVars.set_pdu (v : ClientVars) (pdu : Bool) : ClientVars := { v with pdu := pdu }

/-- Assignment to the local wait_ms. -/
def ClientVars.set_wait_ms (v : ClientVars) (wait_ms : Nat) : ClientVars :=
  { v with wait_ms := wait_ms }

/-- What a client request function leaves behind: its return value, the module state, the
calls made, the stores made through result_buffer and the payload handed to a document
parser. -/
structure ClientResult where
  result : Int
  state : ClientState
  calls : List LibCall
  answer_stores : List (Nat × Nat)
  document : Option (List Nat)
deriving DecidableEq, Repr

/-- The statements after the label finish, shared by all client request functions. -/
def finish (v : ClientVars) : ClientResult :=
  { result := v.result
    state := ⟨false, false, 0⟩
    calls := v.calls ++ [.coap_delete_optlist v.optlist, .coap_session_release v.session,
      .coap_free_context v.ctx, .coap_cleanup]
    answer_stores := v.answer_stores
    document := v.document }

/-- The function resolve_address of CoapClient.h: 1 when an address is found, else 0. -/
def resolve_address (env : ClientEnv) : Int := if env.addr_info then 1 else 0

/-- The three kinds of response handler the GET functions register: the one of
CoapClientGet(uri, answer, answer_size) copies the payload to the answer buffer, the one of
CoapClientGet(uri) only logs it, the ones of the five Load functions hand it to a document
parser. -/
inductive ResponseHandler where
  | copy_to_answer
  | log
  | load_document
deriving DecidableEq, Repr

/-- The bytes strncpy(dest, src, n) stores at dest[0..n-1]: the characters of src up to its
first zero byte or n characters, then zero bytes up to n. -/
def strncpy (src : List Nat) (n : Nat) : List Nat :=
  let copied := (src.take n).takeWhile (fun b => b ≠ 0)
  copied ++ List.replicate (n - copied.length) 0

/-- The response handler: sets have_response and, when the response has a payload (the
call coap_get_data or coap_get_data_large finds data), uses it as its kind says. The handler
of CoapClientGet(uri, answer, answer_size) stores strncpy(result_buffer, data, len) and then
result_buffer[len] = 0. -/
def response_handler (kind : ResponseHandler) (v : ClientVars) (payload : List Nat) :
    ClientVars :=
  let v := { v with have_response := 1 }
  if payload = [] then v
  else
    match kind with
    | .copy_to_answer =>
      { v with answer_stores := v.answer_stores
          ++ (strncpy payload payload.length).enum ++ [(payload.length, 0)] }
    | .log => v
    | .load_document => { v with document := some payload }

/-- One call coap_io_process(ctx, 1000) of a wait loop, the call number k: the call is made
and, when a response arrives during it, the registered response handler runs. nack_handler
only logs, so a nack changes nothing. -/
def io_process (env : ClientEnv) (kind : ResponseHandler) (k : Nat) (v : ClientVars) :
    ClientVars :=
  match (env.io k).response with
  | some payload => response_handler kind (v.call .coap_io_process) payload
  | none => v.call .coap_io_process

/-- The wait loop of the GET functions, while (have_response == 0), from the call number k
of coap_io_process on. Nothing in the loop bounds the number of its turns, so the model
counts them down from fuel; none is the answer of a loop that was cut short. -/
def wait_loop (env : ClientEnv) (kind : ResponseHandler) :
    Nat → Nat → ClientVars → Option ClientVars
  | 0, _, _ => none
  | fuel + 1, k, v =>
    if v.have_response = 0 then
      let v := io_process env kind k v
      if (env.io k).res ≥ 0 then
        if v.wait_ms > 0 then
          if (env.io k).res.toNat ≥ v.wait_ms then
            some v
          else
            wait_loop env kind fuel (k + 1) (v.set_wait_ms (v.wait_ms - (env.io k).res.toNat))
        else
          wait_loop env kind fuel (k + 1) v
      else
        wait_loop env kind fuel (k + 1) v
    else
      some v

/-- The statements of a GET function from its start to coap_send. A goto finish is the
error case, which carries the variables at the jump; ok carries them after a successful
coap_send and the assignment to wait_ms. The functions of the GET family differ in whether
they call coap_session_set_app_data (only the one with an answer buffer does). -/
def get_request (env : ClientEnv) (kind : ResponseHandler) (state : ClientState) :
    Except ClientVars ClientVars := do
  let v := (ClientVars.entry state).call .coap_startup
  let v := v.call .coap_split_uri
  if env.split_uri ≠ 0 then throw v
  let v := v.call .resolve_address
  if resolve_address env ≤ 0 then throw v
  let v := (v.call .coap_new_context).set_ctx env.new_context
  if env.new_context = false then throw v
  let v := v.call .coap_context_set_block_mode
  let v := (v.call .coap_new_client_session).set_session env.new_client_session
  if env.new_client_session = false then throw v
  let v := if kind = .copy_to_answer then v.call .coap_session_set_app_data else v
  let v := v.call .coap_register_response_handler
  let v := v.call .coap_register_nack_handler
  let v := (v.call (.coap_pdu_init .COAP_REQUEST_CODE_GET)).set_pdu env.pdu_init
  if env.pdu_init = false then throw v
  let v := (v.call .coap_uri_into_options).set_optlist env.optlist
  if env.uri_into_options ≠ 0 then throw v
  let v ←
    if v.optlist then
      if env.add_optlist_pdu ≠ 1 then throw (v.call .coap_add_optlist_pdu)
      else pure (v.call .coap_add_optlist_pdu)
    else pure v
  let v := v.call .coap_send
  if env.send = false then throw v
  pure (v.set_wait_ms (((env.leisure_integer_part + 1) * 1000) % 4294967296))

/-- A function of the GET family: the request, the wait loop, the cleanup. The result is
none when the wait loop is cut short by the fuel. -/
def client_get (fuel : Nat) (env : ClientEnv) (kind : ResponseHandler) (state : ClientState) :
    Option ClientResult :=
  match get_request env kind state with
  | .error v => some (finish v)
  | .ok v => (wait_loop env kind fuel 0 v).map finish

/-- CoapClientGet(client_uri, answer, answer_size) of CoapClient.cpp. No statement of the
function reads the parameter answer_size, so it is no argument here; the stores made through
answer are recorded in answer_stores. -/
def CoapClientGet (fuel : Nat) (env : ClientEnv) (state : ClientState) : Option ClientResult :=
  client_get fuel env .copy_to_answer state

/-- CoapClientGet(client_uri) of CoapClient.cpp. -/
def CoapClientGet.uri_only (fuel : Nat) (env : ClientEnv) (state : ClientState) :
    Option ClientResult :=
  client_get fuel env .log state

/-- The functions LoadClusterXmlFile, LoadSdfModelFile, LoadSdfMappingLwm2mFile,
LoadSdfMappingMatterFile and LoadLwm2mFile of CoapClient.cpp: they have the statements of
CoapClientGet(client_uri) and differ from it and from each other only in the document their
response handler parses the payload into. -/
def LoadFile (fuel : Nat) (env : ClientEnv) (state : ClientState) : Option ClientResult :=
  client_get fuel env .load_document state

/-- The statements of a PUT function from its start to coap_send; payload is what
coap_add_data is given. -/
def put_request (env : ClientEnv) (payload : List Nat) (state : ClientState) :
    Except ClientVars ClientVars := do
  let v := (ClientVars.entry state).call .coap_startup
  let v := v.call .coap_split_uri
  if env.split_uri ≠ 0 then throw v
  let v := v.call .resolve_address
  if resolve_address env ≤ 0 then throw v
  let v := (v.call .coap_new_context).set_ctx env.new_context
  if env.new_context = false then throw v
  let v := (v.call .coap_new_client_session).set_session env.new_client_session
  if env.new_client_session = false then throw v
  let v := (v.call (.coap_pdu_init .COAP_REQUEST_CODE_PUT)).set_pdu env.pdu_init
  if env.pdu_init = false then throw v
  let v := (v.call .coap_uri_into_options).set_optlist env.optlist
  if env.uri_into_options < 0 then throw v
  let v ←
    if v.optlist then
      if env.add_optlist_pdu ≠ 1 then throw (v.call .coap_add_optlist_pdu)
      else pure (v.call .coap_add_optlist_pdu)
    else pure v
  let v := v.call (.coap_add_data payload)
  if env.add_data = 0 then throw v
  let v := v.call .coap_send
  if env.send = false then throw v
  pure v

/-- A function of the PUT family: the request and the cleanup. -/
def client_put (env : ClientEnv) (payload : List Nat) (state : ClientState) : ClientResult :=
  match put_request env payload state with
  | .error v => finish v
  | .ok v => finish v

/-- CoapClientPut(client_uri, data, data_size) of CoapClient.cpp: the payload is the first
data_size bytes at data. -/
def CoapClientPut (env : ClientEnv) (data : List Nat) (data_size : Nat) (state : ClientState) :
    ClientResult :=
  client_put env (data.take data_size) state

/-- CoapClientPut(client_uri) of CoapClient.cpp: coap_add_data is given sizeof(message)
bytes at message, where message is a pointer (four bytes on the target) to the text off with
its terminating zero byte. -/
def CoapClientPut.uri_only (env : ClientEnv) (state : ClientState) : ClientResult :=
  client_put env [111, 102, 102, 0] state

/-- What holds of the variables all through the request part of a client function (before the
label finish): result is still EXIT_FAILURE, no release call has been made, and a pointer is
non-null exactly when the call that sets it was reached and succeeded (for the statics ctx
and optlist: when they were NULL at the start). -/
def RequestInvariant (env : ClientEnv) (state : ClientState) (v : ClientVars) : Prop :=
  v.result = EXIT_FAILURE ∧ (∀ c ∈ v.calls, c.is_release = false) ∧
  (v.session = true ↔ (.coap_new_client_session ∈ v.calls ∧ env.new_client_session = true)) ∧
  (state.ctx = false →
    (v.ctx = true ↔ (.coap_new_context ∈ v.calls ∧ env.new_context = true))) ∧
  (state.optlist = false →
    (v.optlist = true ↔ (.coap_uri_into_options ∈ v.calls ∧ env.optlist = true)))

/-- What the cleanup step leaves behind when it ran once in a request that was entered in
the given module state: the module state is reset, the calls end with the three release calls
and coap_cleanup, no call before them is a release call or coap_cleanup, and each release call
is given a non-null pointer exactly when the request acquired the resource. -/
def CleanupRanOnce (env : ClientEnv) (state : ClientState) (r : ClientResult) : Prop :=
  r.state = ⟨false, false, 0⟩ ∧
  ∃ (body : List LibCall) (optlist session ctx : Bool),
    r.calls = body ++ [.coap_delete_optlist optlist, .coap_session_release session,
      .coap_free_context ctx, .coap_cleanup] ∧
    (∀ c ∈ body, c.is_release = false) ∧
    (session = true ↔ (.coap_new_client_session ∈ body ∧ env.new_client_session = true)) ∧
    (state.ctx = false → (ctx = true ↔ (.coap_new_context ∈ body ∧ env.new_context = true))) ∧
    (state.optlist = false →
      (optlist = true ↔ (.coap_uri_into_options ∈ body ∧ env.optlist = true)))

/-- The time consumed by the first k calls of coap_io_process of a wait loop: the sum of the
values they return, a negative value (an error) counting as no time. -/
def consumed (env : ClientEnv) : Nat → Nat
  | 0 => 0
  | k + 1 => consumed env k + (env.io k).res.toNat

/-- Whether a call takes the PDU off the caller. Of the calls made in CoapClient.cpp only
coap_send does: libcoap deletes the PDU handed to coap_send whatever it returns. No statement
of CoapClient.cpp calls coap_delete_pdu. -/
def LibCall.takes_pdu : LibCall → Bool
  | .coap_send => true
  | _ => false

/-- The stores made at an index that is not below answer_size, that is outside a buffer of
answer_size bytes. -/
def stores_from (answer_size : Nat) (stores : List (Nat × Nat)) : List (Nat × Nat) :=
  stores.filter (fun s => decide (answer_size ≤ s.1))

/-! ## Definitions: the reverse bridge (main.cpp) -/

/-- The values of Protocols::InteractionModel::Status the callbacks return. -/
inductive Status where
  | Success
  | Failure
deriving DecidableEq, Repr

/-- Conversion of an unsigned 32-bit id (ClusterId, AttributeId) to the parameter type int of
get_ipso_id: the values from 2^31 on become negative. -/
def to_int (v : Nat) : Int :=
  if v % 4294967296 < 2147483648 then ((v % 4294967296 : Nat) : Int)
  else ((v % 4294967296 : Nat) : Int) - 4294967296

/-- The text the variable target is initialised with in the callbacks of main.cpp. -/
def target_base : List Char := "coap://[fd73:13f6:c3ed:1:d8bd:9673:d9cd:a562]:5184/".toList

/-- The statements that build target in the callbacks of main.cpp: to the initial text are
appended to_string(ipso_object_id), the text /0/ and to_string(ipso_resource_id). -/
def build_target (ipso_object_id ipso_resource_id : Int) : List Char :=
  ((target_base ++ to_string ipso_object_id) ++ "/0/".toList) ++ to_string ipso_resource_id

/-- What a call of an external-attribute callback leaves behind: the status returned, the
target handed to the client (none when no request is made) and what the client request left
behind. -/
structure CallbackResult where
  status : Status
  target : Option (List Char)
  client : Option ClientResult
deriving DecidableEq, Repr

/-- The callback emberAfExternalAttributeReadCallback of main.cpp. endpointIndex is the value
of emberAfGetDynamicIndexFromEndpoint(endpoint), dynamic_endpoint_count the configuration
constant CHIP_DEVICE_CONFIG_DYNAMIC_ENDPOINT_COUNT, gDevices tells which entries of the
array gDevices are non-null, and network gives for a target what libcoap and the network
answer to a request on it. The value returned by CoapClientGet is not used. The result is
none when the wait loop of CoapClientGet is cut short by the fuel. -/
def emberAfExternalAttributeReadCallback (fuel : Nat) (network : List Char → ClientEnv)
    (state : ClientState) (matter_mapping : MatterIpsoMapping) (dynamic_endpoint_count : Nat)
    (gDevices : Nat → Bool) (endpointIndex clusterId attribute_id : Nat) :
    Option CallbackResult :=
  if endpointIndex < dynamic_endpoint_count ∧ gDevices endpointIndex = true then
    let ipso_object_id := matter_mapping.cluster_object_map.get_ipso_id (to_int clusterId)
    let ipso_resource_id :=
      matter_mapping.attribute_resource_map.get_ipso_id (to_int attribute_id)
    let target := build_target ipso_object_id ipso_resource_id
    match CoapClientGet fuel (network target) state with
    | some r => some ⟨.Success, some target, some r⟩
    | none => none
  else some ⟨.Failure, none, none⟩

/-- The callback emberAfExternalAttributeWriteCallback of main.cpp; buffer and size are the
bytes at buffer and attributeMetadata->size. The value returned by CoapClientPut is not
used. -/
def emberAfExternalAttributeWriteCallback (network : List Char → ClientEnv)
    (state : ClientState) (matter_mapping : MatterIpsoMapping) (dynamic_endpoint_count : Nat)
    (endpointIndex clusterId attribute_id : Nat) (buffer : List Nat) (size : Nat) :
    CallbackResult :=
  if endpointIndex < dynamic_endpoint_count then
    let ipso_object_id := matter_mapping.cluster_object_map.get_ipso_id (to_int clusterId)
    let ipso_resource_id :=
      matter_mapping.attribute_resource_map.get_ipso_id (to_int attribute_id)
    let target := build_target ipso_object_id ipso_resource_id
    ⟨.Success, some target, some (CoapClientPut (network target) buffer size state)⟩
  else ⟨.Failure, none, none⟩

/-! ## Definitions: decToHexa (BridgeUtils.cpp) -/

/-- The first loop of decToHexa, while (n != 0): the character for n % 16 is appended to ans
and n is divided by 16; the operators of int truncate towards zero. Every turn lowers the
absolute value of n, so the loop ends; none is the answer of a loop that was cut short. -/
def decToHexa.digits : Nat → Int → List Char → Option (List Char)
  | 0, _, _ => none
  | fuel + 1, n, ans =>
    if n ≠ 0 then
      let rem := n.tmod 16
      let ch := if rem < 10 then Char.ofNat (rem + 48).toNat else Char.ofNat (rem + 55).toNat
      decToHexa.digits fuel (n.tdiv 16) (ans ++ [ch])
    else some ans

/-- The second loop of decToHexa, while (i <= j): std::swap(ans[i], ans[j]), then i++ and
j--. -/
def decToHexa.swaps : Nat → Int → Int → List Char → Option (List Char)
  | 0, _, _, _ => none
  | fuel + 1, i, j, ans =>
    if i ≤ j then
      decToHexa.swaps fuel (i + 1) (j - 1)
        ((ans.set i.toNat (ans.getD j.toNat ' ')).set j.toNat (ans.getD i.toNat ' '))
    else some ans

/-- The function decToHexa of BridgeUtils.cpp. A value of the 32-bit type int is 0 after at
most eight divisions by 16, so nine turns are allowed to the first loop; the second loop
starts with i = 0 and j = ans.size() - 1 (which is -1 for the empty string) and is allowed
one turn more than ans has characters. -/
def decToHexa (n : Int) : Option (List Char) :=
  match decToHexa.digits 9 n [] with
  | some ans => decToHexa.swaps (ans.length + 1) 0 ((ans.length : Int) - 1) ans
  | none => none

/-- Whether a character is one of 0-9 and A-F. -/
def isHexDigit (c : Char) : Bool :=
  (48 ≤ c.toNat && c.toNat ≤ 57) || (65 ≤ c.toNat && c.toNat ≤ 70)

/-- The value of a hexadecimal digit. -/
def hexDigitValue (c : Char) : Nat :=
  if c.toNat ≤ 57 then c.toNat - 48 else c.toNat - 55

/-- The value of a string of hexadecimal digits read in base 16. -/
def hexValue (s : List Char) : Nat :=
  s.foldl (fun a c => a * 16 + hexDigitValue c) 0

/-! ## Theorems: the bidirectional map -/

theorem UMap.findIn_assignIn_same (l : List (Int × Int)) (k v : Int) :
    UMap.findIn (UMap.assignIn l k v) k = some v := by
  induction l with
  | nil => simp [UMap.assignIn, UMap.findIn]
  | cons p rest ih =>
    obtain ⟨k', v'⟩ := p
    by_cases h : k' = k
    · simp [UMap.assignIn, UMap.findIn, h]
    · simp [UMap.assignIn, UMap.findIn, h, ih]

theorem UMap.findIn_assignIn_other (l : List (Int × Int)) (k v k2 : Int) (h : k ≠ k2) :
    UMap.findIn (UMap.assignIn l k v) k2 = UMap.findIn l k2 := by
  induction l with
  | nil => simp [UMap.assignIn, UMap.findIn, h]
  | cons p rest ih =>
    obtain ⟨k', v'⟩ := p
    by_cases h1 : k' = k
    · subst h1
      simp [UMap.assignIn, UMap.findIn, h]
    · by_cases h2 : k' = k2
      · subst h2
        simp [UMap.assignIn, UMap.findIn, h1]
      · simp [UMap.assignIn, UMap.findIn, h1, h2, ih]

theorem UMap.assignIn_absent (l : List (Int × Int)) (k v : Int) (h : UMap.findIn l k = none) :
    UMap.assignIn l k v = l ++ [(k, v)] := by
  induction l with
  | nil => simp [UMap.assignIn]
  | cons p rest ih =>
    obtain ⟨k', v'⟩ := p
    by_cases h1 : k' = k
    · simp [UMap.findIn, h1] at h
    · simp [UMap.findIn, h1] at h
      simp [UMap.assignIn, h1, ih h]

theorem UMap.findIn_none_iff (l : List (Int × Int)) (k : Int) :
    UMap.findIn l k = none ↔ k ∉ l.map Prod.fst := by
  induction l with
  | nil => simp [UMap.findIn]
  | cons p rest ih =>
    obtain ⟨k', v'⟩ := p
    by_cases h1 : k' = k
    · simp [UMap.findIn, h1]
    · have h2 : ¬ k = k' := fun h => h1 h.symm
      simp [UMap.findIn, h1, h2, ih]

theorem UMap.find_assign_same (m : UMap) (k v : Int) : (m.assign k v).find k = some v :=
  UMap.findIn_assignIn_same m.entries k v

theorem UMap.find_assign_other (m : UMap) (k v k2 : Int) (h : k ≠ k2) :
    (m.assign k v).find k2 = m.find k2 :=
  UMap.findIn_assignIn_other m.entries k v k2 h

/-- An insert call that finds either id present returns the object unchanged. -/
theorem BiMap.insert_rejected (m : BiMap) (a b : Int)
    (h : m.has_matter_id a = true ∨ m.has_ipso_id b = true) : m.insert a b = m := by
  unfold BiMap.insert
  unfold BiMap.has_matter_id BiMap.has_ipso_id at h
  rcases h with h | h <;> simp [h]

/-- An insert call that finds neither id present stores both directions. -/
theorem BiMap.insert_accepted (m : BiMap) (a b : Int)
    (ha : m.has_matter_id a = false) (hb : m.has_ipso_id b = false) :
    m.insert a b = ⟨m.left_map.assign a b, m.right_map.assign b a⟩ := by
  unfold BiMap.insert
  unfold BiMap.has_matter_id at ha
  unfold BiMap.has_ipso_id at hb
  simp [ha, hb]

/-- A stored pair survives every later insert call. -/
theorem BiMap.insert_keeps_pair (m : BiMap) (a b x y : Int)
    (hl : m.left_map.find a = some b) (hr : m.right_map.find b = some a) :
    (m.insert x y).left_map.find a = some b ∧ (m.insert x y).right_map.find b = some a := by
  by_cases hx : m.has_matter_id x = true
  · rw [BiMap.insert_rejected m x y (Or.inl hx)]; exact ⟨hl, hr⟩
  · by_cases hy : m.has_ipso_id y = true
    · rw [BiMap.insert_rejected m x y (Or.inr hy)]; exact ⟨hl, hr⟩
    · simp only [Bool.not_eq_true] at hx hy
      rw [BiMap.insert_accepted m x y hx hy]
      have hxa : x ≠ a := by
        rintro rfl
        simp [BiMap.has_matter_id, hl] at hx
      have hyb : y ≠ b := by
        rintro rfl
        simp [BiMap.has_ipso_id, hr] at hy
      exact ⟨by rw [UMap.find_assign_other _ _ _ _ hxa]; exact hl,
             by rw [UMap.find_assign_other _ _ _ _ hyb]; exact hr⟩

theorem BiMap.insertAll_keeps_pair (calls : List (Int × Int)) (m : BiMap) (a b : Int)
    (hl : m.left_map.find a = some b) (hr : m.right_map.find b = some a) :
    (m.insertAll calls).left_map.find a = some b ∧
      (m.insertAll calls).right_map.find b = some a := by
  induction calls generalizing m with
  | nil => exact ⟨hl, hr⟩
  | cons p rest ih =>
    have h := BiMap.insert_keeps_pair m a b p.1 p.2 hl hr
    exact ih (m.insert p.1 p.2) h.1 h.2

/-- C1. In any sequence of insert calls on an initially empty BiMap, a call insert(a, b) that
is accepted (a not present as a Matter id, b not present as an LwM2M id at that moment) fixes
the pair for good: in the final map get_ipso_id(a) = b and get_matter_id(b) = a, whatever
calls came before it and after it. -/
theorem BiMap.accepted_pair_is_final (before after : List (Int × Int)) (a b : Int)
    (ha : (BiMap.empty.insertAll before).has_matter_id a = false)
    (hb : (BiMap.empty.insertAll before).has_ipso_id b = false) :
    (((BiMap.empty.insertAll before).insert a b).insertAll after).get_ipso_id a = b ∧
    (((BiMap.empty.insertAll before).insert a b).insertAll after).get_matter_id b = a := by
  rw [BiMap.insert_accepted _ a b ha hb]
  have h := BiMap.insertAll_keeps_pair after
    ⟨(BiMap.empty.insertAll before).left_map.assign a b,
     (BiMap.empty.insertAll before).right_map.assign b a⟩ a b
    (UMap.find_assign_same _ a b) (UMap.find_assign_same _ b a)
  simp [BiMap.get_ipso_id, BiMap.get_matter_id, h.1, h.2]

theorem BiMap.accepted_pair_is_final_witness :
    (BiMap.empty.insertAll [(6, 3311), (6, 9)]).has_matter_id 0 = false ∧
    (BiMap.empty.insertAll [(6, 3311), (6, 9)]).has_ipso_id 5850 = false ∧
    (((BiMap.empty.insertAll [(6, 3311), (6, 9)]).insert 0 5850).insertAll
        [(0, 1), (8, 5850), (2, 3)]).get_ipso_id 0 = 5850 ∧
    (((BiMap.empty.insertAll [(6, 3311), (6, 9)]).insert 0 5850).insertAll
        [(0, 1), (8, 5850), (2, 3)]).get_matter_id 5850 = 0 :=
  ⟨by decide, by decide,
    BiMap.accepted_pair_is_final [(6, 3311), (6, 9)] [(0, 1), (8, 5850), (2, 3)] 0 5850
      (by decide) (by decide)⟩

/-- C2. On any BiMap state, insert(a, b) with a already present as a Matter id or b already
present as an LwM2M id changes nothing: left_map and right_map are the same before and
after, and so is every get_ipso_id and get_matter_id result. -/
theorem BiMap.insert_duplicate_changes_nothing (m : BiMap) (a b : Int)
    (h : m.has_matter_id a = true ∨ m.has_ipso_id b = true) :
    (m.insert a b).left_map = m.left_map ∧ (m.insert a b).right_map = m.right_map ∧
    (∀ x, (m.insert a b).get_ipso_id x = m.get_ipso_id x) ∧
    (∀ y, (m.insert a b).get_matter_id y = m.get_matter_id y) := by
  rw [BiMap.insert_rejected m a b h]
  exact ⟨rfl, rfl, fun _ => rfl, fun _ => rfl⟩

theorem BiMap.insert_duplicate_changes_nothing_witness :
    ((BiMap.empty.insert 6 3311).has_matter_id 7 = true ∨
      (BiMap.empty.insert 6 3311).has_ipso_id 3311 = true) ∧
    ((BiMap.empty.insert 6 3311).insert 7 3311).left_map = (BiMap.empty.insert 6 3311).left_map ∧
    ((BiMap.empty.insert 6 3311).insert 7 3311).right_map
      = (BiMap.empty.insert 6 3311).right_map ∧
    (∀ x, ((BiMap.empty.insert 6 3311).insert 7 3311).get_ipso_id x
      = (BiMap.empty.insert 6 3311).get_ipso_id x) ∧
    (∀ y, ((BiMap.empty.insert 6 3311).insert 7 3311).get_matter_id y
      = (BiMap.empty.insert 6 3311).get_matter_id y) :=
  ⟨Or.inr (by decide),
    BiMap.insert_duplicate_changes_nothing (BiMap.empty.insert 6 3311) 7 3311
      (Or.inr (by decide))⟩

theorem BiMap.wellFormed_empty : BiMap.empty.WellFormed := by
  refine ⟨?_, ?_, ?_, ?_⟩
  · intro a b; simp [BiMap.empty, UMap.empty, UMap.find, UMap.findIn]
  · simp [BiMap.empty, UMap.empty, UMap.keys]
  · simp [BiMap.empty, UMap.empty, UMap.keys]
  · rfl

theorem UMap.keys_assign_absent (m : UMap) (k v : Int) (h : m.find k = none) :
    (m.assign k v).keys = m.keys ++ [k] := by
  unfold UMap.keys UMap.assign
  rw [UMap.assignIn_absent m.entries k v h]
  simp

theorem UMap.size_assign_absent (m : UMap) (k v : Int) (h : m.find k = none) :
    (m.assign k v).size = m.size + 1 := by
  unfold UMap.size UMap.assign
  rw [UMap.assignIn_absent m.entries k v h]
  simp

theorem UMap.keys_nodup_assign_absent (m : UMap) (k v : Int) (h : m.find k = none)
    (hn : m.keys.Nodup) : (m.assign k v).keys.Nodup := by
  rw [UMap.keys_assign_absent m k v h]
  have hk : k ∉ m.keys := (UMap.findIn_none_iff m.entries k).mp h
  rw [List.nodup_append]
  refine ⟨hn, List.nodup_singleton k, ?_⟩
  intro x hx hx'
  simp only [List.mem_singleton] at hx'
  subst hx'
  exact hk hx

theorem BiMap.wellFormed_insert (m : BiMap) (x y : Int) (h : m.WellFormed) :
    (m.insert x y).WellFormed := by
  by_cases hx : m.has_matter_id x = true
  · rw [BiMap.insert_rejected m x y (Or.inl hx)]; exact h
  · by_cases hy : m.has_ipso_id y = true
    · rw [BiMap.insert_rejected m x y (Or.inr hy)]; exact h
    · simp only [Bool.not_eq_true] at hx hy
      rw [BiMap.insert_accepted m x y hx hy]
      have hxn : m.left_map.find x = none := by
        simpa [BiMap.has_matter_id] using hx
      have hyn : m.right_map.find y = none := by
        simpa [BiMap.has_ipso_id] using hy
      obtain ⟨hinv, hnl, hnr, hsz⟩ := h
      refine ⟨?_, ?_, ?_, ?_⟩
      · intro a b
        show (m.left_map.assign x y).find a = some b ↔ (m.right_map.assign y x).find b = some a
        by_cases hax : x = a
        · subst hax
          rw [UMap.find_assign_same]
          by_cases hby : y = b
          · subst hby
            rw [UMap.find_assign_same]
            simp
          · rw [UMap.find_assign_other _ _ _ _ hby]
            constructor
            · intro hh
              exact absurd (Option.some.inj hh) hby
            · intro hh
              have := (hinv x b).mpr hh
              rw [hxn] at this
              exact absurd this (by simp)
        · rw [UMap.find_assign_other _ _ _ _ hax]
          by_cases hby : y = b
          · subst hby
            rw [UMap.find_assign_same]
            constructor
            · intro hh
              have := (hinv a y).mp hh
              rw [hyn] at this
              exact absurd this (by simp)
            · intro hh
              exact absurd (Option.some.inj hh) hax
          · rw [UMap.find_assign_other _ _ _ _ hby]
            exact hinv a b
      · exact UMap.keys_nodup_assign_absent _ _ _ hxn hnl
      · exact UMap.keys_nodup_assign_absent _ _ _ hyn hnr
      · show (m.left_map.assign x y).size = (m.right_map.assign y x).size
        rw [UMap.size_assign_absent _ _ _ hxn, UMap.size_assign_absent _ _ _ hyn, hsz]

theorem BiMap.wellFormed_insertAll (calls : List (Int × Int)) (m : BiMap) (h : m.WellFormed) :
    (m.insertAll calls).WellFormed := by
  induction calls generalizing m with
  | nil => exact h
  | cons p rest ih => exact ih (m.insert p.1 p.2) (BiMap.wellFormed_insert m p.1 p.2 h)

theorem BiMap.present_get_ipso_iff (m : BiMap) (a b : Int) :
    (m.has_matter_id a = true ∧ m.get_ipso_id a = b) ↔ m.left_map.find a = some b := by
  unfold BiMap.has_matter_id BiMap.get_ipso_id
  cases h : m.left_map.find a <;> simp

theorem BiMap.present_get_matter_iff (m : BiMap) (a b : Int) :
    (m.has_ipso_id b = true ∧ m.get_matter_id b = a) ↔ m.right_map.find b = some a := by
  unfold BiMap.has_ipso_id BiMap.get_matter_id
  cases h : m.right_map.find b <;> simp

/-- C3. In every BiMap state reached from the empty map by insert calls the two directions
are exact inverses: a is present with get_ipso_id(a) = b exactly when b is present with
get_matter_id(b) = a. Hence two present Matter ids with the same LwM2M id are equal, two
present LwM2M ids with the same Matter id are equal, and both maps hold the same number of
entries (each with one entry per key). -/
theorem BiMap.reachable_directions_are_inverse (calls : List (Int × Int)) :
    (∀ a b, ((BiMap.empty.insertAll calls).has_matter_id a = true ∧
              (BiMap.empty.insertAll calls).get_ipso_id a = b) ↔
            ((BiMap.empty.insertAll calls).has_ipso_id b = true ∧
              (BiMap.empty.insertAll calls).get_matter_id b = a)) ∧
    (∀ a1 a2, (BiMap.empty.insertAll calls).has_matter_id a1 = true →
        (BiMap.empty.insertAll calls).has_matter_id a2 = true →
        (BiMap.empty.insertAll calls).get_ipso_id a1
          = (BiMap.empty.insertAll calls).get_ipso_id a2 → a1 = a2) ∧
    (∀ b1 b2, (BiMap.empty.insertAll calls).has_ipso_id b1 = true →
        (BiMap.empty.insertAll calls).has_ipso_id b2 = true →
        (BiMap.empty.insertAll calls).get_matter_id b1
          = (BiMap.empty.insertAll calls).get_matter_id b2 → b1 = b2) ∧
    (BiMap.empty.insertAll calls).left_map.size = (BiMap.empty.insertAll calls).right_map.size ∧
    (BiMap.empty.insertAll calls).left_map.keys.Nodup ∧
    (BiMap.empty.insertAll calls).right_map.keys.Nodup := by
  obtain ⟨hinv, hnl, hnr, hsz⟩ :=
    BiMap.wellFormed_insertAll calls BiMap.empty BiMap.wellFormed_empty
  generalize BiMap.empty.insertAll calls = m at hinv hnl hnr hsz
  have key : ∀ a b, (m.has_matter_id a = true ∧ m.get_ipso_id a = b) ↔
      (m.has_ipso_id b = true ∧ m.get_matter_id b = a) := by
    intro a b
    rw [BiMap.present_get_ipso_iff, BiMap.present_get_matter_iff]
    exact hinv a b
  refine ⟨key, ?_, ?_, hsz, hnl, hnr⟩
  · intro a1 a2 h1 h2 he
    have e1 := (key a1 (m.get_ipso_id a1)).mp ⟨h1, rfl⟩
    have e2 := (key a2 (m.get_ipso_id a1)).mp ⟨h2, he.symm⟩
    rw [← e1.2, ← e2.2]
  · intro b1 b2 h1 h2 he
    have e1 := (key (m.get_matter_id b1) b1).mpr ⟨h1, rfl⟩
    have e2 := (key (m.get_matter_id b1) b2).mpr ⟨h2, he.symm⟩
    rw [← e1.2, ← e2.2]

/-- C4. On any BiMap state, get_ipso_id of an id that is not present as a Matter id returns
the not-found result -1, and get_matter_id of an id that is not present as an LwM2M id
returns -1; as member calls, both lookups leave the object as it was, whether or not the id
is present. -/
theorem BiMap.lookup_of_absent_id (m : BiMap) (a b : Int) :
    (m.has_matter_id a = false → m.get_ipso_id a = -1) ∧
    (m.has_ipso_id b = false → m.get_matter_id b = -1) ∧
    (m.call (.get_ipso_id a)).1 = m ∧ (m.call (.get_matter_id b)).1 = m ∧
    (m.call (.get_ipso_id a)).2 = some (m.get_ipso_id a) ∧
    (m.call (.get_matter_id b)).2 = some (m.get_matter_id b) := by
  refine ⟨?_, ?_, rfl, rfl, rfl, rfl⟩
  · intro ha
    have ha1 : m.left_map.find a = none := by simpa [BiMap.has_matter_id] using ha
    simp [BiMap.get_ipso_id, ha1]
  · intro hb
    have hb1 : m.right_map.find b = none := by simpa [BiMap.has_ipso_id] using hb
    simp [BiMap.get_matter_id, hb1]

theorem BiMap.lookup_of_absent_id_witness :
    (BiMap.empty.insert 6 3311).has_matter_id 3311 = false ∧
    (BiMap.empty.insert 6 3311).has_ipso_id 6 = false ∧
    (BiMap.empty.insert 6 3311).get_ipso_id 3311 = -1 ∧
    (BiMap.empty.insert 6 3311).get_matter_id 6 = -1 ∧
    (BiMap.empty.insert 6 3311).call (.get_ipso_id 3311)
      = (BiMap.empty.insert 6 3311, some (-1)) ∧
    (BiMap.empty.insert 6 3311).call (.get_matter_id 6)
      = (BiMap.empty.insert 6 3311, some (-1)) :=
  ⟨by decide, by decide,
    (BiMap.lookup_of_absent_id (BiMap.empty.insert 6 3311) 3311 6).1 (by decide),
    (BiMap.lookup_of_absent_id (BiMap.empty.insert 6 3311) 3311 6).2.1 (by decide),
    by decide, by decide⟩

/-! ## Theorems: ExtractBetweenSlashes and SplitString -/

theorem lastIndexFrom_append (a b : List Char) (ch : Char) (i : Nat) (acc : Option Nat) :
    lastIndexFrom (a ++ b) ch i acc = lastIndexFrom b ch (i + a.length) (lastIndexFrom a ch i acc) := by
  induction a generalizing i acc with
  | nil => simp [lastIndexFrom]
  | cons c rest ih =>
    rw [List.cons_append]
    simp only [lastIndexFrom, List.length_cons]
    rw [ih]
    congr 1
    omega

theorem lastIndexFrom_not_mem (l : List Char) (ch : Char) (i : Nat) (acc : Option Nat)
    (h : ch ∉ l) : lastIndexFrom l ch i acc = acc := by
  induction l generalizing i acc with
  | nil => rfl
  | cons c rest ih =>
    simp only [List.mem_cons, not_or] at h
    have hc : ¬ c = ch := fun e => h.1 e.symm
    simp only [lastIndexFrom, hc, if_false]
    exact ih _ _ h.2

/-- The last occurrence found by rfind, when the searched part ends in a stretch without ch. -/
theorem rfind_of_take (str pre tail : List Char) (ch : Char) (pos : Nat)
    (htake : str.take (pos + 1) = pre ++ ch :: tail) (htail : ch ∉ tail) :
    rfind str ch pos = some pre.length := by
  unfold rfind
  rw [htake, lastIndexFrom_append]
  simp only [lastIndexFrom, if_true]
  rw [lastIndexFrom_not_mem _ _ _ _ htail]
  simp

theorem exists_last_occurrence (l : List Char) (ch : Char) (h : ch ∈ l) :
    ∃ a b, l = a ++ ch :: b ∧ ch ∉ b := by
  induction l with
  | nil => simp at h
  | cons c rest ih =>
    by_cases hr : ch ∈ rest
    · obtain ⟨a, b, hab, hb⟩ := ih hr
      exact ⟨c :: a, b, by simp [hab], hb⟩
    · have hc : ch = c := by
        rcases List.mem_cons.mp h with h1 | h1
        · exact h1
        · exact absurd h1 hr
      subst hc
      exact ⟨[], rest, rfl, hr⟩

/-- A string with at least two occurrences of ch splits around its last two occurrences. -/
theorem exists_last_two_occurrences (l : List Char) (ch : Char) (h : 2 ≤ l.count ch) :
    ∃ pre mid post, l = pre ++ ch :: (mid ++ ch :: post) ∧ ch ∉ mid ∧ ch ∉ post := by
  have hmem : ch ∈ l := List.count_pos_iff.mp (by omega)
  obtain ⟨a, post, hl, hpost⟩ := exists_last_occurrence l ch hmem
  have hcount : l.count ch = a.count ch + 1 := by
    rw [hl, List.count_append, List.count_cons_self, List.count_eq_zero_of_not_mem hpost]
  have hmem2 : ch ∈ a := List.count_pos_iff.mp (by omega)
  obtain ⟨pre, mid, ha, hmid⟩ := exists_last_occurrence a ch hmem2
  exact ⟨pre, mid, post, by rw [hl, ha]; simp, hmid, hpost⟩

theorem size_sub_of_le (a b : Nat) (hb : b ≤ a) (ha : a ≤ SIZE_MAX) : size_sub a b = a - b := by
  unfold size_sub SIZE_MAX at *
  omega

/-- The value of ExtractBetweenSlashes on a string split around its last two slashes. -/
theorem ExtractBetweenSlashes_of_split (pre mid post : List Char)
    (hlen : (pre ++ '/' :: (mid ++ '/' :: post)).length ≤ SIZE_MAX)
    (hmid : '/' ∉ mid) (hpost : '/' ∉ post) :
    ExtractBetweenSlashes (pre ++ '/' :: (mid ++ '/' :: post)) = mid := by
  have hlen2 : pre.length + mid.length + post.length + 2 ≤ SIZE_MAX := by
    simp only [List.length_append, List.length_cons] at hlen
    omega
  have h1 : rfind (pre ++ '/' :: (mid ++ '/' :: post)) '/' SIZE_MAX
      = some (pre ++ '/' :: mid).length := by
    apply rfind_of_take _ (pre ++ '/' :: mid) post
    · rw [List.take_of_length_le (by omega)]
      simp
    · exact hpost
  have hlast : (pre ++ '/' :: mid).length = pre.length + mid.length + 1 := by
    simp only [List.length_append, List.length_cons]
    omega
  have h2 : rfind (pre ++ '/' :: (mid ++ '/' :: post)) '/' (pre.length + mid.length)
      = some pre.length := by
    apply rfind_of_take _ pre mid
    · have e : pre ++ '/' :: (mid ++ '/' :: post) = (pre ++ '/' :: mid) ++ '/' :: post := by simp
      rw [e, List.take_left' (by rw [hlast])]
    · exact hmid
  unfold ExtractBetweenSlashes
  rw [h1]
  simp only [hlast]
  rw [size_sub_of_le _ 1 (by omega) (by omega)]
  simp only [Nat.add_sub_cancel]
  rw [h2]
  simp only
  rw [size_sub_of_le _ pre.length (by omega) (by omega)]
  rw [size_sub_of_le _ 1 (by omega) (by omega)]
  have e3 : pre.length + mid.length + 1 - pre.length - 1 = mid.length := by omega
  rw [e3]
  unfold substr
  have e4 : pre ++ '/' :: (mid ++ '/' :: post) = (pre ++ ['/']) ++ (mid ++ '/' :: post) := by simp
  rw [e4, List.drop_left' (by simp), List.take_left' rfl]

theorem splitTokens_ne_nil (d : Char) (l : List Char) : splitTokens d l ≠ [] := by
  induction l with
  | nil => simp [splitTokens]
  | cons c rest ih =>
    unfold splitTokens
    split
    · simp
    · split <;> simp

/-- Splitting distributes over a delimiter in the middle. -/
theorem splitTokens_append (d : Char) (x y : List Char) :
    splitTokens d (x ++ d :: y) = splitTokens d x ++ splitTokens d y := by
  induction x with
  | nil => simp [splitTokens]
  | cons c rest ih =>
    rw [List.cons_append]
    by_cases hc : c = d
    · simp only [splitTokens, hc, if_true, ih, List.cons_append]
    · simp only [splitTokens, hc, if_false, ih]
      cases hx : splitTokens d rest with
      | nil => exact absurd hx (splitTokens_ne_nil d rest)
      | cons t ts => simp

theorem splitTokens_not_mem (d : Char) (l : List Char) (h : d ∉ l) : splitTokens d l = [l] := by
  induction l with
  | nil => rfl
  | cons c rest ih =>
    simp only [List.mem_cons, not_or] at h
    have hc : ¬ c = d := fun e => h.1 e.symm
    simp [splitTokens, hc, ih h.2]

theorem findFrom_none (l : List Char) (ch : Char) (i : Nat) (h : findFrom l ch i = none) :
    ch ∉ l := by
  induction l generalizing i with
  | nil => simp
  | cons c rest ih =>
    unfold findFrom at h
    by_cases hc : c = ch
    · simp [hc] at h
    · simp only [hc, if_false] at h
      simp only [List.mem_cons, not_or]
      exact ⟨fun e => hc e.symm, ih _ h⟩

theorem findFrom_some (l : List Char) (ch : Char) (i j : Nat) (h : findFrom l ch i = some j) :
    ∃ a b, l = a ++ ch :: b ∧ ch ∉ a ∧ j = i + a.length := by
  induction l generalizing i with
  | nil => simp [findFrom] at h
  | cons c rest ih =>
    unfold findFrom at h
    by_cases hc : c = ch
    · simp only [hc, if_true, Option.some.injEq] at h
      exact ⟨[], rest, by simp [hc], by simp, by simp [h]⟩
    · simp only [hc, if_false] at h
      obtain ⟨a, b, hab, ha, hj⟩ := ih _ h
      refine ⟨c :: a, b, by simp [hab], ?_, by simp [hj]; omega⟩
      simp only [List.mem_cons, not_or]
      exact ⟨fun e => hc e.symm, ha⟩

/-- The loop of SplitString never runs out of fuel that exceeds the characters left, and it
appends the tokens of the rest of the string. -/
theorem SplitString_loop_eq (str : List Char) (d : Char) (fuel : Nat) :
    ∀ (start : Nat) (tokens : List (List Char)), start ≤ str.length →
      str.length - start < fuel →
      SplitString.loop str d fuel start tokens
        = some (tokens ++ splitTokens d (str.drop start)) := by
  induction fuel with
  | zero => intro start tokens _ h; omega
  | succ fuel ih =>
    intro start tokens hstart hfuel
    unfold SplitString.loop
    cases hf : find str d start with
    | none =>
      simp only
      rw [splitTokens_not_mem d _ (findFrom_none _ _ _ hf)]
    | some end_ =>
      simp only
      obtain ⟨a, b, hab, ha, hj⟩ := findFrom_some _ _ _ _ hf
      have hlen : str.length - start = a.length + b.length + 1 := by
        have := congrArg List.length hab
        simp only [List.length_drop, List.length_append, List.length_cons] at this
        omega
      have hdrop : str.drop (end_ + 1) = b := by
        have e : end_ + 1 = start + (a.length + 1) := by omega
        rw [e, ← List.drop_drop, hab]
        have e2 : a ++ d :: b = (a ++ [d]) ++ b := by simp
        rw [e2, List.drop_left' (by simp)]
      have hsub : substr str start (end_ - start) = a := by
        unfold substr
        have e : end_ - start = a.length := by omega
        rw [e, hab, List.take_left' rfl]
      rw [ih (end_ + 1) _ (by omega) (by omega), hsub, hdrop, hab, splitTokens_append,
        splitTokens_not_mem d a ha]
      simp

/-- SplitString returns the tokens of the string. -/
theorem SplitString_eq_splitTokens (str : List Char) (d : Char) :
    SplitString str d = splitTokens d str := by
  unfold SplitString
  rw [SplitString_loop_eq str d (str.length + 1) 0 [] (by omega) (by omega)]
  simp

/-- C6. For every mapping key with at least two slashes (and of a length a std::string can
have), the entity class ExtractBetweenSlashes(key) is the second-to-last token of the key
split on the slash, it is the substring strictly between the last two slashes of the key,
and it contains no slash. -/
theorem ExtractBetweenSlashes_is_second_to_last_segment (key : List Char)
    (hlen : key.length ≤ SIZE_MAX) (h2 : 2 ≤ key.count '/') :
    (∃ front last, SplitString key '/' = front ++ [ExtractBetweenSlashes key, last]) ∧
    (∃ pre post, key = pre ++ '/' :: (ExtractBetweenSlashes key ++ '/' :: post) ∧ '/' ∉ post) ∧
    '/' ∉ ExtractBetweenSlashes key := by
  obtain ⟨pre, mid, post, hkey, hmid, hpost⟩ := exists_last_two_occurrences key '/' h2
  have hE : ExtractBetweenSlashes key = mid := by
    rw [hkey]
    exact ExtractBetweenSlashes_of_split pre mid post (by rw [← hkey]; exact hlen) hmid hpost
  rw [hE]
  refine ⟨?_, ⟨pre, post, hkey, hpost⟩, hmid⟩
  rw [SplitString_eq_splitTokens, hkey, splitTokens_append, splitTokens_append,
    splitTokens_not_mem _ mid hmid, splitTokens_not_mem _ post hpost]
  exact ⟨splitTokens '/' pre, post, by simp⟩

theorem ExtractBetweenSlashes_is_second_to_last_segment_witness :
    "#/sdfObject/OnOff/sdfProperty/OnOff".toList.length ≤ SIZE_MAX ∧
    2 ≤ "#/sdfObject/OnOff/sdfProperty/OnOff".toList.count '/' ∧
    ExtractBetweenSlashes "#/sdfObject/OnOff/sdfProperty/OnOff".toList = "sdfProperty".toList ∧
    (∃ front last, SplitString "#/sdfObject/OnOff/sdfProperty/OnOff".toList '/'
      = front ++ [ExtractBetweenSlashes "#/sdfObject/OnOff/sdfProperty/OnOff".toList, last]) ∧
    (∃ pre post, "#/sdfObject/OnOff/sdfProperty/OnOff".toList
      = pre ++ '/' :: (ExtractBetweenSlashes "#/sdfObject/OnOff/sdfProperty/OnOff".toList
          ++ '/' :: post) ∧ '/' ∉ post) ∧
    '/' ∉ ExtractBetweenSlashes "#/sdfObject/OnOff/sdfProperty/OnOff".toList :=
  ⟨by decide, by decide, by decide,
    ExtractBetweenSlashes_is_second_to_last_segment "#/sdfObject/OnOff/sdfProperty/OnOff".toList
      (by decide) (by decide)⟩

/-! ## Theorems: to_string and stoi -/

theorem digitChar_toNat (m : Nat) (hm : m < 10) : (Nat.digitChar m).toNat = 48 + m := by
  interval_cases m <;> rfl

theorem digitChar_isdigit (m : Nat) (hm : m < 10) : isdigit (Nat.digitChar m) = true := by
  interval_cases m <;> rfl

theorem digitChar_eq_zero (m : Nat) (hm : m < 10) (h : Nat.digitChar m = '0') : m = 0 := by
  have := congrArg Char.toNat h
  rw [digitChar_toNat m hm] at this
  have h0 : ('0' : Char).toNat = 48 := rfl
  omega

theorem decimalValue_append (a b : List Char) (acc : Nat) :
    decimalValue (a ++ b) acc = decimalValue b (decimalValue a acc) := by
  simp [decimalValue, List.foldl_append]

/-- The digits produced by Nat.toDigitsCore in base 10, given enough fuel. -/
theorem toDigitsCore_isDecimalOf (fuel : Nat) :
    ∀ (n : Nat) (acc : List Char), n < fuel →
      ∃ ds, Nat.toDigitsCore 10 fuel n acc = ds ++ acc ∧ IsDecimalOf ds n := by
  induction fuel with
  | zero => intro n acc h; omega
  | succ fuel ih =>
    intro n acc hn
    have hmod : n % 10 < 10 := Nat.mod_lt _ (by decide)
    unfold Nat.toDigitsCore
    by_cases hq : n / 10 = 0
    · simp only [hq, if_true]
      have hlt : n < 10 := by omega
      have hmodn : n % 10 = n := Nat.mod_eq_of_lt hlt
      refine ⟨[Nat.digitChar (n % 10)], rfl, ?_⟩
      refine ⟨by simp, ?_, ?_, ?_, Or.inl rfl⟩
      · intro c hc
        simp only [List.mem_singleton] at hc
        rw [hc]
        exact digitChar_isdigit _ hmod
      · simp only [decimalValue, List.foldl_cons, List.foldl_nil]
        rw [digitChar_toNat _ hmod]
        omega
      · intro hh
        simp only [List.head?_cons, Option.some.injEq] at hh
        rw [hh]
    · simp only [hq, if_false]
      have hq10 : n / 10 < fuel := by omega
      have hrec := ih (n / 10) (Nat.digitChar (n % 10) :: acc) hq10
      obtain ⟨ds, hds, hdec⟩ := hrec
      have happ : ds ++ Nat.digitChar (n % 10) :: acc
          = (ds ++ [Nat.digitChar (n % 10)]) ++ acc := by simp
      refine ⟨ds ++ [Nat.digitChar (n % 10)], hds.trans happ, ?_⟩
      have hne := hdec.ne_nil
      have hlen : 1 ≤ ds.length := by
        cases ds with
        | nil => exact absurd rfl hne
        | cons c t => simp
      refine ⟨by simp, ?_, ?_, ?_, ?_⟩
      · intro c hc
        rcases List.mem_append.mp hc with h1 | h1
        · exact hdec.digits c h1
        · simp only [List.mem_singleton] at h1
          rw [h1]
          exact digitChar_isdigit _ hmod
      · rw [decimalValue_append, hdec.value]
        simp only [decimalValue, List.foldl_cons, List.foldl_nil]
        rw [digitChar_toNat _ hmod]
        omega
      · intro hh
        have hhead : ds.head? = some '0' := by
          cases ds with
          | nil => exact absurd rfl hne
          | cons c t => simpa using hh
        have hz := hdec.no_leading_zero hhead
        have hv := hdec.value
        rw [hz] at hv
        simp [decimalValue] at hv
        omega
      · right
        simp only [List.length_append, List.length_singleton, Nat.add_sub_cancel]
        rcases hdec.magnitude with h1 | h1
        · rw [h1]
          omega
        · have e : ds.length = (ds.length - 1) + 1 := by omega
          rw [e, pow_succ]
          omega

theorem toDigits_isDecimalOf (n : Nat) : IsDecimalOf (Nat.toDigits 10 n) n := by
  obtain ⟨ds, hds, hdec⟩ := toDigitsCore_isDecimalOf (n + 1) n [] (by omega)
  unfold Nat.toDigits
  rw [hds]
  simpa using hdec

theorem digitsValue_of_digits (ds : List Char) (acc : Nat) (h : ∀ c ∈ ds, isdigit c = true) :
    digitsValue ds acc = decimalValue ds acc := by
  induction ds generalizing acc with
  | nil => rfl
  | cons c rest ih =>
    have hc := h c (by simp)
    simp only [digitsValue, hc, if_true, decimalValue, List.foldl_cons]
    exact ih _ (fun x hx => h x (by simp [hx]))

theorem isdigit_not_special (c : Char) (h : isdigit c = true) :
    isspace c = false ∧ c ≠ '-' ∧ c ≠ '+' ∧ c ≠ '/' ∧ c ≠ '%' := by
  unfold isdigit at h
  simp only [Bool.and_eq_true, decide_eq_true_eq] at h
  refine ⟨?_, ?_, ?_, ?_, ?_⟩
  · unfold isspace
    have hsp : c ≠ ' ' := by
      rintro rfl
      have : (' ' : Char).toNat = 32 := rfl
      omega
    simp only [Bool.or_eq_false_iff, decide_eq_false_iff_not, Bool.and_eq_false_iff]
    exact ⟨hsp, Or.inr (by omega)⟩
  · rintro rfl
    have : ('-' : Char).toNat = 45 := rfl
    omega
  · rintro rfl
    have : ('+' : Char).toNat = 43 := rfl
    omega
  · rintro rfl
    have : ('/' : Char).toNat = 47 := rfl
    omega
  · rintro rfl
    have : ('%' : Char).toNat = 37 := rfl
    omega

/-- Reading back a decimal numeral with stoi gives its value. -/
theorem stoi_of_isDecimalOf (ds : List Char) (n : Nat) (h : IsDecimalOf ds n)
    (hn : (n : Int) ≤ INT_MAX) : stoi ds = .ok (n : Int) := by
  cases ds with
  | nil => exact absurd rfl h.ne_nil
  | cons c rest =>
    have hc := h.digits c (by simp)
    obtain ⟨hsp, hminus, hplus, _, _⟩ := isdigit_not_special c hc
    have hv : digitsValue (c :: rest) 0 = n := by
      rw [digitsValue_of_digits _ _ h.digits, h.value]
    have hmin : INT_MIN ≤ (n : Int) := by
      unfold INT_MIN
      omega
    unfold stoi
    simp only [List.dropWhile_cons, hsp, List.head?_cons, Option.some.injEq, hminus, hplus,
      or_self, if_false, hc, if_true, decide_False, Bool.false_eq_true]
    rw [hv]
    simp [hmin, hn]

/-- Reading back a minus sign and a decimal numeral with stoi gives the negated value. -/
theorem stoi_of_minus_isDecimalOf (ds : List Char) (n : Nat) (h : IsDecimalOf ds n)
    (hn : INT_MIN ≤ -(n : Int)) : stoi ('-' :: ds) = .ok (-(n : Int)) := by
  cases ds with
  | nil => exact absurd rfl h.ne_nil
  | cons c rest =>
    have hc := h.digits c (by simp)
    have hv : digitsValue (c :: rest) 0 = n := by
      rw [digitsValue_of_digits _ _ h.digits, h.value]
    have hmax : -(n : Int) ≤ INT_MAX := by
      unfold INT_MAX
      omega
    have hsp : isspace '-' = false := by decide
    unfold stoi
    simp only [List.dropWhile_cons, hsp, List.head?_cons, true_or, if_true, List.tail_cons, hc,
      decide_True, Bool.false_eq_true, if_false]
    rw [hv]
    simp [hmax, hn]

/-- The round trip of an int through to_string and stoi. -/
theorem stoi_to_string (v : Int) (hmin : INT_MIN ≤ v) (hmax : v ≤ INT_MAX) :
    stoi (to_string v) = .ok v := by
  unfold to_string
  by_cases hneg : v < 0
  · simp only [hneg, if_true]
    have e : v = -((v.natAbs : Nat) : Int) := by omega
    have := stoi_of_minus_isDecimalOf _ _ (toDigits_isDecimalOf v.natAbs) (by omega)
    rw [this]
    congr 1
    omega
  · simp only [hneg, if_false]
    have := stoi_of_isDecimalOf _ _ (toDigits_isDecimalOf v.toNat) (by omega)
    rw [this]
    congr 1
    omega

/-- Every character of a numeral printed by to_string is a minus sign or a digit. -/
theorem to_string_chars (v : Int) : ∀ c ∈ to_string v, c = '-' ∨ isdigit c = true := by
  intro c hc
  unfold to_string at hc
  by_cases hneg : v < 0
  · simp only [hneg, if_true, List.mem_cons] at hc
    rcases hc with h | h
    · exact Or.inl h
    · exact Or.inr ((toDigits_isDecimalOf _).digits c h)
  · simp only [hneg, if_false] at hc
    exact Or.inr ((toDigits_isDecimalOf _).digits c hc)

theorem to_string_no_slash (v : Int) : '/' ∉ to_string v := by
  intro h
  rcases to_string_chars v _ h with h1 | h1
  · exact absurd h1 (by decide)
  · exact absurd h1 (by decide)

/-! ## Theorems: building the identifier maps -/

/-- The loop of GenerateMatterIpsoMapping handles the entries one after the other: the
mapping of a document with one more entry is the mapping of the document without it, put
through the loop body for that entry. -/
theorem GenerateMatterIpsoMapping_one_more_entry (entries : List (List Char × MapEntry))
    (key : List Char) (value : MapEntry) :
    GenerateMatterIpsoMapping ⟨some (entries ++ [(key, value)])⟩
      = GenerateMatterIpsoMapping.entry (GenerateMatterIpsoMapping ⟨some entries⟩) key value := by
  simp [GenerateMatterIpsoMapping, List.foldl_append]

/-- C5. GenerateMatterIpsoMapping treats each entry of the map object as follows (stated for
the entry processed last, after any entries before it). An entry with both matter:id and
oma:id is inserted into the one map selected by its class ExtractBetweenSlashes(key):
sdfObject into cluster_object_map, sdfProperty into attribute_resource_map, sdfAction into
command_resource_map, sdfEvent into event_resource_map, the other three maps staying as they
were; with any other class (sdfThing among them) all four maps stay as they were, and so
they do for an entry that lacks either id. A document without map gives four empty maps. -/
theorem GenerateMatterIpsoMapping_entry_by_class (entries : List (List Char × MapEntry))
    (key : List Char) (value : MapEntry) :
    (∀ matter_id oma_id, value = ⟨some matter_id, some oma_id⟩ →
      (ExtractBetweenSlashes key = "sdfObject".toList →
        GenerateMatterIpsoMapping ⟨some (entries ++ [(key, value)])⟩
          = ⟨(GenerateMatterIpsoMapping ⟨some entries⟩).cluster_object_map.insert matter_id oma_id,
             (GenerateMatterIpsoMapping ⟨some entries⟩).attribute_resource_map,
             (GenerateMatterIpsoMapping ⟨some entries⟩).command_resource_map,
             (GenerateMatterIpsoMapping ⟨some entries⟩).event_resource_map⟩) ∧
      (ExtractBetweenSlashes key = "sdfProperty".toList →
        GenerateMatterIpsoMapping ⟨some (entries ++ [(key, value)])⟩
          = ⟨(GenerateMatterIpsoMapping ⟨some entries⟩).cluster_object_map,
             (GenerateMatterIpsoMapping ⟨some entries⟩).attribute_resource_map.insert
               matter_id oma_id,
             (GenerateMatterIpsoMapping ⟨some entries⟩).command_resource_map,
             (GenerateMatterIpsoMapping ⟨some entries⟩).event_resource_map⟩) ∧
      (ExtractBetweenSlashes key = "sdfAction".toList →
        GenerateMatterIpsoMapping ⟨some (entries ++ [(key, value)])⟩
          = ⟨(GenerateMatterIpsoMapping ⟨some entries⟩).cluster_object_map,
             (GenerateMatterIpsoMapping ⟨some entries⟩).attribute_resource_map,
             (GenerateMatterIpsoMapping ⟨some entries⟩).command_resource_map.insert
               matter_id oma_id,
             (GenerateMatterIpsoMapping ⟨some entries⟩).event_resource_map⟩) ∧
      (ExtractBetweenSlashes key = "sdfEvent".toList →
        GenerateMatterIpsoMapping ⟨some (entries ++ [(key, value)])⟩
          = ⟨(GenerateMatterIpsoMapping ⟨some entries⟩).cluster_object_map,
             (GenerateMatterIpsoMapping ⟨some entries⟩).attribute_resource_map,
             (GenerateMatterIpsoMapping ⟨some entries⟩).command_resource_map,
             (GenerateMatterIpsoMapping ⟨some entries⟩).event_resource_map.insert
               matter_id oma_id⟩) ∧
      (ExtractBetweenSlashes key ≠ "sdfObject".toList →
        ExtractBetweenSlashes key ≠ "sdfProperty".toList →
        ExtractBetweenSlashes key ≠ "sdfAction".toList →
        ExtractBetweenSlashes key ≠ "sdfEvent".toList →
        GenerateMatterIpsoMapping ⟨some (entries ++ [(key, value)])⟩
          = GenerateMatterIpsoMapping ⟨some entries⟩)) ∧
    ((value.matter_id = none ∨ value.oma_id = none) →
      GenerateMatterIpsoMapping ⟨some (entries ++ [(key, value)])⟩
        = GenerateMatterIpsoMapping ⟨some entries⟩) ∧
    GenerateMatterIpsoMapping ⟨none⟩ = ⟨BiMap.empty, BiMap.empty, BiMap.empty, BiMap.empty⟩ := by
  rw [GenerateMatterIpsoMapping_one_more_entry]
  generalize GenerateMatterIpsoMapping ⟨some entries⟩ = mapping
  refine ⟨?_, ?_, rfl⟩
  · intro matter_id oma_id hv
    subst hv
    refine ⟨?_, ?_, ?_, ?_, ?_⟩
    · intro h
      simp [GenerateMatterIpsoMapping.entry, h]
    · intro h
      simp [GenerateMatterIpsoMapping.entry, h]
    · intro h
      simp [GenerateMatterIpsoMapping.entry, h]
    · intro h
      simp [GenerateMatterIpsoMapping.entry, h]
    · intro h1 h2 h3 h4
      unfold GenerateMatterIpsoMapping.entry
      simp only [if_neg h1, if_neg h2, if_neg h3, if_neg h4, ite_self]
  · intro h
    obtain ⟨m, o⟩ := value
    simp only at h
    rcases h with h | h
    · subst h
      simp [GenerateMatterIpsoMapping.entry]
    · subst h
      cases m <;> simp [GenerateMatterIpsoMapping.entry]

theorem GenerateMatterIpsoMapping_entry_by_class_witness :
    GenerateMatterIpsoMapping
        ⟨some ([("#/sdfObject/OnOff".toList, ⟨some 6, some 3311⟩)]
          ++ [("#/sdfObject/OnOff/sdfProperty/OnOff".toList, ⟨some 0, some 5850⟩)])⟩
      = ⟨BiMap.empty.insert 6 3311, BiMap.empty.insert 0 5850, BiMap.empty, BiMap.empty⟩ :=
  ((GenerateMatterIpsoMapping_entry_by_class
      [("#/sdfObject/OnOff".toList, ⟨some 6, some 3311⟩)]
      "#/sdfObject/OnOff/sdfProperty/OnOff".toList ⟨some 0, some 5850⟩).1 0 5850 rfl).2.1
    (by decide)

/-! ## Theorems: resource paths and the request proxies -/

theorem SplitString_ComposePath (object_id resource_id : Int) :
    SplitString (ComposePath object_id resource_id) '/'
      = [to_string object_id, ['0'], to_string resource_id] := by
  have e : ComposePath object_id resource_id
      = to_string object_id ++ '/' :: (['0'] ++ '/' :: to_string resource_id) := by
    simp [ComposePath]
  rw [SplitString_eq_splitTokens, e, splitTokens_append, splitTokens_append,
    splitTokens_not_mem _ _ (to_string_no_slash object_id),
    splitTokens_not_mem _ _ (to_string_no_slash resource_id),
    splitTokens_not_mem _ ['0'] (by decide)]
  rfl

/-- Decomposing a composed path gives back the two ids. -/
theorem DecomposePath_ComposePath (o r : Int) (ho : INT_MIN ≤ o ∧ o ≤ INT_MAX)
    (hr : INT_MIN ≤ r ∧ r ≤ INT_MAX) : DecomposePath (ComposePath o r) = .ok (o, r) := by
  unfold DecomposePath
  rw [SplitString_ComposePath]
  simp [vector_at, bind, Except.bind, pure, Except.pure, stoi_to_string o ho.1 ho.2,
    stoi_to_string r hr.1 hr.2]

/-- C7. Path round trip: for all ids o and r of type int, the path composed at registration,
to_string(o) + /0/ + to_string(r), is split by SplitString on the slash (whose loop ends)
into exactly the three tokens to_string(o), 0 and to_string(r), decomposes (stoi of tokens 0
and 2) to exactly (o, r), and composing the decomposed ids again gives the identical path. -/
theorem path_round_trip (o r : Int) (ho : INT_MIN ≤ o ∧ o ≤ INT_MAX)
    (hr : INT_MIN ≤ r ∧ r ≤ INT_MAX) :
    SplitString.loop (ComposePath o r) '/' ((ComposePath o r).length + 1) 0 []
      = some [to_string o, ['0'], to_string r] ∧
    SplitString (ComposePath o r) '/' = [to_string o, ['0'], to_string r] ∧
    DecomposePath (ComposePath o r) = .ok (o, r) ∧
    (DecomposePath (ComposePath o r)).map (fun ids => ComposePath ids.1 ids.2)
      = .ok (ComposePath o r) := by
  refine ⟨?_, SplitString_ComposePath o r, DecomposePath_ComposePath o r ho hr, ?_⟩
  · have h := SplitString_loop_eq (ComposePath o r) '/' ((ComposePath o r).length + 1) 0 []
      (by omega) (by omega)
    rw [h, ← SplitString_ComposePath o r, SplitString_eq_splitTokens]
    simp
  · rw [DecomposePath_ComposePath o r ho hr]
    rfl

theorem path_round_trip_witness :
    (INT_MIN ≤ (3311 : Int) ∧ (3311 : Int) ≤ INT_MAX) ∧
    (INT_MIN ≤ (-2147483648 : Int) ∧ (-2147483648 : Int) ≤ INT_MAX) ∧
    ComposePath 3311 (-2147483648) = "3311/0/-2147483648".toList ∧
    SplitString.loop (ComposePath 3311 (-2147483648)) '/'
        ((ComposePath 3311 (-2147483648)).length + 1) 0 []
      = some [to_string 3311, ['0'], to_string (-2147483648)] ∧
    SplitString (ComposePath 3311 (-2147483648)) '/'
      = [to_string 3311, ['0'], to_string (-2147483648)] ∧
    DecomposePath (ComposePath 3311 (-2147483648)) = .ok (3311, -2147483648) ∧
    (DecomposePath (ComposePath 3311 (-2147483648))).map (fun ids => ComposePath ids.1 ids.2)
      = .ok (ComposePath 3311 (-2147483648)) :=
  ⟨by decide, by decide, by decide,
    path_round_trip 3311 (-2147483648) (by decide) (by decide)⟩

theorem to_uint32_of_nonneg (v : Int) (h : 0 ≤ v ∧ v ≤ INT_MAX) : (to_uint32 v : Int) = v := by
  unfold to_uint32
  unfold INT_MAX at h
  omega

theorem get_matter_id_of_find (m : BiMap) (b a : Int) (h : m.right_map.find b = some a) :
    m.get_matter_id b = a := by
  simp [BiMap.get_matter_id, h]

/-- The assignment of data->data leaves the ids and the flags as they are. -/
theorem set_data_by_type_keeps_ids (data : BindingCommandData) (type_map : TypeMap)
    (uri type_name : List Char) (bytes : List Nat) (h : type_map.at uri = .ok type_name) :
    ∃ d, set_data_by_type data type_map uri bytes = .ok d ∧
      d.clusterId = data.clusterId ∧ d.attributeId = data.attributeId ∧
      d.commandId = data.commandId ∧ d.readAttribute = data.readAttribute ∧
      d.writeAttribute = data.writeAttribute := by
  unfold set_data_by_type
  simp only [h, bind, Except.bind, pure, Except.pure]
  by_cases h1 : type_name = "Boolean".toList
  · simp [h1]
  · by_cases h2 : type_name = "Unsigned Integer".toList
    · simp [h2]
    · simp only [h1, h2, if_false]
      exact ⟨data, rfl, rfl, rfl, rfl, rfl, rfl⟩

/-- C8. Let the identifier map send object o to cluster c (o is a key of the right map of
cluster_object_map with value c; o and r are ints, c a non-negative id). For a request on
the path o/0/r each proxy hands exactly one BindingCommandData to ScheduleWork. If resource
r is mapped to attribute a and the path is registered in type_map, the read proxy sets
clusterId = c, attributeId = a, readAttribute = true, writeAttribute = false, and the write
proxy sets clusterId = c, attributeId = a, writeAttribute = true, readAttribute = false. If
resource r is mapped to command k, the command proxy sets clusterId = c, commandId = k and
leaves both flags false. -/
theorem proxies_schedule_translated_ids (coap_mapping : MatterIpsoMapping) (type_map : TypeMap)
    (o r c : Int) (ho : INT_MIN ≤ o ∧ o ≤ INT_MAX) (hr : INT_MIN ≤ r ∧ r ≤ INT_MAX)
    (hoc : coap_mapping.cluster_object_map.right_map.find o = some c)
    (hc : 0 ≤ c ∧ c ≤ INT_MAX) :
    (∀ (a : Int) (type_name : List Char) (result_ptr : Option Data)
        (published : Nat → Option Data) (buffer : List Nat) (buf_len size : Nat),
        coap_mapping.attribute_resource_map.right_map.find r = some a → 0 ≤ a ∧ a ≤ INT_MAX →
        type_map.at (ComposePath o r) = .ok type_name →
        ∃ res d, ForwardAttributeReadMessage coap_mapping type_map result_ptr published
              (ComposePath o r) buffer buf_len size = .ok res ∧
          res.scheduled = [d] ∧ (d.clusterId : Int) = c ∧ (d.attributeId : Int) = a ∧
          d.readAttribute = true ∧ d.writeAttribute = false) ∧
    (∀ (a : Int) (type_name : List Char) (payload : List Nat),
        coap_mapping.attribute_resource_map.right_map.find r = some a → 0 ≤ a ∧ a ≤ INT_MAX →
        type_map.at (ComposePath o r) = .ok type_name →
        ∃ d, ForwardAttributeWriteMessage coap_mapping type_map (ComposePath o r) payload
              = .ok [d] ∧
          (d.clusterId : Int) = c ∧ (d.attributeId : Int) = a ∧
          d.writeAttribute = true ∧ d.readAttribute = false) ∧
    (∀ (k : Int),
        coap_mapping.command_resource_map.right_map.find r = some k → 0 ≤ k ∧ k ≤ INT_MAX →
        ∃ d, ForwardCommandMessage coap_mapping (ComposePath o r) = .ok [d] ∧
          (d.clusterId : Int) = c ∧ (d.commandId : Int) = k ∧
          d.readAttribute = false ∧ d.writeAttribute = false) := by
  have hpath := DecomposePath_ComposePath o r ho hr
  have hcl := get_matter_id_of_find _ _ _ hoc
  refine ⟨?_, ?_, ?_⟩
  · intro a type_name result_ptr published buffer buf_len size hra ha htype
    have hat := get_matter_id_of_find _ _ _ hra
    obtain ⟨d, hd, h1, h2, _, h4, h5⟩ := set_data_by_type_keeps_ids
      { BindingCommandData.new with
        attributeId := to_uint32 a, clusterId := to_uint32 c, readAttribute := true }
      type_map (ComposePath o r) type_name buffer htype
    refine ⟨⟨[d],
      (ForwardAttributeReadMessage.wait published buf_len 10 0 result_ptr buffer size).buffer,
      (ForwardAttributeReadMessage.wait published buf_len 10 0 result_ptr buffer size).size,
      none,
      (ForwardAttributeReadMessage.wait published buf_len 10 0 result_ptr buffer size).polls⟩,
      d, ?_, rfl, ?_, ?_, ?_, ?_⟩
    · unfold ForwardAttributeReadMessage
      simp only [hpath, hcl, hat, hd, bind, Except.bind, pure, Except.pure]
    · rw [h1]; exact to_uint32_of_nonneg c hc
    · rw [h2]; exact to_uint32_of_nonneg a ha
    · rw [h4]
    · rw [h5]; rfl
  · intro a type_name payload hra ha htype
    have hat := get_matter_id_of_find _ _ _ hra
    obtain ⟨d, hd, h1, h2, _, h4, h5⟩ := set_data_by_type_keeps_ids
      { BindingCommandData.new with
        attributeId := to_uint32 a, clusterId := to_uint32 c, writeAttribute := true }
      type_map (ComposePath o r) type_name payload htype
    refine ⟨d, ?_, ?_, ?_, ?_, ?_⟩
    · unfold ForwardAttributeWriteMessage
      simp only [hpath, hcl, hat, hd, bind, Except.bind, pure, Except.pure]
    · rw [h1]; exact to_uint32_of_nonneg c hc
    · rw [h2]; exact to_uint32_of_nonneg a ha
    · rw [h5]
    · rw [h4]; rfl
  · intro k hrk hk
    have hkt := get_matter_id_of_find _ _ _ hrk
    refine ⟨{ BindingCommandData.new with
      commandId := to_uint32 k, clusterId := to_uint32 c }, ?_, ?_, ?_, rfl, rfl⟩
    · unfold ForwardCommandMessage
      simp only [hpath, hcl, hkt, bind, Except.bind, pure, Except.pure]
    · exact to_uint32_of_nonneg c hc
    · exact to_uint32_of_nonneg k hk

theorem proxies_schedule_translated_ids_witness :
    ComposePath 3311 5850 = "3311/0/5850".toList ∧
    (∃ res d, ForwardAttributeReadMessage
          ⟨BiMap.empty.insert 6 3311, BiMap.empty.insert 0 5850, BiMap.empty, BiMap.empty⟩
          ⟨[("3311/0/5850".toList, "Boolean".toList)]⟩ none (fun _ => none)
          (ComposePath 3311 5850) (List.replicate 40 0) 40 0 = .ok res ∧
      res.scheduled = [d] ∧ (d.clusterId : Int) = 6 ∧ (d.attributeId : Int) = 0 ∧
      d.readAttribute = true ∧ d.writeAttribute = false) :=
  ⟨by decide,
    (proxies_schedule_translated_ids
      ⟨BiMap.empty.insert 6 3311, BiMap.empty.insert 0 5850, BiMap.empty, BiMap.empty⟩
      ⟨[("3311/0/5850".toList, "Boolean".toList)]⟩ 3311 5850 6
      (by decide) (by decide) (by decide) (by decide)).1
      0 "Boolean".toList none (fun _ => none) (List.replicate 40 0) 40 0
      (by decide) (by decide) (by decide)⟩

/-! ## Theorems: the wait loop and the GET handler -/

/-- After a poll that found result_ptr empty, the later polls see what a loop started one
poll later with an empty result_ptr sees. -/
theorem result_at_poll_shift (published : Nat → Option Data) (first : Nat)
    (result_ptr : Option Data) (h : store_result result_ptr (published first) = none) (j : Nat) :
    result_at_poll published (first + 1) none j
      = result_at_poll published first result_ptr (j + 1) := by
  induction j with
  | zero =>
    simp only [result_at_poll, h]
  | succ j ih =>
    have e : first + 1 + (j + 1) = first + (j + 1 + 1) := by omega
    rw [result_at_poll, ih, e]
    rfl

/-- The wait loop leaves at the first poll that finds a value: it has printed the value into
the buffer and set size to the length of the text. -/
theorem wait_found (published : Nat → Option Data) (buf_len : Nat) (tries : Nat) :
    ∀ (polls : Nat) (result_ptr : Option Data) (buffer : List Nat) (size n : Nat) (d : Data),
      n < tries →
      (∀ j, j < n → result_at_poll published polls result_ptr j = none) →
      result_at_poll published polls result_ptr n = some d →
      ForwardAttributeReadMessage.wait published buf_len tries polls result_ptr buffer size
        = ⟨some d, (snprintf buffer buf_len (result_text d)).1,
            (snprintf buffer buf_len (result_text d)).2, polls + n + 1⟩ := by
  induction tries with
  | zero => intro _ _ _ _ n _ h; omega
  | succ tries ih =>
    intro polls result_ptr buffer size n d hn hempty hvalue
    cases n with
    | zero =>
      simp only [result_at_poll] at hvalue
      unfold ForwardAttributeReadMessage.wait
      rw [hvalue]
      cases d <;> rfl
    | succ n =>
      have h0 : store_result result_ptr (published polls) = none := hempty 0 (by omega)
      unfold ForwardAttributeReadMessage.wait
      rw [h0]
      simp only
      rw [ih (polls + 1) none buffer size n d (by omega)
        (fun j hj => by
          rw [result_at_poll_shift published polls result_ptr h0 j]
          exact hempty (j + 1) (by omega))
        (by rw [result_at_poll_shift published polls result_ptr h0 n]; exact hvalue)]
      have e : polls + 1 + n + 1 = polls + (n + 1) + 1 := by omega
      rw [e]

/-- The wait loop gives up after tries polls that all found result_ptr empty; the buffer and
size are then what they were at the start. -/
theorem wait_timeout (published : Nat → Option Data) (buf_len : Nat) (tries : Nat) :
    ∀ (polls : Nat) (result_ptr : Option Data) (buffer : List Nat) (size : Nat),
      (∀ j, j < tries → result_at_poll published polls result_ptr j = none) →
      ForwardAttributeReadMessage.wait published buf_len tries polls result_ptr buffer size
        = ⟨result_ptr, buffer, size, polls + tries⟩ ∨
      ForwardAttributeReadMessage.wait published buf_len tries polls result_ptr buffer size
        = ⟨none, buffer, size, polls + tries⟩ := by
  induction tries with
  | zero =>
    intro polls result_ptr buffer size _
    left
    rfl
  | succ tries ih =>
    intro polls result_ptr buffer size hempty
    have h0 : store_result result_ptr (published polls) = none := hempty 0 (by omega)
    right
    unfold ForwardAttributeReadMessage.wait
    rw [h0]
    simp only
    have e : polls + (tries + 1) = polls + 1 + tries := by omega
    rw [e]
    rcases ih (polls + 1) none buffer size (fun j hj => by
      rw [result_at_poll_shift published polls result_ptr h0 j]
      exact hempty (j + 1) (by omega)) with h | h <;> exact h

theorem result_text_bool (b : Bool) :
    result_text (.bool b) = (if b then "1" else "0").toList := by
  cases b <;> rfl

theorem to_string_uint16 (v : Nat) (hv : v < 65536) :
    IsDecimalOf (to_string v) v ∧ 1 ≤ (to_string v).length ∧ (to_string v).length ≤ 5 := by
  have hdec : IsDecimalOf (to_string v) v := by
    unfold to_string
    simp only [Int.toNat_ofNat, if_neg (show ¬ ((v : Int) < 0) by omega)]
    exact toDigits_isDecimalOf v
  refine ⟨hdec, ?_, ?_⟩
  · have := hdec.ne_nil
    cases h : to_string (v : Int) with
    | nil => exact absurd h this
    | cons c t => simp
  · rcases hdec.magnitude with h | h
    · omega
    · by_contra hlen
      have h5 : 5 ≤ (to_string (v : Int)).length - 1 := by omega
      have : 10 ^ 5 ≤ 10 ^ ((to_string (v : Int)).length - 1) :=
        Nat.pow_le_pow_right (by decide) h5
      omega

/-- The bytes snprintf leaves in front of the buffer, cut at the length it returns, are the
characters of a text that fits. -/
theorem snprintf_take (buffer : List Nat) (n : Nat) (text : List Char)
    (h : text.length < n) :
    (snprintf buffer n text).2 = text.length ∧
    (snprintf buffer n text).1.take (snprintf buffer n text).2 = text.map Char.toNat := by
  have hn : ¬ n = 0 := by omega
  have h2 : (snprintf buffer n text).2 = text.length := by
    unfold snprintf
    simp only [hn, if_false]
  refine ⟨h2, ?_⟩
  rw [h2]
  unfold snprintf
  simp only [hn, if_false]
  rw [List.take_of_length_le (by omega : text.length ≤ n - 1)]
  rw [List.append_assoc, List.take_left' (by simp)]

/-- C9. When result_ptr holds a value at some poll of the read proxy (poll k of the ten, all
polls before it having found it empty), the GET response body is the decimal text of the
value: 1 for the boolean true and 0 for false; for an unsigned 16-bit value v the decimal
numeral of v without leading zeros, which stoi reads back as v. The length passed to
coap_add_data is the number of characters, between 1 and 5, below the 40 bytes of the
handler buffer. -/
theorem hnd_attribute_get_body_is_decimal_text (coap_mapping : MatterIpsoMapping)
    (type_map : TypeMap) (result_ptr : Option Data) (published : Nat → Option Data)
    (uri : List Char) (stack_buf : List Nat) (stack_len : Nat)
    (ids : Int × Int) (type_name : List Char) (k : Nat) (d : Data)
    (hpath : DecomposePath uri = .ok ids) (htype : type_map.at uri = .ok type_name)
    (hk : k < 10)
    (hempty : ∀ j, j < k → result_at_poll published 0 result_ptr j = none)
    (hvalue : result_at_poll published 0 result_ptr k = some d)
    (hrange : ∀ v, d = .uint16 v → v < 65536) :
    ∃ res, hnd_attribute_get coap_mapping type_map result_ptr published uri stack_buf stack_len
        = .ok res ∧
      res.polls = k + 1 ∧
      res.response.data = (result_text d).map Char.toNat ∧
      res.response_len = (result_text d).length ∧
      1 ≤ res.response_len ∧ res.response_len ≤ 5 ∧ res.response_len < 40 ∧
      (∀ b, d = .bool b → result_text d = (if b then "1" else "0").toList) ∧
      (∀ v, d = .uint16 v → result_text d = to_string v ∧
        IsDecimalOf (result_text d) v ∧ stoi (result_text d) = .ok (v : Int)) := by
  obtain ⟨o, r⟩ := ids
  have hlen : 1 ≤ (result_text d).length ∧ (result_text d).length ≤ 5 := by
    cases d with
    | uint16 v => exact (to_string_uint16 v (hrange v rfl)).2
    | bool b => cases b <;> exact ⟨by decide, by decide⟩
  obtain ⟨data, hdata, _⟩ := set_data_by_type_keeps_ids
    { BindingCommandData.new with
      attributeId := to_uint32 (coap_mapping.attribute_resource_map.get_matter_id r),
      clusterId := to_uint32 (coap_mapping.cluster_object_map.get_matter_id o),
      readAttribute := true }
    type_map uri type_name
    (coap_encode_var_safe (coap_encode_var_safe stack_buf 40 COAP_MEDIATYPE_TEXT_PLAIN).1 40 1).1
    htype
  have hwait := wait_found published 40 10 0 result_ptr
    (coap_encode_var_safe (coap_encode_var_safe stack_buf 40 COAP_MEDIATYPE_TEXT_PLAIN).1 40 1).1
    stack_len k d hk hempty hvalue
  obtain ⟨hsize, htake⟩ := snprintf_take
    (coap_encode_var_safe (coap_encode_var_safe stack_buf 40 COAP_MEDIATYPE_TEXT_PLAIN).1 40 1).1
    40 (result_text d) (by omega)
  have hrun : ∃ res, hnd_attribute_get coap_mapping type_map result_ptr published uri stack_buf
      stack_len = .ok res ∧ res.polls = k + 1 ∧
      res.response.data = (snprintf (coap_encode_var_safe (coap_encode_var_safe stack_buf 40
          COAP_MEDIATYPE_TEXT_PLAIN).1 40 1).1 40 (result_text d)).1.take
        (snprintf (coap_encode_var_safe (coap_encode_var_safe stack_buf 40
          COAP_MEDIATYPE_TEXT_PLAIN).1 40 1).1 40 (result_text d)).2 ∧
      res.response_len = (snprintf (coap_encode_var_safe (coap_encode_var_safe stack_buf 40
          COAP_MEDIATYPE_TEXT_PLAIN).1 40 1).1 40 (result_text d)).2 := by
    unfold hnd_attribute_get ForwardAttributeReadMessage
    simp only [hpath, hdata, hwait, bind, Except.bind, pure, Except.pure]
    exact ⟨_, rfl, by simp, rfl, rfl⟩
  obtain ⟨res, hres, hpolls, hbody, hrlen⟩ := hrun
  rw [htake] at hbody
  rw [hsize] at hrlen
  refine ⟨res, hres, hpolls, hbody, hrlen, ?_, ?_, ?_, ?_, ?_⟩
  · rw [hrlen]; exact hlen.1
  · rw [hrlen]; exact hlen.2
  · rw [hrlen]; omega
  · intro b hb
    rw [hb]
    exact result_text_bool b
  · intro v hv
    subst hv
    have hdec := (to_string_uint16 v (hrange v rfl)).1
    refine ⟨rfl, hdec, ?_⟩
    exact stoi_of_isDecimalOf _ v hdec (by unfold INT_MAX; have := hrange v rfl; omega)

theorem hnd_attribute_get_body_is_decimal_text_witness :
    ∃ res, hnd_attribute_get
        ⟨BiMap.empty.insert 6 3311, BiMap.empty.insert 0 5850, BiMap.empty, BiMap.empty⟩
        ⟨[("3311/0/5850".toList, "Boolean".toList)]⟩ none
        (fun k => if k = 3 then some (.bool true) else none)
        "3311/0/5850".toList (List.replicate 40 170) 7 = .ok res ∧
      res.polls = 3 + 1 ∧
      res.response.data = (result_text (.bool true)).map Char.toNat ∧
      res.response_len = (result_text (.bool true)).length ∧
      1 ≤ res.response_len ∧ res.response_len ≤ 5 ∧ res.response_len < 40 ∧
      (∀ b, Data.bool true = .bool b → result_text (.bool true) = (if b then "1" else "0").toList) ∧
      (∀ v, Data.bool true = .uint16 v → result_text (.bool true) = to_string v ∧
        IsDecimalOf (result_text (.bool true)) v ∧
        stoi (result_text (.bool true)) = .ok (v : Int)) :=
  hnd_attribute_get_body_is_decimal_text
    ⟨BiMap.empty.insert 6 3311, BiMap.empty.insert 0 5850, BiMap.empty, BiMap.empty⟩
    ⟨[("3311/0/5850".toList, "Boolean".toList)]⟩ none
    (fun k => if k = 3 then some (.bool true) else none)
    "3311/0/5850".toList (List.replicate 40 170) 7 (3311, 5850) "Boolean".toList 3 (.bool true)
    (by decide) (by decide) (by decide) (by decide) (by decide) (by intro v hv; cases hv)

/-- On the timeout path (ten polls, all finding result_ptr empty) the handler still returns,
and the payload it adds is the first response_len bytes of buf, where response_len still has
the content the uninitialised local had at the start. -/
theorem hnd_attribute_get_of_timeout (coap_mapping : MatterIpsoMapping)
    (type_map : TypeMap) (result_ptr : Option Data) (published : Nat → Option Data)
    (uri : List Char) (stack_buf : List Nat) (stack_len : Nat)
    (ids : Int × Int) (type_name : List Char)
    (hpath : DecomposePath uri = .ok ids) (htype : type_map.at uri = .ok type_name)
    (hempty : ∀ j, j < 10 → result_at_poll published 0 result_ptr j = none) :
    ∃ res, hnd_attribute_get coap_mapping type_map result_ptr published uri stack_buf stack_len
        = .ok res ∧
      res.polls = 10 ∧ res.result_ptr = none ∧ res.response_len = stack_len ∧
      res.response.data = (1 :: stack_buf.drop 1).take stack_len := by
  obtain ⟨o, r⟩ := ids
  have henc : (coap_encode_var_safe
      (coap_encode_var_safe stack_buf 40 COAP_MEDIATYPE_TEXT_PLAIN).1 40 1).1
      = 1 :: stack_buf.drop 1 := by
    simp [coap_encode_var_safe, bigEndianBytes, COAP_MEDIATYPE_TEXT_PLAIN]
  obtain ⟨data, hdata, _⟩ := set_data_by_type_keeps_ids
    { BindingCommandData.new with
      attributeId := to_uint32 (coap_mapping.attribute_resource_map.get_matter_id r),
      clusterId := to_uint32 (coap_mapping.cluster_object_map.get_matter_id o),
      readAttribute := true }
    type_map uri type_name
    (coap_encode_var_safe (coap_encode_var_safe stack_buf 40 COAP_MEDIATYPE_TEXT_PLAIN).1 40 1).1
    htype
  have hwait := wait_timeout published 40 10 0 result_ptr
    (coap_encode_var_safe (coap_encode_var_safe stack_buf 40 COAP_MEDIATYPE_TEXT_PLAIN).1 40 1).1
    stack_len hempty
  unfold hnd_attribute_get ForwardAttributeReadMessage
  simp only [hpath, hdata, bind, Except.bind, pure, Except.pure]
  rcases hwait with h | h
  · rw [h]
    exact ⟨_, rfl, rfl, rfl, rfl, by simp only [henc]⟩
  · rw [h]
    exact ⟨_, rfl, rfl, rfl, rfl, by simp only [henc]⟩

/-- C10 (the code does not do this). A GET on the registered path 3311/0/5850 during which
nothing is ever stored in result_ptr: the ten polls pass, the handler returns, and the
payload it has added is not empty. The loop has not assigned size, so coap_add_data gets
the value the uninitialised local response_len happens to hold (here 7) and adds that many
bytes of buf (here the byte 1 left by the Max-Age option and six bytes of stack content). -/
theorem hnd_attribute_get_timeout_body_not_empty :
    (hnd_attribute_get
        ⟨BiMap.empty.insert 6 3311, BiMap.empty.insert 0 5850, BiMap.empty, BiMap.empty⟩
        ⟨[("3311/0/5850".toList, "Boolean".toList)]⟩ none (fun _ => none)
        "3311/0/5850".toList (List.replicate 40 170) 7).map
      (fun res => (res.polls, res.response_len, res.response.data))
      = .ok (10, 7, [1, 170, 170, 170, 170, 170, 170]) := by
  decide

/-! ## Theorems: bounds of the wait loop, type dispatch and missing ids -/

/-- The wait loop makes at most tries polls. -/
theorem wait_polls_le (published : Nat → Option Data) (buf_len : Nat) (tries : Nat) :
    ∀ (polls : Nat) (result_ptr : Option Data) (buffer : List Nat) (size : Nat),
      polls ≤ (ForwardAttributeReadMessage.wait published buf_len tries polls result_ptr buffer
          size).polls ∧
      (ForwardAttributeReadMessage.wait published buf_len tries polls result_ptr buffer
          size).polls ≤ polls + tries := by
  induction tries with
  | zero =>
    intro polls result_ptr buffer size
    exact ⟨Nat.le_refl _, Nat.le_refl _⟩
  | succ tries ih =>
    intro polls result_ptr buffer size
    unfold ForwardAttributeReadMessage.wait
    cases h : store_result result_ptr (published polls) with
    | none =>
      simp only
      have := ih (polls + 1) none buffer size
      omega
    | some d =>
      cases d <;> simp only <;> omega

/-- The wait loop that saw result_ptr empty at every poll has made all its polls. -/
theorem wait_polls_of_empty (published : Nat → Option Data) (buf_len tries polls : Nat)
    (result_ptr : Option Data) (buffer : List Nat) (size : Nat)
    (h : ∀ j, j < tries → result_at_poll published polls result_ptr j = none) :
    (ForwardAttributeReadMessage.wait published buf_len tries polls result_ptr buffer
      size).polls = polls + tries := by
  rcases wait_timeout published buf_len tries polls result_ptr buffer size h with e | e <;>
    rw [e]

/-- C11. The wait of the read proxy on result_ptr is bounded, whatever the read callback does
(published is arbitrary): the loop of ForwardAttributeReadMessage makes at least one and at
most 10 polls and then ends; it ends with the first poll that finds result_ptr non-empty
(poll number k, counted from 0, gives k + 1 polls), and after exactly 10 polls when every
poll finds it empty. The proxy returns whenever the statements before the loop do not
throw. -/
theorem wait_is_bounded (published : Nat → Option Data) (result_ptr : Option Data)
    (buffer : List Nat) (buf_len size : Nat) :
    1 ≤ (ForwardAttributeReadMessage.wait published buf_len 10 0 result_ptr buffer size).polls ∧
    (ForwardAttributeReadMessage.wait published buf_len 10 0 result_ptr buffer size).polls ≤ 10 ∧
    (∀ k d, k < 10 → (∀ j, j < k → result_at_poll published 0 result_ptr j = none) →
      result_at_poll published 0 result_ptr k = some d →
      (ForwardAttributeReadMessage.wait published buf_len 10 0 result_ptr buffer size).polls
        = k + 1) ∧
    ((∀ j, j < 10 → result_at_poll published 0 result_ptr j = none) →
      (ForwardAttributeReadMessage.wait published buf_len 10 0 result_ptr buffer size).polls
        = 10) ∧
    (∀ (coap_mapping : MatterIpsoMapping) (type_map : TypeMap) (uri : List Char)
        (ids : Int × Int) (type_name : List Char),
      DecomposePath uri = .ok ids → type_map.at uri = .ok type_name →
      ∃ res, ForwardAttributeReadMessage coap_mapping type_map result_ptr published uri buffer
          buf_len size = .ok res ∧
        res.polls
          = (ForwardAttributeReadMessage.wait published buf_len 10 0 result_ptr buffer
              size).polls) := by
  refine ⟨?_, ?_, ?_, ?_, ?_⟩
  · unfold ForwardAttributeReadMessage.wait
    cases h : store_result result_ptr (published 0) with
    | none =>
      simp only
      exact (wait_polls_le published buf_len 9 1 none buffer size).1
    | some d =>
      cases d <;> simp only <;> omega
  · have := (wait_polls_le published buf_len 10 0 result_ptr buffer size).2
    omega
  · intro k d hk hempty hvalue
    rw [wait_found published buf_len 10 0 result_ptr buffer size k d hk hempty hvalue]
    simp
  · intro hempty
    rw [wait_polls_of_empty published buf_len 10 0 result_ptr buffer size hempty]
  · intro coap_mapping type_map uri ids type_name hpath htype
    obtain ⟨o, r⟩ := ids
    obtain ⟨data, hdata, _⟩ := set_data_by_type_keeps_ids
      { BindingCommandData.new with
        attributeId := to_uint32 (coap_mapping.attribute_resource_map.get_matter_id r),
        clusterId := to_uint32 (coap_mapping.cluster_object_map.get_matter_id o),
        readAttribute := true }
      type_map uri type_name buffer htype
    unfold ForwardAttributeReadMessage
    simp only [hpath, hdata, bind, Except.bind, pure, Except.pure]
    exact ⟨_, rfl, rfl⟩

theorem wait_is_bounded_witness :
    (ForwardAttributeReadMessage.wait (fun k => if k = 3 then some (.uint16 42) else none) 40
      10 0 none (List.replicate 40 0) 0).polls = 3 + 1 :=
  (wait_is_bounded (fun k => if k = 3 then some (.uint16 42) else none) none
    (List.replicate 40 0) 40 0).2.2.1 3 (.uint16 42) (by decide) (by decide) (by decide)

/-- C12. After a call of the read proxy result_ptr is empty, whether the call took a value
or timed out. A following read during which nothing is stored therefore finds no value at
any of its polls: it makes all 10 polls and times out, leaving size and the buffer as they
were instead of printing the previous value again. -/
theorem read_clears_result_slot (coap_mapping : MatterIpsoMapping) (type_map : TypeMap)
    (result_ptr : Option Data) (published : Nat → Option Data) (uri : List Char)
    (buffer : List Nat) (buf_len size : Nat) (res : ReadResult)
    (next_uri : List Char) (next_ids : Int × Int) (next_type : List Char)
    (next_buffer : List Nat) (next_size : Nat)
    (hfirst : ForwardAttributeReadMessage coap_mapping type_map result_ptr published uri buffer
      buf_len size = .ok res)
    (hpath : DecomposePath next_uri = .ok next_ids)
    (htype : type_map.at next_uri = .ok next_type) :
    res.result_ptr = none ∧
    (∀ j, result_at_poll (fun _ => none) 0 res.result_ptr j = none) ∧
    ∃ next, ForwardAttributeReadMessage coap_mapping type_map res.result_ptr (fun _ => none)
        next_uri next_buffer buf_len next_size = .ok next ∧
      next.polls = 10 ∧ next.size = next_size ∧ next.buffer = next_buffer ∧
      next.result_ptr = none := by
  have hnone : res.result_ptr = none := by
    unfold ForwardAttributeReadMessage at hfirst
    cases hp : DecomposePath uri with
    | error e => simp [hp, bind, Except.bind] at hfirst
    | ok ids =>
      obtain ⟨o, r⟩ := ids
      simp only [hp, bind, Except.bind, pure, Except.pure] at hfirst
      split at hfirst
      · cases hfirst
      · simp only [Except.ok.injEq] at hfirst
        rw [← hfirst]
  have hslot : ∀ j, result_at_poll (fun _ => none) 0 res.result_ptr j = none := by
    intro j
    rw [hnone]
    induction j with
    | zero => rfl
    | succ j ih => simp only [result_at_poll, ih]; rfl
  refine ⟨hnone, hslot, ?_⟩
  obtain ⟨o, r⟩ := next_ids
  obtain ⟨data, hdata, _⟩ := set_data_by_type_keeps_ids
    { BindingCommandData.new with
      attributeId := to_uint32 (coap_mapping.attribute_resource_map.get_matter_id r),
      clusterId := to_uint32 (coap_mapping.cluster_object_map.get_matter_id o),
      readAttribute := true }
    type_map next_uri next_type next_buffer htype
  have hwait := wait_timeout (fun _ => none) buf_len 10 0 res.result_ptr next_buffer next_size
    (fun j _ => hslot j)
  unfold ForwardAttributeReadMessage
  simp only [hpath, hdata, bind, Except.bind, pure, Except.pure]
  rcases hwait with h | h
  · rw [h]
    exact ⟨_, rfl, rfl, rfl, rfl, rfl⟩
  · rw [h]
    exact ⟨_, rfl, rfl, rfl, rfl, rfl⟩

theorem read_clears_result_slot_witness :
    (⟨[⟨2, 0, 0, 6, .bool false, true, false, false⟩], 49 :: List.replicate 39 0, 1, none, 4⟩
      : ReadResult).result_ptr = none ∧
    (∀ j, result_at_poll (fun _ => none) 0
      (⟨[⟨2, 0, 0, 6, .bool false, true, false, false⟩], 49 :: List.replicate 39 0, 1, none, 4⟩
        : ReadResult).result_ptr j = none) ∧
    ∃ next, ForwardAttributeReadMessage
        ⟨BiMap.empty.insert 6 3311, BiMap.empty.insert 0 5850, BiMap.empty, BiMap.empty⟩
        ⟨[("3311/0/5850".toList, "Boolean".toList)]⟩
        (⟨[⟨2, 0, 0, 6, .bool false, true, false, false⟩], 49 :: List.replicate 39 0, 1, none, 4⟩
          : ReadResult).result_ptr
        (fun _ => none) "3311/0/5850".toList (List.replicate 40 0) 40 7 = .ok next ∧
      next.polls = 10 ∧ next.size = 7 ∧ next.buffer = List.replicate 40 0 ∧
      next.result_ptr = none :=
  read_clears_result_slot
    ⟨BiMap.empty.insert 6 3311, BiMap.empty.insert 0 5850, BiMap.empty, BiMap.empty⟩
    ⟨[("3311/0/5850".toList, "Boolean".toList)]⟩ none
    (fun k => if k = 3 then some (.bool true) else none) "3311/0/5850".toList
    (List.replicate 40 0) 40 0
    ⟨[⟨2, 0, 0, 6, .bool false, true, false, false⟩], 49 :: List.replicate 39 0, 1, none, 4⟩
    "3311/0/5850".toList (3311, 5850) "Boolean".toList (List.replicate 40 0) 7
    (by decide) (by decide) (by decide)

theorem get_matter_id_of_absent (m : BiMap) (b : Int) (h : m.has_ipso_id b = false) :
    m.get_matter_id b = -1 := by
  have hb : m.right_map.find b = none := by simpa [BiMap.has_ipso_id] using h
  simp [BiMap.get_matter_id, hb]

/-- The write proxy on a path that decomposes and has a registered type. -/
theorem ForwardAttributeWriteMessage_eq (coap_mapping : MatterIpsoMapping) (type_map : TypeMap)
    (uri : List Char) (o r : Int) (payload : List Nat)
    (hpath : DecomposePath uri = .ok (o, r)) :
    ForwardAttributeWriteMessage coap_mapping type_map uri payload
      = (set_data_by_type
          { BindingCommandData.new with
            attributeId := to_uint32 (coap_mapping.attribute_resource_map.get_matter_id r),
            clusterId := to_uint32 (coap_mapping.cluster_object_map.get_matter_id o),
            writeAttribute := true }
          type_map uri payload).map (fun d => [d]) := by
  unfold ForwardAttributeWriteMessage
  simp only [hpath, bind, Except.bind, pure, Except.pure]
  cases set_data_by_type _ type_map uri payload <;> rfl

/-- C13. Type dispatch of the write proxy, for a request path that decomposes into its two
ids. With the declared kind Unsigned Integer and a payload whose first two bytes are b0 and
b1, the one scheduled write interaction carries the unsigned 16-bit value b0 + 256 * b1
(little-endian); with the declared kind Boolean it carries true for the first byte 1 and
false for the first byte 0. The same holds through the handler hnd_attribute_put, which
passes the request payload on (with a zero byte after it). -/
theorem write_type_dispatch (coap_mapping : MatterIpsoMapping) (type_map : TypeMap)
    (uri : List Char) (ids : Int × Int) (hpath : DecomposePath uri = .ok ids) :
    (type_map.at uri = .ok "Unsigned Integer".toList →
      ∀ (b0 b1 : Nat) (rest : List Nat),
        (∃ d, ForwardAttributeWriteMessage coap_mapping type_map uri (b0 :: b1 :: rest) = .ok [d] ∧
          d.writeAttribute = true ∧ d.readAttribute = false ∧
          d.data = .uint16 (b0 + 256 * b1)) ∧
        (∃ res d, hnd_attribute_put coap_mapping type_map uri (some (b0 :: b1 :: rest)) []
            = .ok res ∧ res.scheduled = [d] ∧ d.data = .uint16 (b0 + 256 * b1))) ∧
    (type_map.at uri = .ok "Boolean".toList →
      ∀ (b0 : Nat) (rest : List Nat),
        (∃ d, ForwardAttributeWriteMessage coap_mapping type_map uri (b0 :: rest) = .ok [d] ∧
          d.writeAttribute = true ∧ d.readAttribute = false ∧
          (b0 = 1 → d.data = .bool true) ∧ (b0 = 0 → d.data = .bool false)) ∧
        (∃ res d, hnd_attribute_put coap_mapping type_map uri (some (b0 :: rest)) []
            = .ok res ∧ res.scheduled = [d] ∧
          (b0 = 1 → d.data = .bool true) ∧ (b0 = 0 → d.data = .bool false))) := by
  obtain ⟨o, r⟩ := ids
  refine ⟨?_, ?_⟩
  · intro htype b0 b1 rest
    refine ⟨?_, ?_⟩
    · rw [ForwardAttributeWriteMessage_eq coap_mapping type_map uri o r _ hpath]
      unfold set_data_by_type
      simp only [htype, bind, Except.bind, pure, Except.pure]
      exact ⟨_, rfl, rfl, rfl, by simp [read_uint16]⟩
    · unfold hnd_attribute_put
      simp only [bind, Except.bind, pure, Except.pure]
      rw [ForwardAttributeWriteMessage_eq coap_mapping type_map uri o r _ hpath]
      unfold set_data_by_type
      simp only [htype, bind, Except.bind, pure, Except.pure]
      exact ⟨_, _, rfl, rfl, by simp [read_uint16]⟩
  · intro htype b0 rest
    refine ⟨?_, ?_⟩
    · rw [ForwardAttributeWriteMessage_eq coap_mapping type_map uri o r _ hpath]
      unfold set_data_by_type
      simp only [htype, bind, Except.bind, pure, Except.pure]
      exact ⟨_, rfl, rfl, rfl, by intro h; simp [read_bool, h], by intro h; simp [read_bool, h]⟩
    · unfold hnd_attribute_put
      simp only [bind, Except.bind, pure, Except.pure]
      rw [ForwardAttributeWriteMessage_eq coap_mapping type_map uri o r _ hpath]
      unfold set_data_by_type
      simp only [htype, bind, Except.bind, pure, Except.pure]
      exact ⟨_, _, rfl, rfl, by intro h; simp [read_bool, h], by intro h; simp [read_bool, h]⟩

theorem write_type_dispatch_witness :
    (∃ d, ForwardAttributeWriteMessage
        ⟨BiMap.empty.insert 6 3311, BiMap.empty.insert 0 5850, BiMap.empty, BiMap.empty⟩
        ⟨[("3311/0/5850".toList, "Unsigned Integer".toList)]⟩ "3311/0/5850".toList
        (42 :: 0 :: []) = .ok [d] ∧
      d.writeAttribute = true ∧ d.readAttribute = false ∧ d.data = .uint16 (42 + 256 * 0)) ∧
    (∃ d, ForwardAttributeWriteMessage
        ⟨BiMap.empty.insert 6 3311, BiMap.empty.insert 0 5850, BiMap.empty, BiMap.empty⟩
        ⟨[("3311/0/5850".toList, "Boolean".toList)]⟩ "3311/0/5850".toList
        (1 :: []) = .ok [d] ∧
      d.writeAttribute = true ∧ d.readAttribute = false ∧
      ((1 : Nat) = 1 → d.data = .bool true) ∧ ((1 : Nat) = 0 → d.data = .bool false)) :=
  ⟨((write_type_dispatch
      ⟨BiMap.empty.insert 6 3311, BiMap.empty.insert 0 5850, BiMap.empty, BiMap.empty⟩
      ⟨[("3311/0/5850".toList, "Unsigned Integer".toList)]⟩ "3311/0/5850".toList (3311, 5850)
      (by decide)).1 (by decide) 42 0 []).1,
   ((write_type_dispatch
      ⟨BiMap.empty.insert 6 3311, BiMap.empty.insert 0 5850, BiMap.empty, BiMap.empty⟩
      ⟨[("3311/0/5850".toList, "Boolean".toList)]⟩ "3311/0/5850".toList (3311, 5850)
      (by decide)).2 (by decide) 1 []).1⟩

/-- C14 as stated fails. A write to the path 3311/0/5850, whose declared kind String is
neither Boolean nor Unsigned Integer: the write proxy does not fail, it hands one write
interaction (cluster 6, attribute 0) to ScheduleWork, its data being the uint16_t 0 of the
fresh BindingCommandData and not taken from the payload. -/
theorem write_of_other_kind_is_scheduled :
    TypeMap.at ⟨[("3311/0/5850".toList, "String".toList)]⟩ "3311/0/5850".toList
      = .ok "String".toList ∧
    "String".toList ≠ "Boolean".toList ∧ "String".toList ≠ "Unsigned Integer".toList ∧
    ForwardAttributeWriteMessage
        ⟨BiMap.empty.insert 6 3311, BiMap.empty.insert 0 5850, BiMap.empty, BiMap.empty⟩
        ⟨[("3311/0/5850".toList, "String".toList)]⟩ "3311/0/5850".toList [104, 105]
      = .ok [⟨2, 0, 0, 6, .uint16 0, false, true, false⟩] := by
  decide

/-- C14, amended. For every resource whose declared kind is neither Boolean nor Unsigned
Integer the write proxy does not fail: on a path that decomposes into (o, r) it schedules
exactly one write interaction with the ids the maps give for o and r, and its data is the
unsigned 16-bit value 0 of the fresh BindingCommandData whatever the payload is. -/
theorem write_of_other_kind (coap_mapping : MatterIpsoMapping) (type_map : TypeMap)
    (uri type_name : List Char) (o r : Int) (payload : List Nat)
    (hpath : DecomposePath uri = .ok (o, r))
    (htype : type_map.at uri = .ok type_name)
    (hbool : type_name ≠ "Boolean".toList) (huint : type_name ≠ "Unsigned Integer".toList) :
    ForwardAttributeWriteMessage coap_mapping type_map uri payload
      = .ok [{ BindingCommandData.new with
          attributeId := to_uint32 (coap_mapping.attribute_resource_map.get_matter_id r),
          clusterId := to_uint32 (coap_mapping.cluster_object_map.get_matter_id o),
          writeAttribute := true }] ∧
    ({ BindingCommandData.new with
          attributeId := to_uint32 (coap_mapping.attribute_resource_map.get_matter_id r),
          clusterId := to_uint32 (coap_mapping.cluster_object_map.get_matter_id o),
          writeAttribute := true } : BindingCommandData).data = .uint16 0 := by
  refine ⟨?_, rfl⟩
  rw [ForwardAttributeWriteMessage_eq coap_mapping type_map uri o r _ hpath]
  unfold set_data_by_type
  simp only [htype, bind, Except.bind, pure, Except.pure, if_neg hbool, if_neg huint]
  rfl

theorem write_of_other_kind_witness :
    ForwardAttributeWriteMessage
        ⟨BiMap.empty.insert 6 3311, BiMap.empty.insert 0 5850, BiMap.empty, BiMap.empty⟩
        ⟨[("3311/0/5850".toList, "String".toList)]⟩ "3311/0/5850".toList [104, 105]
      = .ok [{ BindingCommandData.new with
          attributeId := to_uint32 ((BiMap.empty.insert 0 5850).get_matter_id 5850),
          clusterId := to_uint32 ((BiMap.empty.insert 6 3311).get_matter_id 3311),
          writeAttribute := true }] ∧
    ({ BindingCommandData.new with
          attributeId := to_uint32 ((BiMap.empty.insert 0 5850).get_matter_id 5850),
          clusterId := to_uint32 ((BiMap.empty.insert 6 3311).get_matter_id 3311),
          writeAttribute := true } : BindingCommandData).data = .uint16 0 :=
  write_of_other_kind
    ⟨BiMap.empty.insert 6 3311, BiMap.empty.insert 0 5850, BiMap.empty, BiMap.empty⟩
    ⟨[("3311/0/5850".toList, "String".toList)]⟩ "3311/0/5850".toList "String".toList
    3311 5850 [104, 105] (by decide) (by decide) (by decide) (by decide)

/-- C15 as stated fails. With empty identifier maps a request on the registered path
3311/0/5850 finds neither the object nor the resource; all three proxies go on and hand one
interaction to ScheduleWork, with the ids 4294967295 (the -1 of the failed lookups converted
to the unsigned id types). -/
theorem proxies_schedule_on_missing_ids :
    (MatterIpsoMapping.empty.cluster_object_map.has_ipso_id 3311 = false ∧
      MatterIpsoMapping.empty.attribute_resource_map.has_ipso_id 5850 = false ∧
      MatterIpsoMapping.empty.command_resource_map.has_ipso_id 5850 = false) ∧
    (ForwardAttributeReadMessage MatterIpsoMapping.empty
        ⟨[("3311/0/5850".toList, "Boolean".toList)]⟩ none (fun _ => none)
        "3311/0/5850".toList (List.replicate 40 0) 40 0).map (fun res => res.scheduled)
      = .ok [⟨2, 0, 4294967295, 4294967295, .bool false, true, false, false⟩] ∧
    ForwardAttributeWriteMessage MatterIpsoMapping.empty
        ⟨[("3311/0/5850".toList, "Boolean".toList)]⟩ "3311/0/5850".toList [1]
      = .ok [⟨2, 0, 4294967295, 4294967295, .bool true, false, true, false⟩] ∧
    ForwardCommandMessage MatterIpsoMapping.empty "3311/0/5850".toList
      = .ok [⟨2, 4294967295, 0, 4294967295, .uint16 0, false, false, false⟩] := by
  decide

/-- C15, amended. On a request path that decomposes into (o, r) no proxy fails because of a
missing id: each still schedules exactly one interaction (the attribute proxies on a path
registered in type_map). An object index absent from cluster_object_map gives clusterId
4294967295, a resource index absent from attribute_resource_map gives attributeId
4294967295 in the read and the write proxy, and a resource index absent from
command_resource_map gives commandId 4294967295 in the command proxy: the -1 of the failed
lookup converted to the unsigned 32-bit id type. -/
theorem proxies_with_missing_id (coap_mapping : MatterIpsoMapping) (type_map : TypeMap)
    (uri : List Char) (o r : Int) (hpath : DecomposePath uri = .ok (o, r)) :
    (∀ (type_name : List Char) (result_ptr : Option Data) (published : Nat → Option Data)
        (buffer : List Nat) (buf_len size : Nat),
      type_map.at uri = .ok type_name →
      ∃ res d, ForwardAttributeReadMessage coap_mapping type_map result_ptr published uri
          buffer buf_len size = .ok res ∧ res.scheduled = [d] ∧ d.readAttribute = true ∧
        (coap_mapping.cluster_object_map.has_ipso_id o = false → d.clusterId = 4294967295) ∧
        (coap_mapping.attribute_resource_map.has_ipso_id r = false →
          d.attributeId = 4294967295)) ∧
    (∀ (type_name : List Char) (payload : List Nat),
      type_map.at uri = .ok type_name →
      ∃ d, ForwardAttributeWriteMessage coap_mapping type_map uri payload = .ok [d] ∧
        d.writeAttribute = true ∧
        (coap_mapping.cluster_object_map.has_ipso_id o = false → d.clusterId = 4294967295) ∧
        (coap_mapping.attribute_resource_map.has_ipso_id r = false →
          d.attributeId = 4294967295)) ∧
    (∃ d, ForwardCommandMessage coap_mapping uri = .ok [d] ∧
      d.readAttribute = false ∧ d.writeAttribute = false ∧
      (coap_mapping.cluster_object_map.has_ipso_id o = false → d.clusterId = 4294967295) ∧
      (coap_mapping.command_resource_map.has_ipso_id r = false → d.commandId = 4294967295)) := by
  have hminus : to_uint32 (-1) = 4294967295 := by decide
  refine ⟨?_, ?_, ?_⟩
  · intro type_name result_ptr published buffer buf_len size htype
    obtain ⟨d, hd, h1, h2, _, h4, _⟩ := set_data_by_type_keeps_ids
      { BindingCommandData.new with
        attributeId := to_uint32 (coap_mapping.attribute_resource_map.get_matter_id r),
        clusterId := to_uint32 (coap_mapping.cluster_object_map.get_matter_id o),
        readAttribute := true }
      type_map uri type_name buffer htype
    refine ⟨⟨[d],
      (ForwardAttributeReadMessage.wait published buf_len 10 0 result_ptr buffer size).buffer,
      (ForwardAttributeReadMessage.wait published buf_len 10 0 result_ptr buffer size).size,
      none,
      (ForwardAttributeReadMessage.wait published buf_len 10 0 result_ptr buffer size).polls⟩,
      d, ?_, rfl, ?_, ?_, ?_⟩
    · unfold ForwardAttributeReadMessage
      simp only [hpath, hd, bind, Except.bind, pure, Except.pure]
    · rw [h4]
    · intro ho
      rw [h1]
      show to_uint32 (coap_mapping.cluster_object_map.get_matter_id o) = 4294967295
      rw [get_matter_id_of_absent _ _ ho, hminus]
    · intro hr
      rw [h2]
      show to_uint32 (coap_mapping.attribute_resource_map.get_matter_id r) = 4294967295
      rw [get_matter_id_of_absent _ _ hr, hminus]
  · intro type_name payload htype
    obtain ⟨d, hd, h1, h2, _, _, h5⟩ := set_data_by_type_keeps_ids
      { BindingCommandData.new with
        attributeId := to_uint32 (coap_mapping.attribute_resource_map.get_matter_id r),
        clusterId := to_uint32 (coap_mapping.cluster_object_map.get_matter_id o),
        writeAttribute := true }
      type_map uri type_name payload htype
    refine ⟨d, ?_, ?_, ?_, ?_⟩
    · rw [ForwardAttributeWriteMessage_eq coap_mapping type_map uri o r _ hpath, hd]
      rfl
    · rw [h5]
    · intro ho
      rw [h1]
      show to_uint32 (coap_mapping.cluster_object_map.get_matter_id o) = 4294967295
      rw [get_matter_id_of_absent _ _ ho, hminus]
    · intro hr
      rw [h2]
      show to_uint32 (coap_mapping.attribute_resource_map.get_matter_id r) = 4294967295
      rw [get_matter_id_of_absent _ _ hr, hminus]
  · refine ⟨{ BindingCommandData.new with
      commandId := to_uint32 (coap_mapping.command_resource_map.get_matter_id r),
      clusterId := to_uint32 (coap_mapping.cluster_object_map.get_matter_id o) },
      ?_, rfl, rfl, ?_, ?_⟩
    · unfold ForwardCommandMessage
      simp only [hpath, bind, Except.bind, pure, Except.pure]
    · intro ho
      show to_uint32 (coap_mapping.cluster_object_map.get_matter_id o) = 4294967295
      rw [get_matter_id_of_absent _ _ ho, hminus]
    · intro hr
      show to_uint32 (coap_mapping.command_resource_map.get_matter_id r) = 4294967295
      rw [get_matter_id_of_absent _ _ hr, hminus]

theorem proxies_with_missing_id_witness :
    ∃ d, ForwardCommandMessage MatterIpsoMapping.empty "3311/0/5850".toList = .ok [d] ∧
      d.readAttribute = false ∧ d.writeAttribute = false ∧
      (MatterIpsoMapping.empty.cluster_object_map.has_ipso_id 3311 = false →
        d.clusterId = 4294967295) ∧
      (MatterIpsoMapping.empty.command_resource_map.has_ipso_id 5850 = false →
        d.commandId = 4294967295) :=
  (proxies_with_missing_id MatterIpsoMapping.empty ⟨[]⟩ "3311/0/5850".toList 3311 5850
    (by decide)).2.2

/-! ## Theorems: the binding handler -/

/-- C16. Command dispatch is a closed enumeration. For an interaction with readAttribute and
writeAttribute both false: on a unicast binding with isGroup false (and a connected peer
device, which the handler asserts for the cluster OnOff) StateChangedHandler sends exactly
one invoke, of the matching command, when clusterId is OnOff and commandId is Off, On or
Toggle, and nothing for any other command id or any other cluster id; on a multicast
binding with isGroup true the same holds with group invokes; and nothing is sent when the
binding kind and isGroup disagree. -/
theorem command_dispatch_is_closed (data : BindingCommandData)
    (hread : data.readAttribute = false) (hwrite : data.writeAttribute = false) :
    (data.isGroup = false →
      (data.clusterId = OnOff_Id →
        (data.commandId = Off_Id →
          StateChangedHandler .EMBER_UNICAST_BINDING (some ⟨true⟩) (some data)
            = .ok [.InvokeCommandRequest .Off]) ∧
        (data.commandId = On_Id →
          StateChangedHandler .EMBER_UNICAST_BINDING (some ⟨true⟩) (some data)
            = .ok [.InvokeCommandRequest .On]) ∧
        (data.commandId = Toggle_Id →
          StateChangedHandler .EMBER_UNICAST_BINDING (some ⟨true⟩) (some data)
            = .ok [.InvokeCommandRequest .Toggle]) ∧
        (data.commandId ≠ Off_Id → data.commandId ≠ On_Id → data.commandId ≠ Toggle_Id →
          StateChangedHandler .EMBER_UNICAST_BINDING (some ⟨true⟩) (some data) = .ok [])) ∧
      (data.clusterId ≠ OnOff_Id → ∀ peer_device,
        StateChangedHandler .EMBER_UNICAST_BINDING peer_device (some data) = .ok []) ∧
      (∀ peer_device,
        StateChangedHandler .EMBER_MULTICAST_BINDING peer_device (some data) = .ok [])) ∧
    (data.isGroup = true →
      (data.clusterId = OnOff_Id → ∀ peer_device,
        (data.commandId = Off_Id →
          StateChangedHandler .EMBER_MULTICAST_BINDING peer_device (some data)
            = .ok [.InvokeGroupCommandRequest .Off]) ∧
        (data.commandId = On_Id →
          StateChangedHandler .EMBER_MULTICAST_BINDING peer_device (some data)
            = .ok [.InvokeGroupCommandRequest .On]) ∧
        (data.commandId = Toggle_Id →
          StateChangedHandler .EMBER_MULTICAST_BINDING peer_device (some data)
            = .ok [.InvokeGroupCommandRequest .Toggle]) ∧
        (data.commandId ≠ Off_Id → data.commandId ≠ On_Id → data.commandId ≠ Toggle_Id →
          StateChangedHandler .EMBER_MULTICAST_BINDING peer_device (some data) = .ok [])) ∧
      (data.clusterId ≠ OnOff_Id → ∀ peer_device,
        StateChangedHandler .EMBER_MULTICAST_BINDING peer_device (some data) = .ok []) ∧
      (∀ peer_device,
        StateChangedHandler .EMBER_UNICAST_BINDING peer_device (some data) = .ok [])) ∧
    (∀ peer_device,
      StateChangedHandler .EMBER_UNUSED_BINDING peer_device (some data) = .ok []) := by
  refine ⟨?_, ?_, ?_⟩
  · intro hgroup
    refine ⟨?_, ?_, ?_⟩
    · intro hcluster
      refine ⟨?_, ?_, ?_, ?_⟩
      · intro hc
        simp [StateChangedHandler, ProcessOnOffUnicastBindingCommand, hread, hwrite, hgroup,
          hcluster, hc, Off_Id, On_Id, Toggle_Id]
      · intro hc
        simp [StateChangedHandler, ProcessOnOffUnicastBindingCommand, hread, hwrite, hgroup,
          hcluster, hc, Off_Id, On_Id, Toggle_Id]
      · intro hc
        simp [StateChangedHandler, ProcessOnOffUnicastBindingCommand, hread, hwrite, hgroup,
          hcluster, hc, Off_Id, On_Id, Toggle_Id]
      · intro h0 h1 h2
        simp [StateChangedHandler, ProcessOnOffUnicastBindingCommand, hread, hwrite, hgroup,
          hcluster, h0, h1, h2]
    · intro hcluster peer_device
      simp [StateChangedHandler, hread, hwrite, hgroup, hcluster]
    · intro peer_device
      simp [StateChangedHandler, hread, hwrite, hgroup]
  · intro hgroup
    refine ⟨?_, ?_, ?_⟩
    · intro hcluster peer_device
      refine ⟨?_, ?_, ?_, ?_⟩
      · intro hc
        simp [StateChangedHandler, ProcessOnOffGroupBindingCommand, hread, hwrite, hgroup,
          hcluster, hc, Off_Id, On_Id, Toggle_Id]
      · intro hc
        simp [StateChangedHandler, ProcessOnOffGroupBindingCommand, hread, hwrite, hgroup,
          hcluster, hc, Off_Id, On_Id, Toggle_Id]
      · intro hc
        simp [StateChangedHandler, ProcessOnOffGroupBindingCommand, hread, hwrite, hgroup,
          hcluster, hc, Off_Id, On_Id, Toggle_Id]
      · intro h0 h1 h2
        simp [StateChangedHandler, ProcessOnOffGroupBindingCommand, hread, hwrite, hgroup,
          hcluster, h0, h1, h2]
    · intro hcluster peer_device
      simp [StateChangedHandler, hread, hwrite, hgroup, hcluster]
    · intro peer_device
      simp [StateChangedHandler, hread, hwrite, hgroup]
  · intro peer_device
    simp [StateChangedHandler, hread, hwrite]

theorem command_dispatch_is_closed_witness :
    StateChangedHandler .EMBER_UNICAST_BINDING (some ⟨true⟩)
        (some ⟨2, 2, 0, 6, .uint16 0, false, false, false⟩)
      = .ok [.InvokeCommandRequest .Toggle] ∧
    StateChangedHandler .EMBER_UNICAST_BINDING (some ⟨true⟩)
        (some ⟨2, 7, 0, 6, .uint16 0, false, false, false⟩) = .ok [] ∧
    StateChangedHandler .EMBER_MULTICAST_BINDING none
        (some ⟨2, 2, 0, 6, .uint16 0, false, false, false⟩) = .ok [] :=
  ⟨(((command_dispatch_is_closed ⟨2, 2, 0, 6, .uint16 0, false, false, false⟩ rfl rfl).1
      rfl).1 rfl).2.2.1 rfl,
   (((command_dispatch_is_closed ⟨2, 7, 0, 6, .uint16 0, false, false, false⟩ rfl rfl).1
      rfl).1 rfl).2.2.2 (by decide) (by decide) (by decide),
   ((command_dispatch_is_closed ⟨2, 2, 0, 6, .uint16 0, false, false, false⟩ rfl rfl).1
      rfl).2.2 none⟩

/-! ## Theorems: registration of the CoAP resources -/

theorem findFrom_of_mem (l : List Char) (ch : Char) (i : Nat) (h : ch ∈ l) :
    (findFrom l ch i).isSome = true := by
  induction l generalizing i with
  | nil => simp at h
  | cons c rest ih =>
    unfold findFrom
    by_cases hc : c = ch
    · simp [hc]
    · simp only [hc, if_false]
      rcases List.mem_cons.mp h with h1 | h1
      · exact absurd h1.symm hc
      · exact ih _ h1

/-- The test of GenerateCoapResource for an operation letter holds exactly when the declared
operations contain the letter. -/
theorem has_operation_iff (operations : List Char) (ch : Char) :
    has_operation operations ch = true ↔ ch ∈ operations := by
  unfold has_operation find
  rw [List.drop_zero]
  constructor
  · intro h
    by_contra hn
    cases hf : findFrom operations ch 0 with
    | none => rw [hf] at h; simp at h
    | some j =>
      obtain ⟨a, b, hab, _, _⟩ := findFrom_some _ _ _ _ hf
      exact hn (by rw [hab]; simp)
  · exact findFrom_of_mem operations ch 0

/-- GenerateCoapResource handles the resources of the object one after the other. -/
theorem GenerateCoapResource_one_more_resource (server : CoapServer) (id : Int)
    (name : List Char) (resources : List ResourceDefinition) (resource : ResourceDefinition) :
    GenerateCoapResource server ⟨id, name, resources ++ [resource]⟩
      = GenerateCoapResource.resource id (GenerateCoapResource server ⟨id, name, resources⟩)
          resource := by
  simp [GenerateCoapResource, List.foldl_append]

/-- C17. For every resource definition of an object (stated for the resource handled last,
after any resources before it) GenerateCoapResource adds resources on the path
to_string(object id) + /0/ + to_string(resource id) according to the declared operations:
first the attribute resource, with the GET and the PUT attribute handler when the operations
contain R and W, with only the GET attribute handler when they contain R but not W, with
only the PUT attribute handler when they contain W but not R, and none otherwise; then a
resource with the command PUT handler when they contain E, and none otherwise. With none of
R, W, E nothing is added. An attribute resource also records the declared type of the path
in type_map. -/
theorem GenerateCoapResource_registers_by_operations (server : CoapServer) (id : Int)
    (name : List Char) (resources : List ResourceDefinition) (resource : ResourceDefinition) :
    ∃ attr_part cmd_part,
      (GenerateCoapResource server ⟨id, name, resources ++ [resource]⟩).resources
        = (GenerateCoapResource server ⟨id, name, resources⟩).resources ++ attr_part ++ cmd_part ∧
      ('R' ∈ resource.operations → 'W' ∈ resource.operations →
        attr_part = [⟨ComposePath id resource.id,
          [(.COAP_REQUEST_GET, .hnd_attribute_get), (.COAP_REQUEST_PUT, .hnd_attribute_put)]⟩]) ∧
      ('R' ∈ resource.operations → 'W' ∉ resource.operations →
        attr_part = [⟨ComposePath id resource.id, [(.COAP_REQUEST_GET, .hnd_attribute_get)]⟩]) ∧
      ('R' ∉ resource.operations → 'W' ∈ resource.operations →
        attr_part = [⟨ComposePath id resource.id, [(.COAP_REQUEST_PUT, .hnd_attribute_put)]⟩]) ∧
      ('R' ∉ resource.operations → 'W' ∉ resource.operations → attr_part = []) ∧
      ('E' ∈ resource.operations →
        cmd_part = [⟨ComposePath id resource.id, [(.COAP_REQUEST_PUT, .hnd_command_put)]⟩]) ∧
      ('E' ∉ resource.operations → cmd_part = []) ∧
      ('R' ∉ resource.operations → 'W' ∉ resource.operations → 'E' ∉ resource.operations →
        GenerateCoapResource server ⟨id, name, resources ++ [resource]⟩
          = GenerateCoapResource server ⟨id, name, resources⟩) ∧
      ('R' ∈ resource.operations ∨ 'W' ∈ resource.operations →
        (GenerateCoapResource server ⟨id, name, resources ++ [resource]⟩).type_map
          = (GenerateCoapResource server ⟨id, name, resources⟩).type_map.assign
              (ComposePath id resource.id) resource.type) := by
  rw [GenerateCoapResource_one_more_resource]
  generalize GenerateCoapResource server ⟨id, name, resources⟩ = s
  have hpath : to_string id ++ "/0/".toList ++ to_string resource.id
      = ComposePath id resource.id := rfl
  simp only [← has_operation_iff]
  unfold GenerateCoapResource.resource
  simp only [hpath]
  cases has_operation resource.operations 'R' <;>
    cases has_operation resource.operations 'W' <;>
    cases has_operation resource.operations 'E' <;>
    simp [RegisterAttributeRWResource, RegisterAttributeResource, RegisterCommandResource]

/-! ## Theorems: the CoAP client -/

/-- The wait loop only calls coap_io_process and runs the response handler: it changes
neither the pointers nor result. -/
theorem wait_loop_keeps (env : ClientEnv) (kind : ResponseHandler) (fuel : Nat) :
    ∀ (k : Nat) (v w : ClientVars), wait_loop env kind fuel k v = some w →
      w.ctx = v.ctx ∧ w.optlist = v.optlist ∧ w.session = v.session ∧ w.result = v.result ∧
      ∃ n, w.calls = v.calls ++ List.replicate n .coap_io_process := by
  induction fuel with
  | zero => intro k v w h; simp [wait_loop] at h
  | succ fuel ih =>
    intro k v w h
    unfold wait_loop at h
    by_cases hr : v.have_response = 0
    · simp only [hr, if_true] at h
      have hio : (io_process env kind k v).ctx = v.ctx ∧
          (io_process env kind k v).optlist = v.optlist ∧
          (io_process env kind k v).session = v.session ∧
          (io_process env kind k v).result = v.result ∧
          (io_process env kind k v).calls = v.calls ++ [.coap_io_process] := by
        unfold io_process
        cases (env.io k).response with
        | none => exact ⟨rfl, rfl, rfl, rfl, rfl⟩
        | some payload =>
          simp only [response_handler]
          by_cases hp : payload = []
          · simp only [hp, if_true]
            exact ⟨rfl, rfl, rfl, rfl, rfl⟩
          · simp only [hp, if_false]
            cases kind <;> exact ⟨rfl, rfl, rfl, rfl, rfl⟩
      generalize io_process env kind k v = u at h hio
      obtain ⟨hctx, hopt, hses, hres, hcalls⟩ := hio
      have step : ∀ u' : ClientVars, u'.ctx = u.ctx → u'.optlist = u.optlist →
          u'.session = u.session → u'.result = u.result → u'.calls = u.calls →
          wait_loop env kind fuel (k + 1) u' = some w →
          w.ctx = v.ctx ∧ w.optlist = v.optlist ∧ w.session = v.session ∧
          w.result = v.result ∧ ∃ n, w.calls = v.calls ++ List.replicate n .coap_io_process := by
        intro u' h1 h2 h3 h4 h5 hw
        obtain ⟨e1, e2, e3, e4, n, e5⟩ := ih (k + 1) u' w hw
        refine ⟨by rw [e1, h1, hctx], by rw [e2, h2, hopt], by rw [e3, h3, hses],
          by rw [e4, h4, hres], n + 1, ?_⟩
        rw [e5, h5, hcalls, List.replicate_succ, List.append_assoc]
        rfl
      have stop : some u = some w →
          w.ctx = v.ctx ∧ w.optlist = v.optlist ∧ w.session = v.session ∧
          w.result = v.result ∧ ∃ n, w.calls = v.calls ++ List.replicate n .coap_io_process := by
        intro hw
        cases hw
        exact ⟨hctx, hopt, hses, hres, 1, hcalls⟩
      by_cases h1 : (env.io k).res ≥ 0
      · simp only [h1, if_true] at h
        by_cases h2 : u.wait_ms > 0
        · simp only [h2, if_true] at h
          by_cases h3 : (env.io k).res.toNat ≥ u.wait_ms
          · simp only [h3, if_true] at h
            exact stop h
          · simp only [h3, if_false] at h
            exact step (u.set_wait_ms (u.wait_ms - (env.io k).res.toNat)) rfl rfl rfl rfl rfl h
        · simp only [h2, if_false] at h
          exact step u rfl rfl rfl rfl rfl h
      · simp only [h1, if_false] at h
        exact step u rfl rfl rfl rfl rfl h
    · simp only [hr, if_false] at h
      cases h
      exact ⟨rfl, rfl, rfl, rfl, 0, by simp⟩

theorem except_either_error {P : ClientVars → Prop} (u v : ClientVars)
    (h : (Except.error u : Except ClientVars ClientVars) = .ok v ∨
      (Except.error u : Except ClientVars ClientVars) = .error v) (hu : P u) : P v := by
  rcases h with h | h
  · cases h
  · cases h; exact hu

theorem except_either_ok {P : ClientVars → Prop} (u v : ClientVars)
    (h : (Except.ok u : Except ClientVars ClientVars) = .ok v ∨
      (Except.ok u : Except ClientVars ClientVars) = .error v) (hu : P u) : P v := by
  rcases h with h | h
  · cases h; exact hu
  · cases h

/-- Recording a call changes the calls only. -/
theorem call_fields (v : ClientVars) (c : LibCall) :
    (v.call c).ctx = v.ctx ∧ (v.call c).optlist = v.optlist ∧ (v.call c).session = v.session ∧
    (v.call c).result = v.result ∧ (v.call c).calls = v.calls ++ [c] :=
  ⟨rfl, rfl, rfl, rfl, rfl⟩

theorem set_ctx_fields (v : ClientVars) (b : Bool) :
    (v.set_ctx b).ctx = b ∧ (v.set_ctx b).optlist = v.optlist ∧
    (v.set_ctx b).session = v.session ∧ (v.set_ctx b).result = v.result ∧
    (v.set_ctx b).calls = v.calls :=
  ⟨rfl, rfl, rfl, rfl, rfl⟩

theorem set_optlist_fields (v : ClientVars) (b : Bool) :
    (v.set_optlist b).ctx = v.ctx ∧ (v.set_optlist b).optlist = b ∧
    (v.set_optlist b).session = v.session ∧ (v.set_optlist b).result = v.result ∧
    (v.set_optlist b).calls = v.calls :=
  ⟨rfl, rfl, rfl, rfl, rfl⟩

theorem set_session_fields (v : ClientVars) (b : Bool) :
    (v.set_session b).ctx = v.ctx ∧ (v.set_session b).optlist = v.optlist ∧
    (v.set_session b).session = b ∧ (v.set_session b).result = v.result ∧
    (v.set_session b).calls = v.calls :=
  ⟨rfl, rfl, rfl, rfl, rfl⟩

theorem set_pdu_fields (v : ClientVars) (b : Bool) :
    (v.set_pdu b).ctx = v.ctx ∧ (v.set_pdu b).optlist = v.optlist ∧
    (v.set_pdu b).session = v.session ∧ (v.set_pdu b).result = v.result ∧
    (v.set_pdu b).calls = v.calls :=
  ⟨rfl, rfl, rfl, rfl, rfl⟩

theorem set_wait_ms_fields (v : ClientVars) (n : Nat) :
    (v.set_wait_ms n).ctx = v.ctx ∧ (v.set_wait_ms n).optlist = v.optlist ∧
    (v.set_wait_ms n).session = v.session ∧ (v.set_wait_ms n).result = v.result ∧
    (v.set_wait_ms n).calls = v.calls :=
  ⟨rfl, rfl, rfl, rfl, rfl⟩

theorem entry_fields (state : ClientState) :
    (ClientVars.entry state).ctx = state.ctx ∧ (ClientVars.entry state).optlist = state.optlist ∧
    (ClientVars.entry state).session = false ∧ (ClientVars.entry state).result = EXIT_FAILURE ∧
    (ClientVars.entry state).calls = [] :=
  ⟨rfl, rfl, rfl, rfl, rfl⟩

/-- The request part of a GET function keeps the request invariant, whether it ends with a
jump to finish or after coap_send. -/
theorem get_request_invariant (env : ClientEnv) (kind : ResponseHandler) (state : ClientState)
    (v : ClientVars)
    (h : get_request env kind state = .ok v ∨ get_request env kind state = .error v) :
    RequestInvariant env state v := by
  unfold get_request at h
  cases kind <;>
  simp only [bind, Except.bind, pure, Except.pure, throw, throwThe, MonadExceptOf.throw,
    call_fields, set_ctx_fields, set_optlist_fields, set_session_fields,
    set_pdu_fields, set_wait_ms_fields, entry_fields, reduceCtorEq, if_true, if_false] at h
  all_goals
    by_cases c1 : env.split_uri ≠ 0
    · rw [if_pos c1] at h
      exact except_either_error _ _ h (by
      simp [RequestInvariant, call_fields, set_ctx_fields, set_optlist_fields,
        set_session_fields, set_pdu_fields, set_wait_ms_fields, entry_fields,
        LibCall.is_release, *])
    rw [if_neg c1] at h
    by_cases c2 : resolve_address env ≤ 0
    · rw [if_pos c2] at h
      exact except_either_error _ _ h (by
      simp [RequestInvariant, call_fields, set_ctx_fields, set_optlist_fields,
        set_session_fields, set_pdu_fields, set_wait_ms_fields, entry_fields,
        LibCall.is_release, *])
    rw [if_neg c2] at h
    by_cases c3 : env.new_context = false
    · rw [if_pos c3] at h
      exact except_either_error _ _ h (by
      simp [RequestInvariant, call_fields, set_ctx_fields, set_optlist_fields,
        set_session_fields, set_pdu_fields, set_wait_ms_fields, entry_fields,
        LibCall.is_release, *])
    rw [if_neg c3] at h
    by_cases c4 : env.new_client_session = false
    · rw [if_pos c4] at h
      exact except_either_error _ _ h (by
      simp [RequestInvariant, call_fields, set_ctx_fields, set_optlist_fields,
        set_session_fields, set_pdu_fields, set_wait_ms_fields, entry_fields,
        LibCall.is_release, *])
    rw [if_neg c4] at h
    by_cases c5 : env.pdu_init = false
    · rw [if_pos c5] at h
      exact except_either_error _ _ h (by
      simp [RequestInvariant, call_fields, set_ctx_fields, set_optlist_fields,
        set_session_fields, set_pdu_fields, set_wait_ms_fields, entry_fields,
        LibCall.is_release, *])
    rw [if_neg c5] at h
    by_cases c6 : env.uri_into_options ≠ 0
    · rw [if_pos c6] at h
      exact except_either_error _ _ h (by
      simp [RequestInvariant, call_fields, set_ctx_fields, set_optlist_fields,
        set_session_fields, set_pdu_fields, set_wait_ms_fields, entry_fields,
        LibCall.is_release, *])
    rw [if_neg c6] at h
    by_cases c7 : env.optlist = true
    · rw [if_pos c7] at h
      by_cases c8 : env.add_optlist_pdu ≠ 1
      · rw [if_pos c8] at h
        exact except_either_error _ _ h (by
        simp [RequestInvariant, call_fields, set_ctx_fields, set_optlist_fields,
          set_session_fields, set_pdu_fields, set_wait_ms_fields, entry_fields,
          LibCall.is_release, *])
      rw [if_neg c8] at h
      by_cases c9 : env.send = false
      · rw [if_pos c9] at h
        exact except_either_error _ _ h (by
        simp [RequestInvariant, call_fields, set_ctx_fields, set_optlist_fields,
          set_session_fields, set_pdu_fields, set_wait_ms_fields, entry_fields,
          LibCall.is_release, *])
      rw [if_neg c9] at h
      exact except_either_ok _ _ h (by
        simp [RequestInvariant, call_fields, set_ctx_fields, set_optlist_fields,
          set_session_fields, set_pdu_fields, set_wait_ms_fields, entry_fields,
          LibCall.is_release, *])
    · rw [if_neg c7] at h
      by_cases c9 : env.send = false
      · rw [if_pos c9] at h
        exact except_either_error _ _ h (by
        simp [RequestInvariant, call_fields, set_ctx_fields, set_optlist_fields,
          set_session_fields, set_pdu_fields, set_wait_ms_fields, entry_fields,
          LibCall.is_release, *])
      rw [if_neg c9] at h
      exact except_either_ok _ _ h (by
        simp [RequestInvariant, call_fields, set_ctx_fields, set_optlist_fields,
          set_session_fields, set_pdu_fields, set_wait_ms_fields, entry_fields,
          LibCall.is_release, *])
/-- The request part of a PUT function keeps the request invariant, whether it ends with a
jump to finish or after coap_send. -/
theorem put_request_invariant (env : ClientEnv) (payload : List Nat) (state : ClientState)
    (v : ClientVars)
    (h : put_request env payload state = .ok v ∨ put_request env payload state = .error v) :
    RequestInvariant env state v := by
  unfold put_request at h
  simp only [bind, Except.bind, pure, Except.pure, throw, throwThe, MonadExceptOf.throw,
    call_fields, set_ctx_fields, set_optlist_fields, set_session_fields,
    set_pdu_fields, set_wait_ms_fields, entry_fields] at h
  by_cases c1 : env.split_uri ≠ 0
  · rw [if_pos c1] at h
    exact except_either_error _ _ h (by
      simp [RequestInvariant, call_fields, set_ctx_fields, set_optlist_fields,
        set_session_fields, set_pdu_fields, set_wait_ms_fields, entry_fields,
        LibCall.is_release, *])
  rw [if_neg c1] at h
  by_cases c2 : resolve_address env ≤ 0
  · rw [if_pos c2] at h
    exact except_either_error _ _ h (by
      simp [RequestInvariant, call_fields, set_ctx_fields, set_optlist_fields,
        set_session_fields, set_pdu_fields, set_wait_ms_fields, entry_fields,
        LibCall.is_release, *])
  rw [if_neg c2] at h
  by_cases c3 : env.new_context = false
  · rw [if_pos c3] at h
    exact except_either_error _ _ h (by
      simp [RequestInvariant, call_fields, set_ctx_fields, set_optlist_fields,
        set_session_fields, set_pdu_fields, set_wait_ms_fields, entry_fields,
        LibCall.is_release, *])
  rw [if_neg c3] at h
  by_cases c4 : env.new_client_session = false
  · rw [if_pos c4] at h
    exact except_either_error _ _ h (by
      simp [RequestInvariant, call_fields, set_ctx_fields, set_optlist_fields,
        set_session_fields, set_pdu_fields, set_wait_ms_fields, entry_fields,
        LibCall.is_release, *])
  rw [if_neg c4] at h
  by_cases c5 : env.pdu_init = false
  · rw [if_pos c5] at h
    exact except_either_error _ _ h (by
      simp [RequestInvariant, call_fields, set_ctx_fields, set_optlist_fields,
        set_session_fields, set_pdu_fields, set_wait_ms_fields, entry_fields,
        LibCall.is_release, *])
  rw [if_neg c5] at h
  by_cases c6 : env.uri_into_options < 0
  · rw [if_pos c6] at h
    exact except_either_error _ _ h (by
      simp [RequestInvariant, call_fields, set_ctx_fields, set_optlist_fields,
        set_session_fields, set_pdu_fields, set_wait_ms_fields, entry_fields,
        LibCall.is_release, *])
  rw [if_neg c6] at h
  by_cases c7 : env.optlist = true
  · rw [if_pos c7] at h
    by_cases c8 : env.add_optlist_pdu ≠ 1
    · rw [if_pos c8] at h
      exact except_either_error _ _ h (by
        simp [RequestInvariant, call_fields, set_ctx_fields, set_optlist_fields,
          set_session_fields, set_pdu_fields, set_wait_ms_fields, entry_fields,
          LibCall.is_release, *])
    rw [if_neg c8] at h
    by_cases c9 : env.add_data = 0
    · rw [if_pos c9] at h
      exact except_either_error _ _ h (by
          simp [RequestInvariant, call_fields, set_ctx_fields, set_optlist_fields,
            set_session_fields, set_pdu_fields, set_wait_ms_fields, entry_fields,
            LibCall.is_release, *])
    rw [if_neg c9] at h
    by_cases c10 : env.send = false
    · rw [if_pos c10] at h
      exact except_either_error _ _ h (by
          simp [RequestInvariant, call_fields, set_ctx_fields, set_optlist_fields,
            set_session_fields, set_pdu_fields, set_wait_ms_fields, entry_fields,
            LibCall.is_release, *])
    rw [if_neg c10] at h
    exact except_either_ok _ _ h (by
          simp [RequestInvariant, call_fields, set_ctx_fields, set_optlist_fields,
            set_session_fields, set_pdu_fields, set_wait_ms_fields, entry_fields,
            LibCall.is_release, *])
  · rw [if_neg c7] at h
    by_cases c9 : env.add_data = 0
    · rw [if_pos c9] at h
      exact except_either_error _ _ h (by
          simp [RequestInvariant, call_fields, set_ctx_fields, set_optlist_fields,
            set_session_fields, set_pdu_fields, set_wait_ms_fields, entry_fields,
            LibCall.is_release, *])
    rw [if_neg c9] at h
    by_cases c10 : env.send = false
    · rw [if_pos c10] at h
      exact except_either_error _ _ h (by
          simp [RequestInvariant, call_fields, set_ctx_fields, set_optlist_fields,
            set_session_fields, set_pdu_fields, set_wait_ms_fields, entry_fields,
            LibCall.is_release, *])
    rw [if_neg c10] at h
    exact except_either_ok _ _ h (by
          simp [RequestInvariant, call_fields, set_ctx_fields, set_optlist_fields,
            set_session_fields, set_pdu_fields, set_wait_ms_fields, entry_fields,
            LibCall.is_release, *])

/-- From the request invariant to the cleanup: the variables at finish may differ from those
after the request by calls of coap_io_process only. -/
theorem CleanupRanOnce_of_invariant (env : ClientEnv) (state : ClientState) (v w : ClientVars)
    (hv : RequestInvariant env state v) (n : Nat) (hctx : w.ctx = v.ctx)
    (hopt : w.optlist = v.optlist) (hses : w.session = v.session)
    (hcalls : w.calls = v.calls ++ List.replicate n .coap_io_process) :
    CleanupRanOnce env state (finish w) := by
  obtain ⟨_, hrel, hs, hc, ho⟩ := hv
  have hmem : ∀ c : LibCall, c ≠ .coap_io_process → (c ∈ w.calls ↔ c ∈ v.calls) := by
    intro c hc
    rw [hcalls, List.mem_append, List.mem_replicate]
    constructor
    · rintro (h | ⟨_, h⟩)
      · exact h
      · exact absurd h hc
    · exact Or.inl
  refine ⟨rfl, w.calls, w.optlist, w.session, w.ctx, rfl, ?_, ?_, ?_, ?_⟩
  · intro c hc
    rw [hcalls, List.mem_append, List.mem_replicate] at hc
    rcases hc with hc | ⟨_, hc⟩
    · exact hrel c hc
    · rw [hc]; rfl
  · rw [hses, hmem _ (by decide)]; exact hs
  · intro h0; rw [hctx, hmem _ (by decide)]; exact hc h0
  · intro h0; rw [hopt, hmem _ (by decide)]; exact ho h0

/-- A response that arrives during a call of coap_io_process sets have_response. -/
theorem io_process_have_response (env : ClientEnv) (kind : ResponseHandler) (k : Nat)
    (v : ClientVars) (h : (env.io k).response ≠ none) :
    (io_process env kind k v).have_response = 1 := by
  unfold io_process
  cases hr : (env.io k).response with
  | none => exact absurd hr h
  | some payload =>
    simp only [response_handler]
    by_cases hp : payload = []
    · simp only [hp, if_true]
    · simp only [hp, if_false]
      cases kind <;> rfl

/-- The loop condition is tested first: with have_response set the loop is left at once. -/
theorem wait_loop_of_have_response (env : ClientEnv) (kind : ResponseHandler) (fuel k : Nat)
    (v : ClientVars) (h : v.have_response ≠ 0) :
    wait_loop env kind (fuel + 1) k v = some v := by
  unfold wait_loop
  rw [if_neg h]

/-- A response during the call number k + j ends the wait loop that is at its call number
k. -/
theorem wait_loop_of_response (env : ClientEnv) (kind : ResponseHandler) :
    ∀ (j fuel k : Nat) (v : ClientVars), j + 2 ≤ fuel → (env.io (k + j)).response ≠ none →
      (wait_loop env kind fuel k v).isSome = true := by
  intro j
  induction j with
  | zero =>
    intro fuel k v hf hr
    obtain ⟨f, rfl⟩ : ∃ f, fuel = f + 2 := ⟨fuel - 2, by omega⟩
    have hu := io_process_have_response env kind k v hr
    unfold wait_loop
    by_cases h0 : v.have_response = 0
    · rw [if_pos h0]
      simp only []
      split_ifs
      · rfl
      · rw [wait_loop_of_have_response]
        · rfl
        · show (io_process env kind k v).have_response ≠ 0
          rw [hu]; decide
      · rw [wait_loop_of_have_response]
        · rfl
        · rw [hu]; decide
      · rw [wait_loop_of_have_response]
        · rfl
        · rw [hu]; decide
    · rw [if_neg h0]; rfl
  | succ j ih =>
    intro fuel k v hf hr
    obtain ⟨f, rfl⟩ : ∃ f, fuel = f + 1 := ⟨fuel - 1, by omega⟩
    have hr2 : (env.io (k + 1 + j)).response ≠ none := by
      rw [show k + 1 + j = k + (j + 1) by omega]; exact hr
    unfold wait_loop
    by_cases h0 : v.have_response = 0
    · rw [if_pos h0]
      simp only []
      split_ifs
      · rfl
      · exact ih f (k + 1) _ (by omega) hr2
      · exact ih f (k + 1) _ (by omega) hr2
      · exact ih f (k + 1) _ (by omega) hr2
    · rw [if_neg h0]; rfl

/-- C18. Client abort cleanup. For every client request function, whichever step of the
request fails and also when none fails, the cleanup step runs once: the calls made end with
coap_delete_optlist, coap_session_release, coap_free_context and coap_cleanup, none of these
is called before, each release call is given exactly what the request acquired, and the module
state is left at ctx = NULL, optlist = NULL, have_response = 0. The functions of the PUT family
always get there; those of the GET family get there at once when a step of the request fails,
and after the wait loop when a response arrives. -/
theorem client_cleanup_runs_once (env : ClientEnv) (kind : ResponseHandler)
    (state : ClientState) (payload : List Nat) :
    CleanupRanOnce env state (client_put env payload state) ∧
    (∀ fuel r, client_get fuel env kind state = some r → CleanupRanOnce env state r) ∧
    (∀ v, get_request env kind state = .error v →
      ∀ fuel, client_get fuel env kind state = some (finish v)) ∧
    (∀ n, (env.io n).response ≠ none → (client_get (n + 2) env kind state).isSome = true) := by
  refine ⟨?_, ?_, ?_, ?_⟩
  · unfold client_put
    cases h : put_request env payload state with
    | error v =>
      exact CleanupRanOnce_of_invariant env state v v
        (put_request_invariant env payload state v (Or.inr h)) 0 rfl rfl rfl (by simp)
    | ok v =>
      exact CleanupRanOnce_of_invariant env state v v
        (put_request_invariant env payload state v (Or.inl h)) 0 rfl rfl rfl (by simp)
  · intro fuel r hr
    unfold client_get at hr
    cases h : get_request env kind state with
    | error v =>
      rw [h] at hr
      cases hr
      exact CleanupRanOnce_of_invariant env state v v
        (get_request_invariant env kind state v (Or.inr h)) 0 rfl rfl rfl (by simp)
    | ok v =>
      rw [h] at hr
      simp only [Option.map_eq_some'] at hr
      obtain ⟨w, hw, rfl⟩ := hr
      obtain ⟨e1, e2, e3, _, n, e5⟩ := wait_loop_keeps env kind fuel 0 v w hw
      exact CleanupRanOnce_of_invariant env state v w
        (get_request_invariant env kind state v (Or.inl h)) n e1 e2 e3 e5
  · intro v h fuel
    unfold client_get
    rw [h]
  · intro n hn
    unfold client_get
    cases h : get_request env kind state with
    | error v => rfl
    | ok v =>
      simp only [Option.isSome_map']
      exact wait_loop_of_response env kind n (n + 2) 0 v (by omega) (by rw [Nat.zero_add]; exact hn)
/-- C19. The return value of a client request function does not report the outcome: result
is initialised to EXIT_FAILURE and never assigned, so every function of the PUT family and
every function of the GET family that returns, returns EXIT_FAILURE. In particular a GET whose
request is sent and whose response (the payload 1) arrives during the second call of
coap_io_process, and a PUT whose PDU is sent, return EXIT_FAILURE = 1, not EXIT_SUCCESS = 0. -/
theorem client_result_is_always_failure :
    (∀ env payload state, (client_put env payload state).result = EXIT_FAILURE) ∧
    (∀ fuel env kind state r, client_get fuel env kind state = some r →
      r.result = EXIT_FAILURE) ∧
    (CoapClientGet 3
      { split_uri := 0, addr_info := true, new_context := true, new_client_session := true,
        pdu_init := true, uri_into_options := 0, optlist := true, add_optlist_pdu := 1,
        add_data := 1, send := true, leisure_integer_part := 5,
        io := fun k => if k = 1 then ⟨10, some [49], false⟩ else ⟨1000, none, false⟩ }
      ⟨false, false, 0⟩).map (fun r => (r.result, r.answer_stores, r.calls.getLast?))
      = some (1, [(0, 49), (1, 0)], some .coap_cleanup) ∧
    ((∃ v, put_request
      { split_uri := 0, addr_info := true, new_context := true, new_client_session := true,
        pdu_init := true, uri_into_options := 0, optlist := true, add_optlist_pdu := 1,
        add_data := 1, send := true, leisure_integer_part := 5,
        io := fun _ => ⟨1000, none, false⟩ } [1] ⟨false, false, 0⟩ = .ok v) ∧
     (CoapClientPut
      { split_uri := 0, addr_info := true, new_context := true, new_client_session := true,
        pdu_init := true, uri_into_options := 0, optlist := true, add_optlist_pdu := 1,
        add_data := 1, send := true, leisure_integer_part := 5,
        io := fun _ => ⟨1000, none, false⟩ } [1] 1 ⟨false, false, 0⟩).result = 1) ∧
    EXIT_FAILURE ≠ EXIT_SUCCESS := by
  refine ⟨?_, ?_, ?_, ?_, by decide⟩
  · intro env payload state
    unfold client_put
    cases h : put_request env payload state with
    | error v => exact (put_request_invariant env payload state v (Or.inr h)).1
    | ok v => exact (put_request_invariant env payload state v (Or.inl h)).1
  · intro fuel env kind state r hr
    unfold client_get at hr
    cases h : get_request env kind state with
    | error v =>
      rw [h] at hr
      cases hr
      exact (get_request_invariant env kind state v (Or.inr h)).1
    | ok v =>
      rw [h] at hr
      simp only [Option.map_eq_some'] at hr
      obtain ⟨w, hw, rfl⟩ := hr
      obtain ⟨_, _, _, e4, _⟩ := wait_loop_keeps env kind fuel 0 v w hw
      exact e4.trans (get_request_invariant env kind state v (Or.inl h)).1
  · decide
  · exact ⟨⟨_, rfl⟩, by decide⟩
/-- A call of coap_io_process leaves wait_ms as it is. -/
theorem io_process_wait_ms (env : ClientEnv) (kind : ResponseHandler) (k : Nat)
    (v : ClientVars) : (io_process env kind k v).wait_ms = v.wait_ms := by
  unfold io_process
  cases (env.io k).response with
  | none => rfl
  | some payload =>
    simp only [response_handler]
    by_cases hp : payload = []
    · simp only [hp, if_true]
      rfl
    · simp only [hp, if_false]
      cases kind <;> rfl

/-- While every call of coap_io_process returns a negative value and no response arrives,
the wait loop is not left. -/
theorem wait_loop_of_errors (env : ClientEnv) (kind : ResponseHandler)
    (hres : ∀ k, (env.io k).res < 0) (hnone : ∀ k, (env.io k).response = none) :
    ∀ (fuel k : Nat) (v : ClientVars), v.have_response = 0 →
      wait_loop env kind fuel k v = none := by
  intro fuel
  induction fuel with
  | zero => intro k v _; rfl
  | succ fuel ih =>
    intro k v hv
    have hu : (io_process env kind k v).have_response = 0 := by
      unfold io_process
      rw [hnone k]
      exact hv
    unfold wait_loop
    rw [if_pos hv]
    simp only []
    rw [if_neg (by have := hres k; omega)]
    exact ih (k + 1) _ hu

/-- With a budget left and every call of coap_io_process taking at least a millisecond, the
wait loop is left within as many calls as the budget has milliseconds, with have_response set
or by the timeout test. -/
theorem wait_loop_of_budget (env : ClientEnv) (kind : ResponseHandler)
    (hstep : ∀ j, 1 ≤ (env.io j).res) :
    ∀ (fuel k : Nat) (v : ClientVars), 0 < v.wait_ms → v.wait_ms ≤ fuel →
      ∃ w, wait_loop env kind fuel k v = some w ∧
        (w.have_response ≠ 0 ∨ ∃ j, k ≤ j ∧ (env.io j).res.toNat ≥ w.wait_ms) := by
  intro fuel
  induction fuel with
  | zero => intro k v h0 h1; omega
  | succ fuel ih =>
    intro k v h0 h1
    unfold wait_loop
    by_cases hv : v.have_response = 0
    · rw [if_pos hv]
      simp only []
      have hw := io_process_wait_ms env kind k v
      have hk := hstep k
      rw [if_pos (by omega), if_pos (by omega)]
      by_cases hb : (env.io k).res.toNat ≥ (io_process env kind k v).wait_ms
      · rw [if_pos hb]
        exact ⟨_, rfl, Or.inr ⟨k, Nat.le_refl k, hb⟩⟩
      · rw [if_neg hb]
        have hpos : 1 ≤ (env.io k).res.toNat := by omega
        obtain ⟨w, e, hex⟩ := ih (k + 1)
          ((io_process env kind k v).set_wait_ms
            ((io_process env kind k v).wait_ms - (env.io k).res.toNat))
          (by show 0 < (io_process env kind k v).wait_ms - (env.io k).res.toNat; omega)
          (by show (io_process env kind k v).wait_ms - (env.io k).res.toNat ≤ fuel; omega)
        refine ⟨w, e, ?_⟩
        rcases hex with hex | ⟨j, hj, hex⟩
        · exact Or.inl hex
        · exact Or.inr ⟨j, by omega, hex⟩
    · rw [if_neg hv]
      exact ⟨v, rfl, Or.inl hv⟩

/-- Whether coap_io_process invokes nack_handler makes no difference to the wait loop. -/
theorem wait_loop_nack (env : ClientEnv) (kind : ResponseHandler) (nack : Nat → Bool) :
    ∀ (fuel k : Nat) (v : ClientVars),
      wait_loop { env with io := fun j => { env.io j with nack := nack j } } kind fuel k v =
        wait_loop env kind fuel k v := by
  intro fuel
  induction fuel with
  | zero => intro k v; rfl
  | succ fuel ih =>
    intro k v
    unfold wait_loop
    simp only [io_process, ih]

/-- C20 as stated does not hold. A nack during the first call of coap_io_process does not
end the wait loop of CoapClientGet(client_uri): with a leisure of 5 s and calls of 1000 ms it
still makes six calls and ends by the timeout. And when every call of coap_io_process fails
(returns -1) and no response arrives, the budget is never reduced and the function does not
return, whatever the number of iterations allowed. -/
theorem wait_loop_ignores_nack_and_can_wait_forever :
    (CoapClientGet.uri_only 6
      { split_uri := 0, addr_info := true, new_context := true, new_client_session := true,
        pdu_init := true, uri_into_options := 0, optlist := true, add_optlist_pdu := 1,
        add_data := 1, send := true, leisure_integer_part := 5,
        io := fun k => ⟨1000, none, decide (k = 0)⟩ }
      ⟨false, false, 0⟩).map (fun r => r.calls.count .coap_io_process) = some 6 ∧
    ¬ ∃ fuel, (CoapClientGet.uri_only fuel
      { split_uri := 0, addr_info := true, new_context := true, new_client_session := true,
        pdu_init := true, uri_into_options := 0, optlist := true, add_optlist_pdu := 1,
        add_data := 1, send := true, leisure_integer_part := 5,
        io := fun _ => ⟨-1, none, false⟩ }
      ⟨false, false, 0⟩).isSome = true := by
  refine ⟨by decide, ?_⟩
  rintro ⟨fuel, h⟩
  unfold CoapClientGet.uri_only client_get at h
  have hreq : get_request
      { split_uri := 0, addr_info := true, new_context := true, new_client_session := true,
        pdu_init := true, uri_into_options := 0, optlist := true, add_optlist_pdu := 1,
        add_data := 1, send := true, leisure_integer_part := 5,
        io := fun _ => ⟨-1, none, false⟩ } .log ⟨false, false, 0⟩ =
      .ok (((((((((((((((((((ClientVars.entry ⟨false, false, 0⟩).call .coap_startup).call
        .coap_split_uri).call .resolve_address).call .coap_new_context).set_ctx true).call
        .coap_context_set_block_mode).call .coap_new_client_session).set_session true).call
        .coap_register_response_handler).call .coap_register_nack_handler).call
        (.coap_pdu_init .COAP_REQUEST_CODE_GET)).set_pdu true).call
        .coap_uri_into_options).set_optlist true).call .coap_add_optlist_pdu).call
        .coap_send).set_wait_ms 6000)) := by
    rfl
  rw [hreq] at h
  simp only [] at h
  rw [wait_loop_of_errors _ _ (fun _ => by show (-1 : Int) < 0; decide)
    (fun _ => rfl) fuel 0 _ rfl] at h
  exact absurd h (by decide)

/-- C20, amended. Once a GET request is sent with a budget left, and every call of
coap_io_process takes at least a millisecond, the wait loop is left within as many calls as
the budget has milliseconds, through one of its two exits: have_response is set (a response
has been received), or the last call took at least the remaining budget (timeout). A nack is
no exit: whether and when nack_handler is invoked does not change what the loop does. -/
theorem wait_loop_has_two_exits (env : ClientEnv) (kind : ResponseHandler) (k : Nat)
    (v : ClientVars) (hbudget : 0 < v.wait_ms) (hstep : ∀ j, 1 ≤ (env.io j).res) :
    (∃ w, wait_loop env kind v.wait_ms k v = some w ∧
      (w.have_response ≠ 0 ∨ ∃ j, k ≤ j ∧ (env.io j).res.toNat ≥ w.wait_ms)) ∧
    (∀ (nack : Nat → Bool) (fuel : Nat),
      wait_loop { env with io := fun j => { env.io j with nack := nack j } } kind fuel k v =
        wait_loop env kind fuel k v) :=
  ⟨wait_loop_of_budget env kind hstep v.wait_ms k v hbudget (Nat.le_refl _),
    fun nack fuel => wait_loop_nack env kind nack fuel k v⟩

theorem wait_loop_has_two_exits_witness :
    ∃ w, wait_loop
        { split_uri := 0, addr_info := true, new_context := true, new_client_session := true,
          pdu_init := true, uri_into_options := 0, optlist := true, add_optlist_pdu := 1,
          add_data := 1, send := true, leisure_integer_part := 5,
          io := fun _ => ⟨1000, none, true⟩ }
        .log ((ClientVars.entry ⟨false, false, 0⟩).set_wait_ms 6000).wait_ms 0
        ((ClientVars.entry ⟨false, false, 0⟩).set_wait_ms 6000) = some w ∧
      (w.have_response ≠ 0 ∨ ∃ j, 0 ≤ j ∧ (1000 : Int).toNat ≥ w.wait_ms) :=
  (wait_loop_has_two_exits
    { split_uri := 0, addr_info := true, new_context := true, new_client_session := true,
      pdu_init := true, uri_into_options := 0, optlist := true, add_optlist_pdu := 1,
      add_data := 1, send := true, leisure_integer_part := 5,
      io := fun _ => ⟨1000, none, true⟩ }
    .log 0 ((ClientVars.entry ⟨false, false, 0⟩).set_wait_ms 6000) (by decide)
    (fun _ => by show (1 : Int) ≤ 1000; decide)).1

/-! ## Theorems: what the client stores and sends -/

/-- C21. Output-buffer decoding of CoapClientGet(uri, answer, answer_size). The response
handler never reads answer_size: for a payload of len bytes it stores len bytes from index 0
and then a zero byte at index len. So whenever answer_size is at most len a byte is stored at
an index that is not below answer_size, and nothing is truncated. With the one-byte buffer of
a Boolean attribute and the one-byte payload 1 the zero byte is stored at index 1; with
answer_size 2 and the payload 123 the bytes 3 and 0 are stored at the indexes 2 and 3. -/
theorem CoapClientGet_stores_past_answer_size :
    (∀ (v : ClientVars) (payload : List Nat) (answer_size : Nat), payload ≠ [] →
      answer_size ≤ payload.length →
      ∃ s ∈ (response_handler .copy_to_answer v payload).answer_stores, answer_size ≤ s.1) ∧
    (CoapClientGet 3
      { split_uri := 0, addr_info := true, new_context := true, new_client_session := true,
        pdu_init := true, uri_into_options := 0, optlist := true, add_optlist_pdu := 1,
        add_data := 1, send := true, leisure_integer_part := 5,
        io := fun k => if k = 1 then ⟨10, some [49], false⟩ else ⟨1000, none, false⟩ }
      ⟨false, false, 0⟩).map (fun r => (r.answer_stores, stores_from 1 r.answer_stores))
      = some ([(0, 49), (1, 0)], [(1, 0)]) ∧
    (CoapClientGet 3
      { split_uri := 0, addr_info := true, new_context := true, new_client_session := true,
        pdu_init := true, uri_into_options := 0, optlist := true, add_optlist_pdu := 1,
        add_data := 1, send := true, leisure_integer_part := 5,
        io := fun k => if k = 1 then ⟨10, some [49, 50, 51], false⟩ else ⟨1000, none, false⟩ }
      ⟨false, false, 0⟩).map (fun r => (r.answer_stores, stores_from 2 r.answer_stores))
      = some ([(0, 49), (1, 50), (2, 51), (3, 0)], [(2, 51), (3, 0)]) := by
  refine ⟨?_, by decide, by decide⟩
  intro v payload answer_size hne hle
  refine ⟨(payload.length, 0), ?_, hle⟩
  simp only [response_handler, hne, if_false, List.mem_append, List.mem_singleton, or_true]

/-- The PUT request reaches coap_send only when every step before it succeeded. -/
theorem put_request_ok (env : ClientEnv) (payload : List Nat) (state : ClientState)
    (v : ClientVars) (h : put_request env payload state = .ok v) :
    .coap_add_data payload ∈ v.calls ∧ .coap_send ∈ v.calls := by
  unfold put_request at h
  simp only [bind, Except.bind, pure, Except.pure, throw, throwThe, MonadExceptOf.throw,
    call_fields, set_ctx_fields, set_optlist_fields, set_session_fields,
    set_pdu_fields, set_wait_ms_fields, entry_fields] at h
  by_cases c1 : env.split_uri ≠ 0
  · rw [if_pos c1] at h; cases h
  rw [if_neg c1] at h
  by_cases c2 : resolve_address env ≤ 0
  · rw [if_pos c2] at h; cases h
  rw [if_neg c2] at h
  by_cases c3 : env.new_context = false
  · rw [if_pos c3] at h; cases h
  rw [if_neg c3] at h
  by_cases c4 : env.new_client_session = false
  · rw [if_pos c4] at h; cases h
  rw [if_neg c4] at h
  by_cases c5 : env.pdu_init = false
  · rw [if_pos c5] at h; cases h
  rw [if_neg c5] at h
  by_cases c6 : env.uri_into_options < 0
  · rw [if_pos c6] at h; cases h
  rw [if_neg c6] at h
  by_cases c7 : env.optlist = true
  · rw [if_pos c7] at h
    by_cases c8 : env.add_optlist_pdu ≠ 1
    · rw [if_pos c8] at h; cases h
    rw [if_neg c8] at h
    by_cases c9 : env.add_data = 0
    · simp only [c9, if_true] at h; cases h
    simp only [c9, if_false] at h
    by_cases c10 : env.send = false
    · rw [if_pos c10] at h; cases h
    rw [if_neg c10] at h
    cases h
    simp [call_fields, set_ctx_fields, set_optlist_fields, set_session_fields, set_pdu_fields]
  · rw [if_neg c7] at h
    by_cases c9 : env.add_data = 0
    · simp only [c9, if_true] at h; cases h
    simp only [c9, if_false] at h
    by_cases c10 : env.send = false
    · rw [if_pos c10] at h; cases h
    rw [if_neg c10] at h
    cases h
    simp [call_fields, set_ctx_fields, set_optlist_fields, set_session_fields, set_pdu_fields]

/-- C22. The PUT request built by CoapClientPut(uri) carries a payload: coap_add_data is
given sizeof(message) = 4 bytes at message, the text off and its terminating zero byte.
Whenever the request is sent, these four bytes have been attached to its PDU; with every
step succeeding the calls made are the fourteen listed. -/
theorem CoapClientPut_uri_only_carries_payload :
    (∀ (env : ClientEnv) (state : ClientState) (v : ClientVars),
      put_request env [111, 102, 102, 0] state = .ok v →
      .coap_add_data [111, 102, 102, 0] ∈ (CoapClientPut.uri_only env state).calls ∧
      .coap_send ∈ (CoapClientPut.uri_only env state).calls) ∧
    (CoapClientPut.uri_only
      { split_uri := 0, addr_info := true, new_context := true, new_client_session := true,
        pdu_init := true, uri_into_options := 0, optlist := true, add_optlist_pdu := 1,
        add_data := 1, send := true, leisure_integer_part := 5,
        io := fun _ => ⟨1000, none, false⟩ } ⟨false, false, 0⟩).calls
      = [.coap_startup, .coap_split_uri, .resolve_address, .coap_new_context,
          .coap_new_client_session, .coap_pdu_init .COAP_REQUEST_CODE_PUT,
          .coap_uri_into_options, .coap_add_optlist_pdu, .coap_add_data [111, 102, 102, 0],
          .coap_send, .coap_delete_optlist true, .coap_session_release true,
          .coap_free_context true, .coap_cleanup] ∧
    "off".toList.map Char.toNat ++ [0] = [111, 102, 102, 0] := by
  refine ⟨?_, by decide, by decide⟩
  intro env state v hv
  obtain ⟨ha, hs⟩ := put_request_ok env _ state v hv
  have e : CoapClientPut.uri_only env state = finish v := by
    unfold CoapClientPut.uri_only client_put
    rw [hv]
  rw [e]
  simp only [finish, List.mem_append]
  exact ⟨Or.inl ha, Or.inl hs⟩

/-! ## Theorems: the reverse bridge -/

theorem to_int_of_lt (v : Nat) (h : v < 2147483648) : to_int v = (v : Int) := by
  unfold to_int
  rw [Nat.mod_eq_of_lt (by omega), if_pos h]

theorem get_ipso_id_of_find (m : BiMap) (a b : Int) (h : m.left_map.find a = some b) :
    m.get_ipso_id a = b := by
  simp [BiMap.get_ipso_id, h]

/-- C23. Reverse bridge target. When the mapping holds cluster c <-> object o and attribute
a <-> resource r, the external-attribute read and write callbacks (on an endpoint index in
range, with a device registered for the read) hand to the client the target made of the
fixed text coap://[fd73:13f6:c3ed:1:d8bd:9673:d9cd:a562]:5184/ followed by exactly
to_string(o), the text /0/ and to_string(r), which is the resource path of (o, r). The write
callback always returns; the read callback returns when a step of the request fails or a
response arrives. -/
theorem reverse_bridge_target (network : List Char → ClientEnv) (state : ClientState)
    (matter_mapping : MatterIpsoMapping) (dynamic_endpoint_count : Nat) (gDevices : Nat → Bool)
    (endpointIndex clusterId attribute_id : Nat) (o r : Int) (buffer : List Nat) (size : Nat)
    (hc : clusterId < 2147483648) (ha : attribute_id < 2147483648)
    (ho : matter_mapping.cluster_object_map.left_map.find clusterId = some o)
    (hr : matter_mapping.attribute_resource_map.left_map.find attribute_id = some r)
    (hidx : endpointIndex < dynamic_endpoint_count) (hdev : gDevices endpointIndex = true) :
    (emberAfExternalAttributeWriteCallback network state matter_mapping dynamic_endpoint_count
        endpointIndex clusterId attribute_id buffer size).target
      = some (target_base ++ (to_string o ++ "/0/".toList ++ to_string r)) ∧
    (emberAfExternalAttributeWriteCallback network state matter_mapping dynamic_endpoint_count
        endpointIndex clusterId attribute_id buffer size).client
      = some (CoapClientPut (network (target_base ++ ComposePath o r)) buffer size state) ∧
    (∀ fuel res, emberAfExternalAttributeReadCallback fuel network state matter_mapping
        dynamic_endpoint_count gDevices endpointIndex clusterId attribute_id = some res →
      res.target = some (target_base ++ (to_string o ++ "/0/".toList ++ to_string r)) ∧
      res.client = CoapClientGet fuel (network (target_base ++ ComposePath o r)) state) ∧
    (∀ n, ((network (target_base ++ ComposePath o r)).io n).response ≠ none →
      (emberAfExternalAttributeReadCallback (n + 2) network state matter_mapping
        dynamic_endpoint_count gDevices endpointIndex clusterId attribute_id).isSome = true) ∧
    (∀ v, get_request (network (target_base ++ ComposePath o r)) .copy_to_answer state
        = .error v →
      ∀ fuel, (emberAfExternalAttributeReadCallback fuel network state matter_mapping
        dynamic_endpoint_count gDevices endpointIndex clusterId attribute_id).isSome = true) := by
  have e1 : matter_mapping.cluster_object_map.get_ipso_id (to_int clusterId) = o := by
    rw [to_int_of_lt _ hc]; exact get_ipso_id_of_find _ _ _ ho
  have e2 : matter_mapping.attribute_resource_map.get_ipso_id (to_int attribute_id) = r := by
    rw [to_int_of_lt _ ha]; exact get_ipso_id_of_find _ _ _ hr
  have et : build_target o r = target_base ++ ComposePath o r := by
    unfold build_target ComposePath
    simp only [List.append_assoc]
  have et2 : target_base ++ (to_string o ++ "/0/".toList ++ to_string r)
      = target_base ++ ComposePath o r := rfl
  have hread : ∀ fuel, emberAfExternalAttributeReadCallback fuel network state matter_mapping
      dynamic_endpoint_count gDevices endpointIndex clusterId attribute_id
      = match CoapClientGet fuel (network (target_base ++ ComposePath o r)) state with
        | some res => some ⟨.Success, some (target_base ++ ComposePath o r), some res⟩
        | none => none := by
    intro fuel
    unfold emberAfExternalAttributeReadCallback
    rw [if_pos ⟨hidx, hdev⟩]
    simp only [e1, e2, et]
  have hwrite : emberAfExternalAttributeWriteCallback network state matter_mapping
      dynamic_endpoint_count endpointIndex clusterId attribute_id buffer size
      = ⟨.Success, some (target_base ++ ComposePath o r),
          some (CoapClientPut (network (target_base ++ ComposePath o r)) buffer size state)⟩ := by
    unfold emberAfExternalAttributeWriteCallback
    rw [if_pos hidx]
    simp only [e1, e2, et]
  refine ⟨?_, ?_, ?_, ?_, ?_⟩
  · rw [hwrite, et2]
  · rw [hwrite]
  · intro fuel res hres
    rw [hread] at hres
    cases hg : CoapClientGet fuel (network (target_base ++ ComposePath o r)) state with
    | none => rw [hg] at hres; cases hres
    | some g =>
      rw [hg] at hres
      cases hres
      exact ⟨rfl, rfl⟩
  · intro n hn
    rw [hread]
    have hsome : (CoapClientGet (n + 2) (network (target_base ++ ComposePath o r)) state).isSome
        = true := by
      unfold CoapClientGet client_get
      cases h : get_request (network (target_base ++ ComposePath o r)) .copy_to_answer state with
      | error v => rfl
      | ok v =>
        simp only [Option.isSome_map']
        exact wait_loop_of_response _ _ n (n + 2) 0 v (by omega)
          (by rw [Nat.zero_add]; exact hn)
    cases hg : CoapClientGet (n + 2) (network (target_base ++ ComposePath o r)) state with
    | none => rw [hg] at hsome; cases hsome
    | some g => rfl
  · intro v hv fuel
    rw [hread]
    unfold CoapClientGet client_get
    rw [hv]
    rfl

theorem reverse_bridge_target_witness :
    (emberAfExternalAttributeWriteCallback
        (fun _ =>
          { split_uri := 0, addr_info := true, new_context := true, new_client_session := true,
            pdu_init := true, uri_into_options := 0, optlist := true, add_optlist_pdu := 1,
            add_data := 1, send := true, leisure_integer_part := 5,
            io := fun _ => ⟨1000, none, false⟩ })
        ⟨false, false, 0⟩
        { MatterIpsoMapping.empty with
          cluster_object_map := BiMap.empty.insert 6 3311
          attribute_resource_map := BiMap.empty.insert 0 5850 }
        4 1 6 0 [1] 1).target
      = some (target_base ++ (to_string 3311 ++ "/0/".toList ++ to_string 5850)) ∧
    target_base ++ (to_string 3311 ++ "/0/".toList ++ to_string 5850)
      = "coap://[fd73:13f6:c3ed:1:d8bd:9673:d9cd:a562]:5184/3311/0/5850".toList :=
  ⟨(reverse_bridge_target
      (fun _ =>
        { split_uri := 0, addr_info := true, new_context := true, new_client_session := true,
          pdu_init := true, uri_into_options := 0, optlist := true, add_optlist_pdu := 1,
          add_data := 1, send := true, leisure_integer_part := 5,
          io := fun _ => ⟨1000, none, false⟩ })
      ⟨false, false, 0⟩
      { MatterIpsoMapping.empty with
        cluster_object_map := BiMap.empty.insert 6 3311
        attribute_resource_map := BiMap.empty.insert 0 5850 }
      4 (fun _ => true) 1 6 0 3311 5850 [1] 1 (by decide) (by decide) (by decide) (by decide)
      (by decide) rfl).1, by decide⟩

/-- C24 as stated does not hold. With an empty mapping (both lookups miss) and a client
request that fails at its first step (the URI is not parsed; the client returns EXIT_FAILURE),
the write callback and the read callback return Success; the target is made of the two -1 of
the failed lookups. -/
theorem callbacks_return_success_on_failure :
    (emberAfExternalAttributeWriteCallback
        (fun _ =>
          { split_uri := -1, addr_info := false, new_context := false,
            new_client_session := false, pdu_init := false, uri_into_options := -1,
            optlist := false, add_optlist_pdu := 0, add_data := 0, send := false,
            leisure_integer_part := 0, io := fun _ => ⟨-1, none, true⟩ })
        ⟨false, false, 0⟩ MatterIpsoMapping.empty 4 1 6 0 [1] 1).status = .Success ∧
    (emberAfExternalAttributeWriteCallback
        (fun _ =>
          { split_uri := -1, addr_info := false, new_context := false,
            new_client_session := false, pdu_init := false, uri_into_options := -1,
            optlist := false, add_optlist_pdu := 0, add_data := 0, send := false,
            leisure_integer_part := 0, io := fun _ => ⟨-1, none, true⟩ })
        ⟨false, false, 0⟩ MatterIpsoMapping.empty 4 1 6 0 [1] 1).client.map
          (fun r => (r.result, r.calls.contains .coap_send)) = some (EXIT_FAILURE, false) ∧
    (emberAfExternalAttributeReadCallback 0
        (fun _ =>
          { split_uri := -1, addr_info := false, new_context := false,
            new_client_session := false, pdu_init := false, uri_into_options := -1,
            optlist := false, add_optlist_pdu := 0, add_data := 0, send := false,
            leisure_integer_part := 0, io := fun _ => ⟨-1, none, true⟩ })
        ⟨false, false, 0⟩ MatterIpsoMapping.empty 4 (fun _ => true) 1 6 0).map
          (fun res => (res.status, res.target))
      = some (.Success,
          some "coap://[fd73:13f6:c3ed:1:d8bd:9673:d9cd:a562]:5184/-1/0/-1".toList) := by
  decide

/-- C24, amended. The status an external-attribute callback returns depends on the endpoint
only: the write callback returns Success exactly when the endpoint index is below the number
of dynamic endpoints, the read callback, whenever it returns, exactly when moreover a device
is registered at that index. Neither the result of the two lookups nor what the client
request returns or does has a part in it; without a request (the status Failure) the read
callback returns at once. -/
theorem callback_status_depends_on_endpoint_only (network : List Char → ClientEnv)
    (state : ClientState) (matter_mapping : MatterIpsoMapping) (dynamic_endpoint_count : Nat)
    (gDevices : Nat → Bool) (endpointIndex clusterId attribute_id : Nat) (buffer : List Nat)
    (size : Nat) :
    ((emberAfExternalAttributeWriteCallback network state matter_mapping
        dynamic_endpoint_count endpointIndex clusterId attribute_id buffer size).status
      = .Success ↔ endpointIndex < dynamic_endpoint_count) ∧
    (∀ fuel res, emberAfExternalAttributeReadCallback fuel network state matter_mapping
        dynamic_endpoint_count gDevices endpointIndex clusterId attribute_id = some res →
      (res.status = .Success ↔
        (endpointIndex < dynamic_endpoint_count ∧ gDevices endpointIndex = true))) ∧
    (¬ (endpointIndex < dynamic_endpoint_count ∧ gDevices endpointIndex = true) →
      ∀ fuel, emberAfExternalAttributeReadCallback fuel network state matter_mapping
        dynamic_endpoint_count gDevices endpointIndex clusterId attribute_id
        = some ⟨.Failure, none, none⟩) := by
  refine ⟨?_, ?_, ?_⟩
  · unfold emberAfExternalAttributeWriteCallback
    by_cases h : endpointIndex < dynamic_endpoint_count
    · rw [if_pos h]
      exact ⟨fun _ => h, fun _ => rfl⟩
    · rw [if_neg h]
      exact ⟨fun e => (by cases e), fun e => absurd e h⟩
  · intro fuel res hres
    unfold emberAfExternalAttributeReadCallback at hres
    by_cases h : endpointIndex < dynamic_endpoint_count ∧ gDevices endpointIndex = true
    · rw [if_pos h] at hres
      simp only [] at hres
      split at hres
      · cases hres
        exact ⟨fun _ => h, fun _ => rfl⟩
      · cases hres
    · rw [if_neg h] at hres
      cases hres
      exact ⟨fun e => (by cases e), fun e => absurd e h⟩
  · intro h fuel
    unfold emberAfExternalAttributeReadCallback
    rw [if_neg h]

/-! ## Theorems: the wait budget and the PDU of the client -/

/-- A GET request reaches the wait loop only when every step up to coap_send succeeded. -/
theorem get_request_ok (env : ClientEnv) (kind : ResponseHandler) (state : ClientState)
    (v : ClientVars) (h : get_request env kind state = .ok v) :
    env.split_uri = 0 ∧ env.addr_info = true ∧ env.new_context = true ∧
    env.new_client_session = true ∧ env.pdu_init = true ∧ env.uri_into_options = 0 ∧
    (env.optlist = true → env.add_optlist_pdu = 1) ∧ env.send = true := by
  unfold get_request at h
  simp only [bind, Except.bind, pure, Except.pure, throw, throwThe, MonadExceptOf.throw,
    call_fields, set_ctx_fields, set_optlist_fields, set_session_fields,
    set_pdu_fields, set_wait_ms_fields, entry_fields] at h
  by_cases c1 : env.split_uri ≠ 0
  · rw [if_pos c1] at h; cases h
  rw [if_neg c1] at h
  by_cases c2 : resolve_address env ≤ 0
  · rw [if_pos c2] at h; cases h
  rw [if_neg c2] at h
  by_cases c3 : env.new_context = false
  · rw [if_pos c3] at h; cases h
  rw [if_neg c3] at h
  by_cases c4 : env.new_client_session = false
  · rw [if_pos c4] at h; cases h
  rw [if_neg c4] at h
  by_cases c5 : env.pdu_init = false
  · rw [if_pos c5] at h; cases h
  rw [if_neg c5] at h
  by_cases c6 : env.uri_into_options ≠ 0
  · rw [if_pos c6] at h; cases h
  rw [if_neg c6] at h
  have h2 : env.addr_info = true := by
    unfold resolve_address at c2
    by_cases ha : env.addr_info = true
    · exact ha
    · rw [if_neg ha] at c2; exact absurd (Int.le_refl 0) c2
  have common : env.split_uri = 0 ∧ env.addr_info = true ∧ env.new_context = true ∧
      env.new_client_session = true ∧ env.pdu_init = true ∧ env.uri_into_options = 0 :=
    ⟨not_not.mp c1, h2, by simpa using c3, by simpa using c4, by simpa using c5,
      not_not.mp c6⟩
  obtain ⟨e1, e2, e3, e4, e5, e6⟩ := common
  by_cases c7 : env.optlist = true
  · rw [if_pos c7] at h
    by_cases c8 : env.add_optlist_pdu ≠ 1
    · rw [if_pos c8] at h; cases h
    rw [if_neg c8] at h
    by_cases c9 : env.send = false
    · rw [if_pos c9] at h; cases h
    exact ⟨e1, e2, e3, e4, e5, e6, fun _ => not_not.mp c8, by simpa using c9⟩
  · rw [if_neg c7] at h
    by_cases c9 : env.send = false
    · rw [if_pos c9] at h; cases h
    exact ⟨e1, e2, e3, e4, e5, e6, fun hc => absurd hc c7, by simpa using c9⟩

/-- The budget a GET request enters its wait loop with. -/
theorem get_request_wait_ms (env : ClientEnv) (kind : ResponseHandler) (state : ClientState)
    (v : ClientVars) (h : get_request env kind state = .ok v) :
    v.wait_ms = ((env.leisure_integer_part + 1) * 1000) % 4294967296 := by
  obtain ⟨e1, e2, e3, e4, e5, e6, e7, e8⟩ := get_request_ok env kind state v h
  unfold get_request at h
  simp only [bind, Except.bind, pure, Except.pure, throw, throwThe, MonadExceptOf.throw,
    call_fields, set_ctx_fields, set_optlist_fields, set_session_fields,
    set_pdu_fields, set_wait_ms_fields, entry_fields, resolve_address, e1, e2, e3, e4, e5, e6,
    e8, ne_eq, not_true_eq_false, if_false, if_true, Bool.true_eq_false,
    Int.reduceLE, le_refl] at h
  by_cases c7 : env.optlist = true
  · simp only [c7, if_true, e7 c7, not_true_eq_false, if_false, ne_eq] at h
    cases h
    rfl
  · simp only [c7, if_false] at h
    cases h
    rfl

/-- Setting wait_ms to the value it has changes nothing. -/
theorem set_wait_ms_self (v : ClientVars) : v.set_wait_ms v.wait_ms = v := rfl

/-- The wait loop with a turn allowed, written out. -/
theorem wait_loop_succ (env : ClientEnv) (kind : ResponseHandler) (fuel k : Nat)
    (v : ClientVars) :
    wait_loop env kind (fuel + 1) k v =
      if v.have_response = 0 then
        if (env.io k).res ≥ 0 then
          if (io_process env kind k v).wait_ms > 0 then
            if (env.io k).res.toNat ≥ (io_process env kind k v).wait_ms then
              some (io_process env kind k v)
            else
              wait_loop env kind fuel (k + 1) ((io_process env kind k v).set_wait_ms
                ((io_process env kind k v).wait_ms - (env.io k).res.toNat))
          else wait_loop env kind fuel (k + 1) (io_process env kind k v)
        else wait_loop env kind fuel (k + 1) (io_process env kind k v)
      else some v := by
  rw [wait_loop]

/-- One turn of the wait loop with have_response still 0 and a budget left: either the call
returned a non-negative time of at least the budget and the loop is left (timeout), or the
loop goes on with the budget lowered by the time returned (by nothing after an error). -/
theorem wait_loop_turn (env : ClientEnv) (kind : ResponseHandler) (fuel k : Nat)
    (u : ClientVars) (h0 : u.have_response = 0) (hpos : 0 < u.wait_ms) :
    (0 ≤ (env.io k).res ∧ u.wait_ms ≤ (env.io k).res.toNat ∧
      wait_loop env kind (fuel + 1) k u = some (io_process env kind k u)) ∨
    (¬ (0 ≤ (env.io k).res ∧ u.wait_ms ≤ (env.io k).res.toNat) ∧
      wait_loop env kind (fuel + 1) k u = wait_loop env kind fuel (k + 1)
        ((io_process env kind k u).set_wait_ms (u.wait_ms - (env.io k).res.toNat))) := by
  have hw := io_process_wait_ms env kind k u
  rw [wait_loop_succ, if_pos h0]
  by_cases h1 : (env.io k).res ≥ 0
  · rw [if_pos h1, if_pos (by omega)]
    by_cases h2 : (env.io k).res.toNat ≥ (io_process env kind k u).wait_ms
    · rw [if_pos h2]
      exact Or.inl ⟨h1, by omega, rfl⟩
    · rw [if_neg h2, hw]
      exact Or.inr ⟨fun h => h2 (by omega), rfl⟩
  · rw [if_neg h1]
    refine Or.inr ⟨fun h => h1 h.1, ?_⟩
    have hz : (env.io k).res.toNat = 0 := Int.toNat_eq_zero.mpr (by omega)
    rw [hz, Nat.sub_zero, ← hw, set_wait_ms_self]

/-- The wait loop from a turn at which the budget left and the time consumed so far add up
to the initial budget: when it is left, the budget is still positive, and either the sum
still holds (the loop condition ended it) or the last call returned at least the budget left
(timeout), and then the time consumed is at least the initial budget. -/
theorem wait_loop_budget (env : ClientEnv) (kind : ResponseHandler) (initial : Nat)
    (fuel : Nat) :
    ∀ (k : Nat) (u w : ClientVars), 0 < u.wait_ms → u.wait_ms + consumed env k = initial →
      wait_loop env kind fuel k u = some w →
      0 < w.wait_ms ∧ ∃ n, k ≤ n ∧ w.calls = u.calls ++ List.replicate (n - k) .coap_io_process ∧
        (w.wait_ms + consumed env n = initial ∨
          (k < n ∧ w.wait_ms + consumed env (n - 1) = initial ∧
            w.wait_ms ≤ (env.io (n - 1)).res.toNat ∧ initial ≤ consumed env n)) := by
  induction fuel with
  | zero => intro k u w _ _ h; simp [wait_loop] at h
  | succ fuel ih =>
    intro k u w hpos hsum h
    by_cases h0 : u.have_response = 0
    · have hw := io_process_wait_ms env kind k u
      have hc : (io_process env kind k u).calls = u.calls ++ [.coap_io_process] := by
        unfold io_process
        cases (env.io k).response with
        | none => rfl
        | some payload =>
          simp only [response_handler]
          by_cases hp : payload = []
          · simp only [hp, if_true]; rfl
          · simp only [hp, if_false]
            cases kind <;> rfl
      rcases wait_loop_turn env kind fuel k u h0 hpos with ⟨h1, h2, e⟩ | ⟨h1, e⟩
      · rw [e] at h
        cases h
        refine ⟨by omega, k + 1, by omega, ?_, Or.inr ⟨by omega, ?_, ?_, ?_⟩⟩
        · rw [hc, show k + 1 - k = 1 by omega]; rfl
        · rw [hw]; exact hsum
        · rw [hw]; exact h2
        · simp only [consumed]; omega
      · rw [e] at h
        have hlt : (env.io k).res.toNat < u.wait_ms := by
          by_cases hn : 0 ≤ (env.io k).res
          · by_contra hge
            exact h1 ⟨hn, by omega⟩
          · have : (env.io k).res.toNat = 0 := Int.toNat_eq_zero.mpr (by omega)
            omega
        obtain ⟨hwpos, n, hn, hcalls, hex⟩ := ih (k + 1)
          ((io_process env kind k u).set_wait_ms (u.wait_ms - (env.io k).res.toNat)) w
          (by show 0 < u.wait_ms - (env.io k).res.toNat; omega)
          (by show u.wait_ms - (env.io k).res.toNat + consumed env (k + 1) = initial
              simp only [consumed]; omega) h
        refine ⟨hwpos, n, by omega, ?_, ?_⟩
        · rw [hcalls]
          show (io_process env kind k u).calls ++ _ = _
          rw [hc, List.append_assoc, show n - k = (n - (k + 1)) + 1 by omega,
            List.replicate_succ]
          rfl
        · rcases hex with hex | ⟨a, b, c, d⟩
          · exact Or.inl hex
          · exact Or.inr ⟨by omega, b, c, d⟩
    · rw [wait_loop_succ, if_neg h0] at h
      cases h
      exact ⟨hpos, k, Nat.le_refl k, by simp, Or.inl hsum⟩

/-- C25. Wait-budget arithmetic of a GET request whose request was sent (the leisure integer
part is a 16-bit value). The wait loop is entered with the budget (leisure integer part + 1)
* 1000, which is positive. At every turn at which a budget is left and budget left + time
consumed = initial budget: a call that returns a non-negative time of at least the budget left
ends the loop (timeout), and the time consumed is then at least the initial budget; any other
call lowers the budget by exactly the time returned (by nothing after an error), and the budget
stays positive with budget left + time consumed = initial budget. So whenever the loop is
left, the budget left is positive, and either it and the time consumed add up to the initial
budget, or the last call took at least the budget left and the time consumed is at least the
initial budget. -/
theorem wait_budget_arithmetic (env : ClientEnv) (kind : ResponseHandler)
    (state : ClientState) (v : ClientVars) (hleisure : env.leisure_integer_part ≤ 65535)
    (hreq : get_request env kind state = .ok v) :
    v.wait_ms = (env.leisure_integer_part + 1) * 1000 ∧ 0 < v.wait_ms ∧
    v.wait_ms + consumed env 0 = v.wait_ms ∧
    (∀ (fuel k : Nat) (u : ClientVars), u.have_response = 0 → 0 < u.wait_ms →
      u.wait_ms + consumed env k = v.wait_ms →
      (0 ≤ (env.io k).res ∧ u.wait_ms ≤ (env.io k).res.toNat ∧
        wait_loop env kind (fuel + 1) k u = some (io_process env kind k u) ∧
        v.wait_ms ≤ consumed env (k + 1)) ∨
      (¬ (0 ≤ (env.io k).res ∧ u.wait_ms ≤ (env.io k).res.toNat) ∧
        ∃ next, wait_loop env kind (fuel + 1) k u = wait_loop env kind fuel (k + 1) next ∧
          next.wait_ms = u.wait_ms - (env.io k).res.toNat ∧ 0 < next.wait_ms ∧
          next.wait_ms + consumed env (k + 1) = v.wait_ms)) ∧
    (∀ (fuel : Nat) (w : ClientVars), wait_loop env kind fuel 0 v = some w →
      0 < w.wait_ms ∧ ∃ n, w.calls = v.calls ++ List.replicate n .coap_io_process ∧
        (w.wait_ms + consumed env n = v.wait_ms ∨
          (0 < n ∧ w.wait_ms + consumed env (n - 1) = v.wait_ms ∧
            w.wait_ms ≤ (env.io (n - 1)).res.toNat ∧ v.wait_ms ≤ consumed env n))) := by
  have hinit : v.wait_ms = (env.leisure_integer_part + 1) * 1000 := by
    rw [get_request_wait_ms env kind state v hreq]
    exact Nat.mod_eq_of_lt (by omega)
  have hpos : 0 < v.wait_ms := by omega
  refine ⟨hinit, hpos, rfl, ?_, ?_⟩
  · intro fuel k u h0 hu hsum
    rcases wait_loop_turn env kind fuel k u h0 hu with ⟨h1, h2, e⟩ | ⟨h1, e⟩
    · exact Or.inl ⟨h1, h2, e, by simp only [consumed]; omega⟩
    · have hlt : (env.io k).res.toNat < u.wait_ms := by
        by_cases hn : 0 ≤ (env.io k).res
        · by_contra hge
          exact h1 ⟨hn, by omega⟩
        · have : (env.io k).res.toNat = 0 := Int.toNat_eq_zero.mpr (by omega)
          omega
      refine Or.inr ⟨h1, _, e, rfl, ?_, ?_⟩
      · show 0 < u.wait_ms - (env.io k).res.toNat
        omega
      · show u.wait_ms - (env.io k).res.toNat + consumed env (k + 1) = v.wait_ms
        simp only [consumed]; omega
  · intro fuel w hw
    obtain ⟨hwpos, n, _, hcalls, hex⟩ :=
      wait_loop_budget env kind v.wait_ms fuel 0 v w hpos rfl hw
    exact ⟨hwpos, n, hcalls, hex⟩

theorem wait_budget_arithmetic_witness :
    (∀ (fuel : Nat) (w : ClientVars),
      wait_loop
        { split_uri := 0, addr_info := true, new_context := true, new_client_session := true,
          pdu_init := true, uri_into_options := 0, optlist := true, add_optlist_pdu := 1,
          add_data := 1, send := true, leisure_integer_part := 5,
          io := fun k => if k = 1 then ⟨-1, none, false⟩ else ⟨2500, none, false⟩ }
        .log fuel 0
        (((((((((((((((((((ClientVars.entry ⟨false, false, 0⟩).call .coap_startup).call
          .coap_split_uri).call .resolve_address).call .coap_new_context).set_ctx true).call
          .coap_context_set_block_mode).call .coap_new_client_session).set_session true).call
          .coap_register_response_handler).call .coap_register_nack_handler).call
          (.coap_pdu_init .COAP_REQUEST_CODE_GET)).set_pdu true).call
          .coap_uri_into_options).set_optlist true).call .coap_add_optlist_pdu).call
          .coap_send).set_wait_ms 6000)) = some w →
      0 < w.wait_ms) ∧
    (wait_loop
        { split_uri := 0, addr_info := true, new_context := true, new_client_session := true,
          pdu_init := true, uri_into_options := 0, optlist := true, add_optlist_pdu := 1,
          add_data := 1, send := true, leisure_integer_part := 5,
          io := fun k => if k = 1 then ⟨-1, none, false⟩ else ⟨2500, none, false⟩ }
        .log 4 0
        (((((((((((((((((((ClientVars.entry ⟨false, false, 0⟩).call .coap_startup).call
          .coap_split_uri).call .resolve_address).call .coap_new_context).set_ctx true).call
          .coap_context_set_block_mode).call .coap_new_client_session).set_session true).call
          .coap_register_response_handler).call .coap_register_nack_handler).call
          (.coap_pdu_init .COAP_REQUEST_CODE_GET)).set_pdu true).call
          .coap_uri_into_options).set_optlist true).call .coap_add_optlist_pdu).call
          .coap_send).set_wait_ms 6000))).map (fun w => w.wait_ms) = some 1000 :=
  ⟨fun fuel w hw => ((wait_budget_arithmetic
    { split_uri := 0, addr_info := true, new_context := true, new_client_session := true,
      pdu_init := true, uri_into_options := 0, optlist := true, add_optlist_pdu := 1,
      add_data := 1, send := true, leisure_integer_part := 5,
      io := fun k => if k = 1 then ⟨-1, none, false⟩ else ⟨2500, none, false⟩ }
    .log ⟨false, false, 0⟩ _ (by decide) rfl).2.2.2.2 fuel w hw).1, by decide⟩

/-- A PUT request that has built its PDU and fails before coap_send: the calls made up to
the jump to finish include coap_pdu_init and no call that takes the PDU. -/
theorem put_request_keeps_pdu (env : ClientEnv) (payload : List Nat) (state : ClientState)
    (h1 : env.split_uri = 0) (h2 : env.addr_info = true) (h3 : env.new_context = true)
    (h4 : env.new_client_session = true) (h5 : env.pdu_init = true)
    (hfail : env.uri_into_options < 0 ∨ (env.optlist = true ∧ env.add_optlist_pdu ≠ 1) ∨
      env.add_data = 0) :
    ∃ v, put_request env payload state = .error v ∧
      .coap_pdu_init .COAP_REQUEST_CODE_PUT ∈ v.calls ∧ ∀ c ∈ v.calls, c.takes_pdu = false := by
  unfold put_request
  simp only [bind, Except.bind, pure, Except.pure, throw, throwThe, MonadExceptOf.throw,
    call_fields, set_ctx_fields, set_optlist_fields, set_session_fields,
    set_pdu_fields, set_wait_ms_fields, entry_fields, resolve_address, h1, h2, h3, h4, h5,
    ne_eq, not_true_eq_false, if_false, if_true, Bool.true_eq_false, Int.reduceLE]
  by_cases c6 : env.uri_into_options < 0
  · rw [if_pos c6]
    exact ⟨_, rfl, by simp [call_fields, set_ctx_fields, set_optlist_fields,
      set_session_fields, set_pdu_fields, entry_fields],
      by simp [call_fields, set_ctx_fields, set_optlist_fields,
        set_session_fields, set_pdu_fields, entry_fields, LibCall.takes_pdu]⟩
  rw [if_neg c6]
  by_cases c7 : env.optlist = true
  · rw [if_pos c7]
    by_cases c8 : env.add_optlist_pdu = 1
    · rw [if_neg (not_not.mpr c8)]
      have c9 : env.add_data = 0 := by
        rcases hfail with h | ⟨_, h⟩ | h
        · exact absurd h c6
        · exact absurd c8 h
        · exact h
      simp only [c9, if_true]
      exact ⟨_, rfl, by simp [call_fields, set_ctx_fields, set_optlist_fields,
        set_session_fields, set_pdu_fields, entry_fields],
        by simp [call_fields, set_ctx_fields, set_optlist_fields,
          set_session_fields, set_pdu_fields, entry_fields, LibCall.takes_pdu]⟩
    · rw [if_pos c8]
      exact ⟨_, rfl, by simp [call_fields, set_ctx_fields, set_optlist_fields,
        set_session_fields, set_pdu_fields, entry_fields],
        by simp [call_fields, set_ctx_fields, set_optlist_fields,
          set_session_fields, set_pdu_fields, entry_fields, LibCall.takes_pdu]⟩
  · rw [if_neg c7]
    have c9 : env.add_data = 0 := by
      rcases hfail with h | ⟨h, _⟩ | h
      · exact absurd h c6
      · exact absurd h c7
      · exact h
    simp only [c9, if_true]
    exact ⟨_, rfl, by simp [call_fields, set_ctx_fields, set_optlist_fields,
      set_session_fields, set_pdu_fields, entry_fields],
      by simp [call_fields, set_ctx_fields, set_optlist_fields,
        set_session_fields, set_pdu_fields, entry_fields, LibCall.takes_pdu]⟩

/-- A GET request that has built its PDU and fails before coap_send: the calls made up to
the jump to finish include coap_pdu_init and no call that takes the PDU. -/
theorem get_request_keeps_pdu (env : ClientEnv) (kind : ResponseHandler) (state : ClientState)
    (h1 : env.split_uri = 0) (h2 : env.addr_info = true) (h3 : env.new_context = true)
    (h4 : env.new_client_session = true) (h5 : env.pdu_init = true)
    (hfail : env.uri_into_options ≠ 0 ∨ (env.optlist = true ∧ env.add_optlist_pdu ≠ 1)) :
    ∃ v, get_request env kind state = .error v ∧
      .coap_pdu_init .COAP_REQUEST_CODE_GET ∈ v.calls ∧ ∀ c ∈ v.calls, c.takes_pdu = false := by
  unfold get_request
  cases kind <;>
  simp only [bind, Except.bind, pure, Except.pure, throw, throwThe, MonadExceptOf.throw,
    call_fields, set_ctx_fields, set_optlist_fields, set_session_fields,
    set_pdu_fields, set_wait_ms_fields, entry_fields, resolve_address, h1, h2, h3, h4, h5,
    ne_eq, not_true_eq_false, if_false, if_true, Bool.true_eq_false, Int.reduceLE,
    reduceCtorEq]
  all_goals
    by_cases c6 : env.uri_into_options = 0
    · rw [if_neg (not_not.mpr c6)]
      have c78 : env.optlist = true ∧ env.add_optlist_pdu ≠ 1 := by
        rcases hfail with h | h
        · exact absurd c6 h
        · exact h
      rw [if_pos c78.1, if_pos c78.2]
      exact ⟨_, rfl, by simp [call_fields, set_ctx_fields, set_optlist_fields,
        set_session_fields, set_pdu_fields, entry_fields],
        by simp [call_fields, set_ctx_fields, set_optlist_fields,
          set_session_fields, set_pdu_fields, entry_fields, LibCall.takes_pdu]⟩
    · rw [if_pos c6]
      exact ⟨_, rfl, by simp [call_fields, set_ctx_fields, set_optlist_fields,
        set_session_fields, set_pdu_fields, entry_fields],
        by simp [call_fields, set_ctx_fields, set_optlist_fields,
          set_session_fields, set_pdu_fields, entry_fields, LibCall.takes_pdu]⟩

/-- The cleanup step makes no call that takes the PDU. -/
theorem finish_takes_no_pdu (v : ClientVars) (h : ∀ c ∈ v.calls, c.takes_pdu = false) :
    ∀ c ∈ (finish v).calls, c.takes_pdu = false := by
  intro c hc
  simp only [finish, List.mem_append, List.mem_cons, List.mem_singleton, List.not_mem_nil,
    or_false] at hc
  rcases hc with hc | hc | hc | hc | hc
  · exact h c hc
  all_goals (rw [hc]; rfl)

/-- C26 as stated does not hold. A PUT whose PDU is built and whose payload cannot be
attached (coap_add_data returns 0) jumps to finish: the calls made are the ten listed, the
option list, the session and the context are released, and no call takes the PDU. -/
theorem pdu_is_left_when_add_data_fails :
    (CoapClientPut
      { split_uri := 0, addr_info := true, new_context := true, new_client_session := true,
        pdu_init := true, uri_into_options := 0, optlist := true, add_optlist_pdu := 1,
        add_data := 0, send := true, leisure_integer_part := 5,
        io := fun _ => ⟨1000, none, false⟩ } [1] 1 ⟨false, false, 0⟩).calls
      = [.coap_startup, .coap_split_uri, .resolve_address, .coap_new_context,
          .coap_new_client_session, .coap_pdu_init .COAP_REQUEST_CODE_PUT,
          .coap_uri_into_options, .coap_add_optlist_pdu, .coap_add_data [1],
          .coap_delete_optlist true, .coap_session_release true, .coap_free_context true,
          .coap_cleanup] ∧
    ((CoapClientPut
      { split_uri := 0, addr_info := true, new_context := true, new_client_session := true,
        pdu_init := true, uri_into_options := 0, optlist := true, add_optlist_pdu := 1,
        add_data := 0, send := true, leisure_integer_part := 5,
        io := fun _ => ⟨1000, none, false⟩ } [1] 1 ⟨false, false, 0⟩).calls.filter
      LibCall.takes_pdu) = [] := by
  decide

/-- C26, amended. When a client request has built its PDU and then fails before the PDU is
handed to coap_send (option encoding fails, attaching the option list fails, or, in a PUT,
attaching the payload fails), the cleanup step runs once and releases the option list, the
session and the context, but the PDU is not released: coap_pdu_init has been called and no
call of the whole request takes the PDU. -/
theorem pdu_is_left_on_failure_before_send (env : ClientEnv) (kind : ResponseHandler)
    (state : ClientState) (payload : List Nat)
    (h1 : env.split_uri = 0) (h2 : env.addr_info = true) (h3 : env.new_context = true)
    (h4 : env.new_client_session = true) (h5 : env.pdu_init = true) :
    ((env.uri_into_options < 0 ∨ (env.optlist = true ∧ env.add_optlist_pdu ≠ 1) ∨
        env.add_data = 0) →
      .coap_pdu_init .COAP_REQUEST_CODE_PUT ∈ (client_put env payload state).calls ∧
      (∀ c ∈ (client_put env payload state).calls, c.takes_pdu = false) ∧
      CleanupRanOnce env state (client_put env payload state)) ∧
    ((env.uri_into_options ≠ 0 ∨ (env.optlist = true ∧ env.add_optlist_pdu ≠ 1)) →
      ∀ fuel, ∃ r, client_get fuel env kind state = some r ∧
        .coap_pdu_init .COAP_REQUEST_CODE_GET ∈ r.calls ∧
        (∀ c ∈ r.calls, c.takes_pdu = false) ∧ CleanupRanOnce env state r) := by
  constructor
  · intro hfail
    obtain ⟨v, hv, hmem, hnone⟩ := put_request_keeps_pdu env payload state h1 h2 h3 h4 h5 hfail
    have e : client_put env payload state = finish v := by
      unfold client_put
      rw [hv]
    rw [e]
    refine ⟨?_, finish_takes_no_pdu v hnone, ?_⟩
    · simp only [finish, List.mem_append]
      exact Or.inl hmem
    · exact CleanupRanOnce_of_invariant env state v v
        (put_request_invariant env payload state v (Or.inr hv)) 0 rfl rfl rfl (by simp)
  · intro hfail fuel
    obtain ⟨v, hv, hmem, hnone⟩ := get_request_keeps_pdu env kind state h1 h2 h3 h4 h5 hfail
    refine ⟨finish v, ?_, ?_, finish_takes_no_pdu v hnone, ?_⟩
    · unfold client_get
      rw [hv]
    · simp only [finish, List.mem_append]
      exact Or.inl hmem
    · exact CleanupRanOnce_of_invariant env state v v
        (get_request_invariant env kind state v (Or.inr hv)) 0 rfl rfl rfl (by simp)

theorem pdu_is_left_on_failure_before_send_witness :
    (∀ c ∈ (client_put
      { split_uri := 0, addr_info := true, new_context := true, new_client_session := true,
        pdu_init := true, uri_into_options := -1, optlist := false, add_optlist_pdu := 1,
        add_data := 1, send := true, leisure_integer_part := 5,
        io := fun _ => ⟨1000, none, false⟩ } [1] ⟨false, false, 0⟩).calls,
      c.takes_pdu = false) ∧
    ∃ r, client_get 0
      { split_uri := 0, addr_info := true, new_context := true, new_client_session := true,
        pdu_init := true, uri_into_options := -1, optlist := false, add_optlist_pdu := 1,
        add_data := 1, send := true, leisure_integer_part := 5,
        io := fun _ => ⟨1000, none, false⟩ } .copy_to_answer ⟨false, false, 0⟩ = some r ∧
      .coap_pdu_init .COAP_REQUEST_CODE_GET ∈ r.calls ∧
      (∀ c ∈ r.calls, c.takes_pdu = false) ∧
      CleanupRanOnce
        { split_uri := 0, addr_info := true, new_context := true, new_client_session := true,
          pdu_init := true, uri_into_options := -1, optlist := false, add_optlist_pdu := 1,
          add_data := 1, send := true, leisure_integer_part := 5,
          io := fun _ => ⟨1000, none, false⟩ } ⟨false, false, 0⟩ r :=
  ⟨((pdu_is_left_on_failure_before_send
      { split_uri := 0, addr_info := true, new_context := true, new_client_session := true,
        pdu_init := true, uri_into_options := -1, optlist := false, add_optlist_pdu := 1,
        add_data := 1, send := true, leisure_integer_part := 5,
        io := fun _ => ⟨1000, none, false⟩ } .copy_to_answer ⟨false, false, 0⟩ [1]
      rfl rfl rfl rfl rfl).1 (Or.inl (by decide))).2.1,
   (pdu_is_left_on_failure_before_send
      { split_uri := 0, addr_info := true, new_context := true, new_client_session := true,
        pdu_init := true, uri_into_options := -1, optlist := false, add_optlist_pdu := 1,
        add_data := 1, send := true, leisure_integer_part := 5,
        io := fun _ => ⟨1000, none, false⟩ } .copy_to_answer ⟨false, false, 0⟩ [1]
      rfl rfl rfl rfl rfl).2 (Or.inl (by decide)) 0⟩

/-! ## Theorems: malformed request paths -/

/-- The first statements of the proxies fail on a path with fewer than three segments or with
a first or third segment stoi cannot read. -/
theorem DecomposePath_of_malformed (uri : List Char)
    (h : (SplitString uri '/').length < 3 ∨
      (∃ e, stoi ((SplitString uri '/').getD 0 []) = .error e) ∨
      (∃ e, stoi ((SplitString uri '/').getD 2 []) = .error e)) :
    ∃ e, DecomposePath uri = .error e := by
  unfold DecomposePath vector_at
  simp only [bind, Except.bind, pure, Except.pure]
  cases h0 : (SplitString uri '/').get? 0 with
  | none => exact ⟨_, rfl⟩
  | some t0 =>
    have g0 : (SplitString uri '/').getD 0 [] = t0 := by
      rw [List.getD_eq_getElem?_getD, ← List.get?_eq_getElem?, h0]; rfl
    simp only []
    cases hs0 : stoi t0 with
    | error e => exact ⟨_, rfl⟩
    | ok object_id =>
      simp only []
      cases h2 : (SplitString uri '/').get? 2 with
      | none => exact ⟨_, rfl⟩
      | some t2 =>
        have g2 : (SplitString uri '/').getD 2 [] = t2 := by
          rw [List.getD_eq_getElem?_getD, ← List.get?_eq_getElem?, h2]; rfl
        simp only []
        cases hs2 : stoi t2 with
        | error e => exact ⟨_, rfl⟩
        | ok resource_id =>
          exfalso
          rcases h with h | ⟨e, h⟩ | ⟨e, h⟩
          · have := List.get?_eq_none.mpr (show (SplitString uri '/').length ≤ 2 by omega)
            rw [this] at h2
            cases h2
          · rw [g0, hs0] at h; cases h
          · rw [g2, hs2] at h; cases h

/-- C27 as stated does not hold. A path whose first and third segments are not decimal
integers but start with one (12abc/0/5x) is accepted: the command proxy and the write proxy
schedule an interaction. And on a path with two segments the exception thrown by at(2) is not
caught: it leaves the proxy and the handler that called it. -/
theorem proxies_accept_numeral_prefixes_and_throw :
    ForwardCommandMessage MatterIpsoMapping.empty "12abc/0/5x".toList
      = .ok [⟨2, 4294967295, 0, 4294967295, .uint16 0, false, false, false⟩] ∧
    ForwardAttributeWriteMessage MatterIpsoMapping.empty
        ⟨[("12abc/0/5x".toList, "Boolean".toList)]⟩ "12abc/0/5x".toList [1]
      = .ok [⟨2, 0, 4294967295, 4294967295, .bool true, false, true, false⟩] ∧
    DecomposePath "12abc/0/5x".toList = .ok (12, 5) ∧
    ForwardCommandMessage MatterIpsoMapping.empty "1/0".toList = .error .out_of_range ∧
    hnd_command_put MatterIpsoMapping.empty "1/0".toList = .error .out_of_range ∧
    hnd_attribute_put MatterIpsoMapping.empty ⟨[]⟩ "x/0/1".toList (some [1]) []
      = .error .invalid_argument := by
  decide

/-- C27, amended. On a request path that has fewer than three segments, or whose first or
third segment std::stoi cannot read (no decimal digit after optional white space and sign, or
a value outside int), each of the three proxies throws the exception of at or stoi before it
schedules anything; nothing catches it, so it also leaves the handler the request came
through. Segments that only start with a numeral are read as that numeral and accepted. -/
theorem proxies_throw_on_malformed_path (coap_mapping : MatterIpsoMapping)
    (type_map : TypeMap) (result_ptr : Option Data) (published : Nat → Option Data)
    (uri : List Char) (payload buffer stack_buf stack_bytes : List Nat) (buf_len size : Nat)
    (stack_len : Nat) (request_data : Option (List Nat))
    (h : (SplitString uri '/').length < 3 ∨
      (∃ e, stoi ((SplitString uri '/').getD 0 []) = .error e) ∨
      (∃ e, stoi ((SplitString uri '/').getD 2 []) = .error e)) :
    ∃ e, DecomposePath uri = .error e ∧
      ForwardAttributeWriteMessage coap_mapping type_map uri payload = .error e ∧
      ForwardAttributeReadMessage coap_mapping type_map result_ptr published uri buffer buf_len
        size = .error e ∧
      ForwardCommandMessage coap_mapping uri = .error e ∧
      hnd_attribute_get coap_mapping type_map result_ptr published uri stack_buf stack_len
        = .error e ∧
      hnd_attribute_put coap_mapping type_map uri request_data stack_bytes = .error e ∧
      hnd_command_put coap_mapping uri = .error e := by
  obtain ⟨e, he⟩ := DecomposePath_of_malformed uri h
  have hw : ∀ p, ForwardAttributeWriteMessage coap_mapping type_map uri p = .error e := by
    intro p
    unfold ForwardAttributeWriteMessage
    rw [he]
    rfl
  have hr : ∀ b n s, ForwardAttributeReadMessage coap_mapping type_map result_ptr published
      uri b n s = .error e := by
    intro b n s
    unfold ForwardAttributeReadMessage
    rw [he]
    rfl
  have hcmd : ForwardCommandMessage coap_mapping uri = .error e := by
    unfold ForwardCommandMessage
    rw [he]
    rfl
  refine ⟨e, he, hw payload, hr buffer buf_len size, hcmd, ?_, ?_, ?_⟩
  · unfold hnd_attribute_get
    simp only [hr, bind, Except.bind]
  · unfold hnd_attribute_put
    cases request_data <;> simp only [hw, bind, Except.bind]
  · unfold hnd_command_put
    rw [hcmd]
    rfl

theorem proxies_throw_on_malformed_path_witness :
    ∃ e, DecomposePath "1/0".toList = .error e ∧
      ForwardAttributeWriteMessage MatterIpsoMapping.empty ⟨[]⟩ "1/0".toList [1] = .error e ∧
      ForwardAttributeReadMessage MatterIpsoMapping.empty ⟨[]⟩ none (fun _ => none)
        "1/0".toList [] 40 0 = .error e ∧
      ForwardCommandMessage MatterIpsoMapping.empty "1/0".toList = .error e ∧
      hnd_attribute_get MatterIpsoMapping.empty ⟨[]⟩ none (fun _ => none) "1/0".toList [] 0
        = .error e ∧
      hnd_attribute_put MatterIpsoMapping.empty ⟨[]⟩ "1/0".toList none [] = .error e ∧
      hnd_command_put MatterIpsoMapping.empty "1/0".toList = .error e :=
  proxies_throw_on_malformed_path MatterIpsoMapping.empty ⟨[]⟩ none (fun _ => none)
    "1/0".toList [1] [] [] [] 40 0 0 none (Or.inl (by decide))

/-! ## Theorems: strings with fewer than two slashes -/

/-- A string without a slash: the first rfind already finds nothing. -/
theorem ExtractBetweenSlashes_of_no_slash (str : List Char) (h : '/' ∉ str) :
    ExtractBetweenSlashes str = [] := by
  unfold ExtractBetweenSlashes rfind
  rw [lastIndexFrom_not_mem _ _ _ _ (fun hm => h (List.mem_of_mem_take hm))]

/-- A string whose only slash is not its first character: the second rfind searches the
characters before the slash and finds nothing. -/
theorem ExtractBetweenSlashes_of_one_inner_slash (a b : List Char) (ha : a ≠ [])
    (hlen : (a ++ '/' :: b).length ≤ SIZE_MAX) (hna : '/' ∉ a) (hnb : '/' ∉ b) :
    ExtractBetweenSlashes (a ++ '/' :: b) = [] := by
  have hpos : 0 < a.length := List.length_pos.mpr ha
  have hl : (a ++ '/' :: b).length = a.length + b.length + 1 := by
    simp only [List.length_append, List.length_cons]; omega
  have hlast : rfind (a ++ '/' :: b) '/' SIZE_MAX = some a.length := by
    apply rfind_of_take _ a b
    · rw [List.take_of_length_le (by omega)]
    · exact hnb
  have hprev : rfind (a ++ '/' :: b) '/' (size_sub a.length 1) = none := by
    rw [size_sub_of_le _ _ (by omega) (by omega)]
    unfold rfind
    rw [show a.length - 1 + 1 = a.length by omega, List.take_left' rfl]
    exact lastIndexFrom_not_mem _ _ _ _ hna
  unfold ExtractBetweenSlashes
  rw [hlast]
  simp only []
  rw [hprev]

/-- A string whose only slash is its first character: lastBackslashPos is 0, so
lastBackslashPos - 1 wraps to npos, the second rfind searches the whole string and finds the
same slash again, and the count of substr wraps to npos too: everything after the slash is
returned. -/
theorem ExtractBetweenSlashes_of_leading_slash (b : List Char)
    (hlen : ('/' :: b).length ≤ SIZE_MAX) (hnb : '/' ∉ b) :
    ExtractBetweenSlashes ('/' :: b) = b := by
  simp only [List.length_cons] at hlen
  have hlast : ∀ pos, pos ≥ b.length → rfind ('/' :: b) '/' pos = some 0 := by
    intro pos hp
    apply rfind_of_take _ [] b
    · rw [List.take_of_length_le (by simp only [List.length_cons]; omega)]
      rfl
    · exact hnb
  have hwrap : size_sub 0 1 = SIZE_MAX := by decide
  have hwrap2 : size_sub (size_sub 0 0) 1 = SIZE_MAX := by decide
  unfold ExtractBetweenSlashes
  rw [hlast SIZE_MAX (by omega)]
  simp only []
  rw [hwrap, hlast SIZE_MAX (by omega)]
  simp only []
  rw [hwrap2]
  unfold substr
  simp only [List.drop_succ_cons, List.drop_zero]
  exact List.take_of_length_le (by omega)

/-- C28. ExtractBetweenSlashes on a string with fewer than two slashes. Without a slash, and
with one slash that is not the first character, the result is empty. With one slash that is
the first character it is not: the result is the whole rest of the string, so the mapping key
/sdfObject selects the cluster map and its pair is stored. -/
theorem ExtractBetweenSlashes_with_fewer_than_two_slashes :
    "/abc".toList.count '/' = 1 ∧
    ExtractBetweenSlashes "/abc".toList = "abc".toList ∧
    (GenerateMatterIpsoMapping ⟨some [("/sdfObject".toList, ⟨some 6, some 3311⟩)]⟩
      ).cluster_object_map.get_ipso_id 6 = 3311 ∧
    (∀ b : List Char, ('/' :: b).length ≤ SIZE_MAX → '/' ∉ b →
      ExtractBetweenSlashes ('/' :: b) = b) ∧
    (∀ a b : List Char, a ≠ [] → (a ++ '/' :: b).length ≤ SIZE_MAX → '/' ∉ a → '/' ∉ b →
      ExtractBetweenSlashes (a ++ '/' :: b) = []) ∧
    (∀ str : List Char, '/' ∉ str → ExtractBetweenSlashes str = []) :=
  ⟨by decide, by decide, by decide, ExtractBetweenSlashes_of_leading_slash,
    ExtractBetweenSlashes_of_one_inner_slash, ExtractBetweenSlashes_of_no_slash⟩

/-! ## Theorems: decToHexa -/

/-- The character the first loop makes of a remainder below 16. -/
theorem hex_char_of_remainder :
    ∀ r : Fin 16,
      let ch := if ((r.val : Nat) : Int) < 10 then Char.ofNat (((r.val : Nat) : Int) + 48).toNat
        else Char.ofNat (((r.val : Nat) : Int) + 55).toNat
      isHexDigit ch = true ∧ hexDigitValue ch = r.val ∧ (ch = '0' → r.val = 0) := by
  decide

/-- The first loop on a non-negative number below 16 ^ fuel: it ends and appends the
hexadecimal digits of the number, least significant first. -/
theorem decToHexa_digits_spec (fuel : Nat) :
    ∀ (m : Nat) (acc : List Char), m < 16 ^ fuel →
      ∃ ds, decToHexa.digits (fuel + 1) (m : Int) acc = some (acc ++ ds) ∧
        (∀ c ∈ ds, isHexDigit c = true) ∧
        ds.foldr (fun c a => hexDigitValue c + 16 * a) 0 = m ∧
        (m = 0 → ds = []) ∧
        (m ≠ 0 → ∃ front last, ds = front ++ [last] ∧ last ≠ '0') := by
  induction fuel with
  | zero =>
    intro m acc hm
    have h0 : m = 0 := by simpa using hm
    subst h0
    exact ⟨[], by simp [decToHexa.digits], by simp, rfl, fun _ => rfl, fun h => absurd rfl h⟩
  | succ fuel ih =>
    intro m acc hm
    by_cases h0 : m = 0
    · subst h0
      exact ⟨[], by simp [decToHexa.digits], by simp, rfl, fun _ => rfl, fun h => absurd rfl h⟩
    · have hne : (m : Int) ≠ 0 := by exact_mod_cast h0
      have hlt : m % 16 < 16 := Nat.mod_lt _ (by decide)
      have hch := hex_char_of_remainder ⟨m % 16, hlt⟩
      simp only [] at hch
      obtain ⟨hc1, hc2, hc3⟩ := hch
      have hq : m / 16 < 16 ^ fuel := by
        rw [Nat.div_lt_iff_lt_mul (by decide)]
        rw [pow_succ] at hm
        exact hm
      obtain ⟨ds, hrun, hhex, hval, hzero, hlast⟩ := ih (m / 16)
        (acc ++ [if ((m % 16 : Nat) : Int) < 10 then Char.ofNat (((m % 16 : Nat) : Int) + 48).toNat
          else Char.ofNat (((m % 16 : Nat) : Int) + 55).toNat]) hq
      refine ⟨(if ((m % 16 : Nat) : Int) < 10 then Char.ofNat (((m % 16 : Nat) : Int) + 48).toNat
          else Char.ofNat (((m % 16 : Nat) : Int) + 55).toNat) :: ds, ?_, ?_, ?_, ?_, ?_⟩
      · unfold decToHexa.digits
        rw [if_pos hne]
        simp only []
        rw [show (m : Int).tmod 16 = ((m % 16 : Nat) : Int) from (Int.ofNat_tmod m 16).symm,
          show (m : Int).tdiv 16 = ((m / 16 : Nat) : Int) from (Int.ofNat_tdiv m 16).symm, hrun]
        simp
      · intro c hc
        rcases List.mem_cons.mp hc with h | h
        · rw [h]; exact hc1
        · exact hhex c h
      · rw [List.foldr_cons, hval, hc2]
        omega
      · intro h; exact absurd h h0
      · intro _
        by_cases hq0 : m / 16 = 0
        · rw [hzero hq0]
          refine ⟨[], _, rfl, ?_⟩
          intro hc
          have := hc3 hc
          omega
        · obtain ⟨front, last, hds, hl⟩ := hlast hq0
          exact ⟨_ :: front, last, by rw [hds]; rfl, hl⟩

theorem getD_append_cons (a : List Char) (x : Char) (b : List Char) (d : Char) :
    (a ++ x :: b).getD a.length d = x := by
  induction a with
  | nil => rfl
  | cons c a ih => simpa using ih

theorem set_append_cons (a : List Char) (x y : Char) (b : List Char) :
    (a ++ x :: b).set a.length y = a ++ y :: b := by
  induction a with
  | nil => rfl
  | cons c a ih => simp [List.set, ih]

/-- The second loop reverses the part of the string between i and j. -/
theorem decToHexa_swaps_spec (mid : List Char) :
    ∀ (a b : List Char) (fuel : Nat), mid.length < fuel →
      decToHexa.swaps fuel (a.length : Int) ((a.length : Int) + (mid.length : Int) - 1)
        (a ++ mid ++ b) = some (a ++ mid.reverse ++ b) := by
  induction mid using List.bidirectionalRec with
  | nil =>
    intro a b fuel hf
    obtain ⟨f, rfl⟩ : ∃ f, fuel = f + 1 := ⟨fuel - 1, by omega⟩
    unfold decToHexa.swaps
    rw [if_neg (by simp only [List.length_nil]; omega)]
    simp
  | singleton x =>
    intro a b fuel hf
    simp only [List.length_singleton] at hf
    obtain ⟨f, rfl⟩ : ∃ f, fuel = f + 2 := ⟨fuel - 2, by omega⟩
    unfold decToHexa.swaps
    rw [if_pos (by simp only [List.length_singleton]; omega)]
    have hj : ((a.length : Int) + (([x] : List Char).length : Int) - 1).toNat = a.length := by
      simp only [List.length_singleton]; omega
    rw [hj, Int.toNat_ofNat, List.append_assoc, List.singleton_append, getD_append_cons,
      set_append_cons, set_append_cons]
    unfold decToHexa.swaps
    rw [if_neg (by simp only [List.length_singleton]; omega)]
    simp
  | cons_append x inner y ih =>
    intro a b fuel hf
    simp only [List.length_cons, List.length_append, List.length_singleton, List.length_nil] at hf
    obtain ⟨f, rfl⟩ : ∃ f, fuel = f + 1 := ⟨fuel - 1, by omega⟩
    unfold decToHexa.swaps
    rw [if_pos (by simp only [List.length_cons, List.length_append, List.length_singleton, List.length_nil]
                   omega)]
    have hj : ((a.length : Int) + ((x :: (inner ++ [y])).length : Int) - 1).toNat
        = (a ++ x :: inner).length := by
      simp only [List.length_cons, List.length_append, List.length_singleton, List.length_nil]
      omega
    have e1 : a ++ x :: (inner ++ [y]) ++ b = a ++ x :: (inner ++ y :: b) := by simp
    have e2 : a ++ x :: (inner ++ y :: b) = (a ++ x :: inner) ++ y :: b := by simp
    have e3 : a ++ y :: (inner ++ y :: b) = (a ++ y :: inner) ++ y :: b := by simp
    have hlen : (a ++ x :: inner).length = (a ++ y :: inner).length := by simp
    have hgi : (a ++ x :: (inner ++ [y]) ++ b).getD a.length ' ' = x := by
      rw [e1, getD_append_cons]
    have hgj : (a ++ x :: (inner ++ [y]) ++ b).getD (a ++ x :: inner).length ' ' = y := by
      rw [e1, e2, getD_append_cons]
    rw [hj, Int.toNat_ofNat, hgi, hgj, e1, set_append_cons, e3, hlen, set_append_cons]
    have hidx : ((a.length : Int) + 1) = ((a ++ [y]).length : Int) := by simp
    have hidx2 : ((a.length : Int) + ((x :: (inner ++ [y])).length : Int) - 1 - 1)
        = ((a ++ [y]).length : Int) + (inner.length : Int) - 1 := by
      simp only [List.length_cons, List.length_append, List.length_singleton, List.length_nil]
      omega
    have e4 : (a ++ y :: inner) ++ x :: b = (a ++ [y]) ++ inner ++ (x :: b) := by simp
    rw [hidx, hidx2, e4, ih (a ++ [y]) (x :: b) f (by omega)]
    simp

/-- The value read from the left of a reversed digit string. -/
theorem hexValue_reverse (ds : List Char) :
    hexValue ds.reverse = ds.foldr (fun c a => hexDigitValue c + 16 * a) 0 := by
  unfold hexValue
  rw [List.foldl_reverse]
  congr 1
  funext c a
  omega

/-- What decToHexa returns for a non-negative number of at most eight hexadecimal digits. -/
theorem decToHexa_of_nat (m : Nat) (hm : m < 16 ^ 8) :
    ∃ ds, decToHexa (m : Int) = some ds.reverse ∧
      (∀ c ∈ ds, isHexDigit c = true) ∧
      ds.foldr (fun c a => hexDigitValue c + 16 * a) 0 = m ∧
      (m = 0 → ds = []) ∧
      (m ≠ 0 → ∃ front last, ds = front ++ [last] ∧ last ≠ '0') := by
  obtain ⟨ds, hrun, hhex, hval, hzero, hlast⟩ := decToHexa_digits_spec 8 m [] hm
  refine ⟨ds, ?_, hhex, hval, hzero, hlast⟩
  unfold decToHexa
  rw [hrun]
  simp only [List.nil_append]
  have := decToHexa_swaps_spec ds [] [] (ds.length + 1) (by omega)
  simpa using this

/-- C29. The function decToHexa on the 16-bit blocks Ip6ToStr passes. For 0 it returns the
empty string, not the numeral 0: the first loop is not entered and nothing is appended. For
every n from 1 to 65535 it returns a non-empty string of the characters 0-9 and A-F that does
not start with 0 and whose value in base 16 is n. -/
theorem decToHexa_of_block :
    decToHexa 0 = some [] ∧
    ∀ n : Int, 1 ≤ n → n ≤ 65535 →
      ∃ s, decToHexa n = some s ∧ s ≠ [] ∧ (∀ c ∈ s, isHexDigit c = true) ∧
        s.head? ≠ some '0' ∧ (hexValue s : Int) = n := by
  refine ⟨by decide, ?_⟩
  intro n h1 h2
  obtain ⟨m, rfl⟩ : ∃ m : Nat, n = (m : Int) := ⟨n.toNat, by omega⟩
  have hm : m < 16 ^ 8 := by norm_num; omega
  obtain ⟨ds, hrun, hhex, hval, _, hlast⟩ := decToHexa_of_nat m hm
  obtain ⟨front, last, hds, hl⟩ := hlast (by omega)
  refine ⟨ds.reverse, hrun, ?_, ?_, ?_, ?_⟩
  · rw [hds]; simp
  · intro c hc
    exact hhex c (List.mem_reverse.mp hc)
  · rw [hds]
    simp only [List.reverse_append, List.reverse_singleton, List.singleton_append,
      List.head?_cons, ne_eq, Option.some.injEq]
    exact hl
  · rw [hexValue_reverse, hval]

/-! ## Theorems: SplitString and joining -/

theorem splitTokens_length (d : Char) (s : List Char) :
    (splitTokens d s).length = s.count d + 1 := by
  induction s with
  | nil => rfl
  | cons c rest ih =>
    by_cases hc : c = d
    · subst hc
      simp only [splitTokens, if_true, List.length_cons, ih, List.count_cons_self]
    · simp only [splitTokens, hc, if_false]
      rw [List.count_cons_of_ne (fun e => hc e.symm)]
      cases hx : splitTokens d rest with
      | nil => exact absurd hx (splitTokens_ne_nil d rest)
      | cons t ts =>
        rw [hx] at ih
        simpa using ih

theorem splitTokens_no_delimiter (d : Char) (s : List Char) :
    ∀ t ∈ splitTokens d s, d ∉ t := by
  induction s with
  | nil =>
    intro t ht
    simp only [splitTokens, List.mem_singleton] at ht
    subst ht
    exact List.not_mem_nil d
  | cons c rest ih =>
    intro t ht
    by_cases hc : c = d
    · simp only [splitTokens, hc, if_true, List.mem_cons] at ht
      rcases ht with ht | ht
      · subst ht
        exact List.not_mem_nil d
      · exact ih t ht
    · simp only [splitTokens, hc, if_false] at ht
      cases hx : splitTokens d rest with
      | nil => exact absurd hx (splitTokens_ne_nil d rest)
      | cons u us =>
        rw [hx] at ht ih
        simp only [List.mem_cons] at ht
        rcases ht with ht | ht
        · subst ht
          intro hm
          rcases List.mem_cons.mp hm with h1 | h1
          · exact hc h1.symm
          · exact ih u (List.mem_cons_self u us) h1
        · exact ih t (List.mem_cons_of_mem u ht)

theorem splitTokens_intercalate (d : Char) (s : List Char) :
    [d].intercalate (splitTokens d s) = s := by
  induction s with
  | nil => rfl
  | cons c rest ih =>
    cases hx : splitTokens d rest with
    | nil => exact absurd hx (splitTokens_ne_nil d rest)
    | cons u us =>
      rw [hx] at ih
      by_cases hc : c = d
      · subst hc
        simp only [splitTokens, if_true, hx]
        rw [List.intercalate, List.intersperse_cons_cons, List.flatten_cons, List.flatten_cons]
        rw [List.intercalate] at ih
        rw [ih]
        rfl
      · simp only [splitTokens, hc, if_false, hx]
        rw [List.intercalate] at ih ⊢
        cases us with
        | nil =>
          simp only [List.intersperse_singleton, List.flatten_cons, List.flatten_nil,
            List.append_nil] at ih ⊢
          rw [ih]
        | cons w ws =>
          rw [List.intersperse_cons_cons, List.flatten_cons] at ih ⊢
          rw [List.cons_append, ih]

/-- C30. SplitString is the inverse of joining. For every string and delimiter the loop of
SplitString ends within the fuel given to it and returns the tokens; there is one token more
than the string has delimiters (a single empty token for the empty string); no token
contains the delimiter; and the tokens joined with the delimiter between them are the
string. -/
theorem SplitString_inverts_joining (str : List Char) (delimiter : Char) :
    SplitString.loop str delimiter (str.length + 1) 0 [] = some (SplitString str delimiter) ∧
    (SplitString str delimiter).length = str.count delimiter + 1 ∧
    SplitString [] delimiter = [[]] ∧
    (∀ token ∈ SplitString str delimiter, delimiter ∉ token) ∧
    [delimiter].intercalate (SplitString str delimiter) = str := by
  refine ⟨?_, ?_, ?_, ?_, ?_⟩
  · rw [SplitString_eq_splitTokens,
      SplitString_loop_eq str delimiter (str.length + 1) 0 [] (by omega) (by omega)]
    simp
  · rw [SplitString_eq_splitTokens]
    exact splitTokens_length delimiter str
  · rw [SplitString_eq_splitTokens]
    rfl
  · rw [SplitString_eq_splitTokens]
    exact splitTokens_no_delimiter delimiter str
  · rw [SplitString_eq_splitTokens]
    exact splitTokens_intercalate delimiter str

end Bridge
